import Mathlib

/-!
Verification development for the virtual-twin production-line simulator.

Python floats are modelled as exact rationals (`ℚ`), Python `int` as `Int`/`ℕ`,
`None`-able values as `Option`, Python dicts as insertion-ordered association
lists, and wall-clock datetimes as rational second-offsets from the simulation
start.  Each definition is a direct transcription of the function of the same
name in the repository; file and line references are given in the doc comments.
-/

/-- Uppercase a string character-by-character (Python `str.upper` for the ASCII
state names used by the simulator). -/
def strUpper (s : String) : String := ⟨s.data.map Char.toUpper⟩

/-- Python `str.strip()`: drop whitespace from both ends. -/
def strTrim (s : String) : String :=
  ⟨((s.data.dropWhile (·.isWhitespace)).reverse.dropWhile (·.isWhitespace)).reverse⟩

/-- Python `str.startswith(pre)`. -/
def strStartsWith (s pre : String) : Bool :=
  pre.data.isPrefixOf s.data

/-- Python slicing `s[n:]`. -/
def strDrop (s : String) (n : ℕ) : String := ⟨s.data.drop n⟩

/-- Helper for `strSplitChar`: accumulate the current piece (reversed). -/
def splitCharAux (c : Char) : List Char → List Char → List String
  | [], cur => [⟨cur.reverse⟩]
  | d :: rest, cur =>
      if d = c then ⟨cur.reverse⟩ :: splitCharAux c rest []
      else splitCharAux c rest (d :: cur)

/-- Python `str.split(sep)` for a one-character separator, keeping empty
pieces; the result is always non-empty. -/
def strSplitChar (c : Char) (s : String) : List String :=
  splitCharAux c s.data []

/-- Lookup in an insertion-ordered association list (Python `dict` read). -/
def dictGet? {κ ν : Type} [DecidableEq κ] : List (κ × ν) → κ → Option ν
  | [], _ => none
  | (k, v) :: rest, key => if k = key then some v else dictGet? rest key

/-- Update an existing key in place, else append (Python `dict` write). -/
def dictSet {κ ν : Type} [DecidableEq κ] : List (κ × ν) → κ → ν → List (κ × ν)
  | [], key, val => [(key, val)]
  | (k, v) :: rest, key, val =>
      if k = key then (k, val) :: rest else (k, v) :: dictSet rest key val

/-- Apply `f` to the value stored at `key`, leaving other entries alone. -/
def dictModify {κ ν : Type} [DecidableEq κ] : List (κ × ν) → κ → (ν → ν) → List (κ × ν)
  | [], _, _ => []
  | (k, v) :: rest, key, f =>
      if k = key then (k, f v) :: rest else (k, v) :: dictModify rest key f

/-- Integer range `[a, b]` inclusive, matching Python `range(a, b + 1)`. -/
def intRange (a b : Int) : List Int :=
  (List.range (b + 1 - a).toNat).map (fun (k : ℕ) => a + (k : Int))

namespace Aggregation

/-- States that trigger context capture (`INTERESTING_STATES` in
`src/src/simpy_demo/aggregation.py`). -/
def INTERESTING_STATES : List String := ["DOWN", "JAMMED"]

/-- Number of events before/after interesting events to capture
(`CONTEXT_WINDOW` in `src/src/simpy_demo/aggregation.py`). -/
def CONTEXT_WINDOW : ℕ := 5

/-- States tracked for time-in-state aggregation (`TRACKED_STATES` in
`src/src/simpy_demo/aggregation.py`). -/
def TRACKED_STATES : List String := ["EXECUTE", "STARVED", "BLOCKED", "DOWN", "JAMMED"]

/-- Aggregated statistics for a single time bucket (`BucketStats` in
`src/src/simpy_demo/aggregation.py`).  `bucket_start_ts` is the bucket's
start offset in seconds from the simulation start timestamp. -/
structure BucketStats where
  bucket_index : Int
  bucket_start_ts : ℚ
  machine_name : String
  execute_sec : ℚ := 0
  starved_sec : ℚ := 0
  blocked_sec : ℚ := 0
  down_sec : ℚ := 0
  jammed_sec : ℚ := 0
  transition_count : ℕ := 0
  down_count : ℕ := 0
  jammed_count : ℕ := 0
  deriving Repr, DecidableEq

namespace BucketStats

/-- Add duration to the appropriate state counter
(`BucketStats.add_duration`). -/
def add_duration (b : BucketStats) (state : String) (duration : ℚ) : BucketStats :=
  if strUpper state = "EXECUTE" then { b with execute_sec := b.execute_sec + duration }
  else if strUpper state = "STARVED" then { b with starved_sec := b.starved_sec + duration }
  else if strUpper state = "BLOCKED" then { b with blocked_sec := b.blocked_sec + duration }
  else if strUpper state = "DOWN" then { b with down_sec := b.down_sec + duration }
  else if strUpper state = "JAMMED" then { b with jammed_sec := b.jammed_sec + duration }
  else b

/-- Total tracked time in this bucket (`BucketStats.total_sec`). -/
def total_sec (b : BucketStats) : ℚ :=
  b.execute_sec + b.starved_sec + b.blocked_sec + b.down_sec + b.jammed_sec

/-- Availability percentage, `None` when no execute/down/jammed time was
tracked (`BucketStats.availability_pct`). -/
def availability_pct (b : BucketStats) : Option ℚ :=
  if b.execute_sec + (b.down_sec + b.jammed_sec) = 0 then none
  else some (b.execute_sec / (b.execute_sec + (b.down_sec + b.jammed_sec)) * 100)

/-- Per-state seconds accessor used to state the apportionment claims. -/
def state_sec (b : BucketStats) (state : String) : ℚ :=
  if strUpper state = "EXECUTE" then b.execute_sec
  else if strUpper state = "STARVED" then b.starved_sec
  else if strUpper state = "BLOCKED" then b.blocked_sec
  else if strUpper state = "DOWN" then b.down_sec
  else if strUpper state = "JAMMED" then b.jammed_sec
  else 0

end BucketStats

/-- Event stored in the circular buffer for context capture (`BufferedEvent`
in `src/src/simpy_demo/aggregation.py`). -/
structure BufferedEvent where
  index : ℕ
  sim_time_sec : ℚ
  machine_name : String
  state : String
  prev_state : Option String
  duration_sec : Option ℚ
  deriving Repr, DecidableEq

/-- Aggregator state (`EventAggregator` dataclass fields in
`src/src/simpy_demo/aggregation.py`).  The `datetime`-valued
`sim_start_ts` is modelled as the zero offset, so bucket and row
timestamps are second-offsets from it. -/
structure EventAggregator where
  bucket_size_sec : ℚ := 300
  buckets : List ((Int × String) × BucketStats) := []
  event_buffer : List BufferedEvent := []
  interesting_indices : List ℕ := []
  event_index : ℕ := 0
  last_state : List (String × (String × ℚ)) := []
  deriving Repr, DecidableEq

namespace EventAggregator

/-- Bucket index for a simulation time (`EventAggregator._get_bucket_index`,
Python `int(sim_time_sec // bucket_size_sec)` which is a floor). -/
def get_bucket_index (agg : EventAggregator) (sim_time_sec : ℚ) : Int :=
  Int.floor (sim_time_sec / agg.bucket_size_sec)

/-- Fresh `BucketStats` as created by `_get_or_create_bucket`. -/
def new_bucket (agg : EventAggregator) (bucket_index : Int) (machine_name : String) :
    BucketStats :=
  { bucket_index := bucket_index
    bucket_start_ts := bucket_index * agg.bucket_size_sec
    machine_name := machine_name }

/-- Create the `(bucket_index, machine_name)` bucket if absent
(`EventAggregator._get_or_create_bucket`). -/
def get_or_create_bucket (agg : EventAggregator) (bucket_index : Int)
    (machine_name : String) : EventAggregator :=
  match dictGet? agg.buckets (bucket_index, machine_name) with
  | some _ => agg
  | none =>
      { agg with
        buckets := agg.buckets ++
          [((bucket_index, machine_name), agg.new_bucket bucket_index machine_name)] }

/-- Mutate the `(bucket_index, machine_name)` bucket, creating it first when
absent; this is the `bucket = self._get_or_create_bucket(...)` followed by a
mutation of `bucket` in the source. -/
def modify_bucket (agg : EventAggregator) (bucket_index : Int) (machine_name : String)
    (f : BucketStats → BucketStats) : EventAggregator :=
  let agg := agg.get_or_create_bucket bucket_index machine_name
  { agg with buckets := dictModify agg.buckets (bucket_index, machine_name) f }

/-- Loop body of the multi-bucket branch of `_accumulate_duration`: one
`for bucket_idx in range(start_bucket, end_bucket + 1)` iteration, threading
`current_time`. -/
def accumulate_step (machine_name state : String) (end_time_sec : ℚ)
    (acc : EventAggregator × ℚ) (bucket_idx : Int) : EventAggregator × ℚ :=
  let agg := acc.1
  let current_time := acc.2
  let bucket_end := (bucket_idx + 1) * agg.bucket_size_sec
  let segment_end := min bucket_end end_time_sec
  let segment_duration := segment_end - current_time
  let agg :=
    if 0 < segment_duration then
      agg.modify_bucket bucket_idx machine_name (·.add_duration state segment_duration)
    else agg
  (agg, segment_end)

/-- Accumulate a state duration across bucket boundaries
(`EventAggregator._accumulate_duration`). -/
def accumulate_duration (agg : EventAggregator) (machine_name state : String)
    (start_time_sec end_time_sec : ℚ) : EventAggregator :=
  if end_time_sec ≤ start_time_sec then agg
  else
    let start_bucket := agg.get_bucket_index start_time_sec
    let end_bucket := agg.get_bucket_index end_time_sec
    if start_bucket = end_bucket then
      agg.modify_bucket start_bucket machine_name
        (·.add_duration state (end_time_sec - start_time_sec))
    else
      ((intRange start_bucket end_bucket).foldl
        (accumulate_step machine_name state end_time_sec)
        (agg, start_time_sec)).1

/-- Step 1 of `on_state_change`: accumulate the prev-state duration to the
bucket(s).  The Python guard `if prev_state and duration_sec and
duration_sec > 0` is the truthiness test: a present, non-empty `prev_state`
and a present, positive duration. -/
def osc_accumulate (agg : EventAggregator) (machine_name : String)
    (sim_time_sec : ℚ) (prev_state : Option String) (duration_sec : Option ℚ) :
    EventAggregator :=
  match prev_state, duration_sec with
  | some p, some d =>
      if p ≠ "" ∧ 0 < d then
        agg.accumulate_duration machine_name p (sim_time_sec - d) sim_time_sec
      else agg
  | _, _ => agg

/-- Steps 2–3 of `on_state_change`: append the event to the bounded circular
buffer (`deque(maxlen=CONTEXT_WINDOW * 20)`) and mark DOWN/JAMMED transitions
as interesting. -/
def osc_buffer (agg : EventAggregator) (machine_name new_state : String)
    (sim_time_sec : ℚ) (prev_state : Option String) (duration_sec : Option ℚ) :
    EventAggregator :=
  let event : BufferedEvent :=
    { index := agg.event_index
      sim_time_sec := sim_time_sec
      machine_name := machine_name
      state := new_state
      prev_state := prev_state
      duration_sec := duration_sec }
  let buf :=
    if agg.event_buffer.length = CONTEXT_WINDOW * 20 then agg.event_buffer.tail
    else agg.event_buffer
  let agg := { agg with event_buffer := buf ++ [event] }
  if strUpper new_state ∈ INTERESTING_STATES then
    { agg with interesting_indices := agg.interesting_indices ++ [agg.event_index] }
  else agg

/-- Step 4 of `on_state_change`: count the transition (and DOWN/JAMMED
occurrences) in the bucket containing `sim_time_sec`. -/
def osc_count (agg : EventAggregator) (machine_name new_state : String)
    (sim_time_sec : ℚ) : EventAggregator :=
  let bucket_idx := agg.get_bucket_index sim_time_sec
  let agg := agg.modify_bucket bucket_idx machine_name
    (fun b => { b with transition_count := b.transition_count + 1 })
  if strUpper new_state = "DOWN" then
    agg.modify_bucket bucket_idx machine_name
      (fun b => { b with down_count := b.down_count + 1 })
  else if strUpper new_state = "JAMMED" then
    agg.modify_bucket bucket_idx machine_name
      (fun b => { b with jammed_count := b.jammed_count + 1 })
  else agg

/-- Record a state change event (`EventAggregator.on_state_change`),
composing the numbered steps of the source; step 5 tracks the last state for
`finalize` and the global event counter advances at the end. -/
def on_state_change (agg : EventAggregator) (machine_name new_state : String)
    (sim_time_sec : ℚ) (prev_state : Option String := none)
    (duration_sec : Option ℚ := none) : EventAggregator :=
  let agg := agg.osc_accumulate machine_name sim_time_sec prev_state duration_sec
  let agg := agg.osc_buffer machine_name new_state sim_time_sec prev_state duration_sec
  let agg := agg.osc_count machine_name new_state sim_time_sec
  let agg := { agg with
    last_state := dictSet agg.last_state machine_name (new_state, sim_time_sec) }
  { agg with event_index := agg.event_index + 1 }

/-- Close the final open state of every machine (`EventAggregator.finalize`). -/
def finalize (agg : EventAggregator) (total_time_sec : ℚ) : EventAggregator :=
  agg.last_state.foldl
    (fun acc entry =>
      let machine_name := entry.1
      let state := entry.2.1
      let last_time := entry.2.2
      if last_time < total_time_sec then
        acc.accumulate_duration machine_name state last_time total_time_sec
      else acc)
    agg

end EventAggregator

/-- Row of the state summary (`EventAggregator.get_summary_df` columns). -/
structure SummaryRow where
  bucket_start_ts : ℚ
  bucket_index : Int
  machine_name : String
  execute_sec : ℚ
  starved_sec : ℚ
  blocked_sec : ℚ
  down_sec : ℚ
  jammed_sec : ℚ
  transition_count : ℕ
  down_count : ℕ
  jammed_count : ℕ
  availability_pct : Option ℚ
  deriving Repr, DecidableEq

/-- Build one summary row from a bucket (row dict built in
`get_summary_df`). -/
def BucketStats.to_row (b : BucketStats) : SummaryRow :=
  { bucket_start_ts := b.bucket_start_ts
    bucket_index := b.bucket_index
    machine_name := b.machine_name
    execute_sec := b.execute_sec
    starved_sec := b.starved_sec
    blocked_sec := b.blocked_sec
    down_sec := b.down_sec
    jammed_sec := b.jammed_sec
    transition_count := b.transition_count
    down_count := b.down_count
    jammed_count := b.jammed_count
    availability_pct := b.availability_pct }

/-- Ordering used by `df.sort_values(["machine_name", "bucket_index"])`. -/
def summaryLE (a b : SummaryRow) : Prop :=
  a.machine_name < b.machine_name ∨
    (a.machine_name = b.machine_name ∧ a.bucket_index ≤ b.bucket_index)

instance : DecidableRel summaryLE := fun a b => by
  unfold summaryLE; infer_instance

/-- State summary rows sorted by `(machine_name, bucket_index)`
(`EventAggregator.get_summary_df`). -/
def EventAggregator.get_summary (agg : EventAggregator) : List SummaryRow :=
  List.insertionSort summaryLE (agg.buckets.map (fun kv => kv.2.to_row))

/-- Row of the detail export (`EventAggregator.get_detail_df` columns; the
`ts` datetime column is `sim_time_sec` offset from the start timestamp). -/
structure DetailRow where
  sim_time_sec : ℚ
  machine_name : String
  state : String
  prev_state : Option String
  duration_sec : Option ℚ
  is_interesting : Bool
  deriving Repr, DecidableEq

namespace EventAggregator

/-- Buffer positions included for one interesting event at position `pos`:
`pos + offset` for `offset` in `range(-CONTEXT_WINDOW, CONTEXT_WINDOW + 1)`,
kept when inside the buffer. -/
def window_positions (pos len : ℕ) : List ℕ :=
  ((intRange (-(CONTEXT_WINDOW : Int)) CONTEXT_WINDOW).map (fun off => (pos : Int) + off)).filterMap
    (fun p => if 0 ≤ p ∧ p < (len : Int) then some p.toNat else none)

/-- Global event indices included in the detail export (the
`indices_to_include` set of `get_detail_df`, as the list of members). -/
def indices_to_include (agg : EventAggregator) : List ℕ :=
  let buffer_list := agg.event_buffer
  agg.interesting_indices.flatMap (fun interesting_idx =>
    match buffer_list.findIdx? (fun ev => ev.index = interesting_idx) with
    | none => []
    | some pos =>
        (window_positions pos buffer_list.length).filterMap
          (fun p => (buffer_list.get? p).map (·.index)))

/-- Filtered detail rows, deduplicated and sorted by simulation time
(`EventAggregator.get_detail_df`). -/
def get_detail (agg : EventAggregator) : List DetailRow :=
  if agg.interesting_indices = [] ∨ agg.event_buffer = [] then []
  else
    let included := agg.indices_to_include
    let rows := (agg.event_buffer.filter (fun ev => ev.index ∈ included)).map
      (fun ev =>
        { sim_time_sec := ev.sim_time_sec
          machine_name := ev.machine_name
          state := ev.state
          prev_state := ev.prev_state
          duration_sec := ev.duration_sec
          is_interesting := ev.index ∈ agg.interesting_indices : DetailRow })
    List.insertionSort (fun a b => a.sim_time_sec ≤ b.sim_time_sec) rows

/-- Per-state seconds recorded in the `(bucket_index, machine_name)` bucket,
`0` when the bucket does not exist yet. -/
def bucket_state_sec (agg : EventAggregator) (bucket_index : Int)
    (machine_name state : String) : ℚ :=
  ((dictGet? agg.buckets (bucket_index, machine_name)).map (·.state_sec state)).getD 0

/-- Bucket currently stored at `(bucket_index, machine_name)`, or the fresh
bucket `_get_or_create_bucket` would create. -/
def bucket_stats (agg : EventAggregator) (bucket_index : Int)
    (machine_name : String) : BucketStats :=
  (dictGet? agg.buckets (bucket_index, machine_name)).getD
    (agg.new_bucket bucket_index machine_name)

end EventAggregator

/-- Length of the part of the interval `[s, e]` that falls inside bucket `i`
(between the boundaries `i·sz` and `(i+1)·sz`): the proportional share the
apportionment claim assigns to bucket `i`. -/
def overlap (sz s e : ℚ) (i : Int) : ℚ :=
  max 0 (min e ((i + 1) * sz) - max s (i * sz))

/-- Example aggregator of the bucket-split spec example (`bucket_size=100`). -/
def exampleAgg : EventAggregator := { bucket_size_sec := 100 }

/-- Example bucket of the availability spec example
(`execute_sec=80, down_sec=15, jammed_sec=5`). -/
def exampleBucket : BucketStats :=
  { bucket_index := 0
    bucket_start_ts := 0
    machine_name := "Filler"
    execute_sec := 80
    down_sec := 15
    jammed_sec := 5 }

/-- Example aggregator holding `exampleBucket`, for the availability claim. -/
def exampleAvailAgg : EventAggregator :=
  { bucket_size_sec := 300, buckets := [((0, "Filler"), exampleBucket)] }

/-- Arguments of one `on_state_change` call, for stating stream-level claims. -/
structure EventCall where
  machine_name : String
  new_state : String
  sim_time_sec : ℚ
  prev_state : Option String := none
  duration_sec : Option ℚ := none
  deriving Repr, DecidableEq

/-- Feed a sequence of state-change calls into an aggregator (the way the
simulation drives `on_state_change` once per transition). -/
def feed (agg : EventAggregator) (calls : List EventCall) : EventAggregator :=
  calls.foldl
    (fun a c =>
      a.on_state_change c.machine_name c.new_state c.sim_time_sec c.prev_state
        c.duration_sec)
    agg

/-- BufferedEvent that `on_state_change` builds for the call `c` arriving as
global event number `j`. -/
def mkEvent (j : ℕ) (c : EventCall) : BufferedEvent :=
  { index := j
    sim_time_sec := c.sim_time_sec
    machine_name := c.machine_name
    state := c.new_state
    prev_state := c.prev_state
    duration_sec := c.duration_sec }

/-- Expected contents of the event buffer after feeding `calls`, the first
one arriving as global event number `start` (no eviction). -/
def expectedBuffer (start : ℕ) : List EventCall → List BufferedEvent
  | [] => []
  | c :: rest => mkEvent start c :: expectedBuffer (start + 1) rest

/-- Expected interesting indices after feeding `calls` starting at global
event number `start`. -/
def expectedInteresting (start : ℕ) : List EventCall → List ℕ
  | [] => []
  | c :: rest =>
      if strUpper c.new_state ∈ INTERESTING_STATES then
        start :: expectedInteresting (start + 1) rest
      else expectedInteresting (start + 1) rest

/-- Concrete state-change call for the context-window example. -/
def c9Call (st : String) (t : ℚ) : EventCall :=
  { machine_name := "Filler", new_state := st, sim_time_sec := t }

/-- Seven non-interesting events preceding the interesting one. -/
def c9Pre : List EventCall :=
  [c9Call "EXECUTE" 1, c9Call "STARVED" 2, c9Call "EXECUTE" 3, c9Call "BLOCKED" 4,
   c9Call "EXECUTE" 5, c9Call "STARVED" 6, c9Call "EXECUTE" 7]

/-- The single interesting (DOWN) event. -/
def c9Mid : EventCall := c9Call "DOWN" 8

/-- Two non-interesting events following the interesting one. -/
def c9Post : List EventCall := [c9Call "EXECUTE" 9, c9Call "STARVED" 10]

end Aggregation




namespace Models

/-- Material types in the production hierarchy (`MaterialType` in
`src/src/virtual_twin/models.py`). -/
inductive MaterialType where
  | TUBE
  | CASE
  | PALLET
  | NONE
  deriving Repr, DecidableEq

/-- Python enum member name (`self.cfg.output_type.name` in
`Equipment._transform_material`). -/
def MaterialType.enum_name : MaterialType → String
  | .TUBE => "TUBE"
  | .CASE => "CASE"
  | .PALLET => "PALLET"
  | .NONE => "NONE"

/-- A physical item flowing through the line (`Product` in
`src/src/virtual_twin/models.py` / `src/src/simpy_demo/models.py`); the
`uuid4`-generated `uid` is an input here (drawn from an os-randomness oracle,
not the seeded stream). -/
structure Product where
  uid : String
  type : MaterialType
  created_at : ℚ
  parent_machine : String
  is_defective : Bool := false
  genealogy : List String := []
  telemetry : List (String × ℚ) := []
  deriving Repr, DecidableEq

/-- Availability loss parameters (`ReliabilityParams`). -/
structure ReliabilityParams where
  mtbf_min : Option ℚ := none
  mttr_min : ℚ := 60
  deriving Repr, DecidableEq

/-- Performance loss parameters (`PerformanceParams`). -/
structure PerformanceParams where
  jam_prob : ℚ := 0
  jam_time_sec : ℚ := 10
  deriving Repr, DecidableEq

/-- Quality loss parameters (`QualityParams`). -/
structure QualityParams where
  defect_rate : ℚ := 0
  detection_prob : ℚ := 0
  deriving Repr, DecidableEq

/-- Cost rates (`CostRates`). -/
structure CostRates where
  labor_per_hour : ℚ := 25
  energy_per_hour : ℚ := 5
  overhead_per_hour : ℚ := 10
  deriving Repr, DecidableEq

/-- Complete machine configuration (`MachineConfig`). -/
structure MachineConfig where
  name : String
  uph : ℕ
  batch_in : ℕ := 1
  output_type : MaterialType := MaterialType.NONE
  buffer_capacity : ℕ := 50
  reliability : ReliabilityParams := {}
  performance : PerformanceParams := {}
  quality : QualityParams := {}
  cost_rates : CostRates := {}
  deriving Repr, DecidableEq

/-- Seconds per cycle, derived from UPH (`MachineConfig.cycle_time_sec`). -/
def MachineConfig.cycle_time_sec (cfg : MachineConfig) : ℚ :=
  3600 / (cfg.uph : ℚ)

/-- TelemetryGenerator at its consumption boundary
(`TelemetryGenerator.has_config_for` / `.generate` in
`src/src/simpy_demo/factories/telemetry.py`; spec §6 external collaborator):
given a material-type name and the input items it returns a flat telemetry
map, and `has_config_for` reports whether a telemetry config exists for the
type.  The generator internals (gaussian/fixed/expression fields) are outside
the claims and left abstract. -/
structure TelemetryGenerator where
  has_config_for : String → Bool
  generate : String → List Product → List (String × ℚ)

/-- Transform inputs into an output product
(`Equipment._transform_material`, `src/src/simpy_demo/equipment.py`
lines 198–238).  `draw` is the `random.random()` sample, `now` the simulation
time, `uid` the fresh uuid for the created item.  Returns `none` exactly when
the Python code would raise `IndexError` (`inputs[0]` on an empty batch in
the pass-through case). -/
def transform_material (cfg : MachineConfig)
    (telemetry_gen : Option TelemetryGenerator) (inputs : List Product)
    (draw : ℚ) (now : ℚ) (uid : String) : Option (Product × Bool) :=
  -- 1. Inherit Defects / 2. Create New Defect? / 3. Create Genealogy
  let has_inherited_defect := inputs.any (·.is_defective)
  let new_defect := decide (draw < cfg.quality.defect_rate)
  let is_bad := has_inherited_defect || new_defect
  let genealogy := inputs.map (·.uid)
  -- 4. Pass-through for NONE output type
  if cfg.output_type = MaterialType.NONE then
    match inputs with
    | [] => none
    | first :: _ => some (first, false)
  else
    -- 5. Generate telemetry from config if available
    let material_type_str := cfg.output_type.enum_name
    let telemetry :=
      match telemetry_gen with
      | some tg =>
          if tg.has_config_for material_type_str then
            tg.generate material_type_str inputs
          else []
      | none => []
    -- 6. Create output product
    some
      ({ uid := uid
         type := cfg.output_type
         created_at := now
         parent_machine := cfg.name
         is_defective := is_bad
         genealogy := genealogy
         telemetry := telemetry }, new_defect)

/-- Result from executing a phase (`PhaseResult` in
`src/src/simpy_demo/behavior/phases/base.py`). -/
structure PhaseResult where
  outputs : List Product := []
  new_defect : Bool := false
  should_continue : Bool := true
  state_change : Option String := none
  duration_sec : ℚ := 0
  deriving Repr, DecidableEq

/-- Shared per-cycle context (`PhaseContext` in
`src/src/simpy_demo/behavior/phases/base.py`; store/logging fields that the
transform phase never reads are omitted). -/
structure PhaseContext where
  telemetry_gen : Option TelemetryGenerator := none
  collected_inputs : List Product := []
  transformed_output : Option Product := none
  new_defect_created : Bool := false
  routed_to_reject : Bool := false

/-- Transform phase (`TransformPhase.execute`,
`src/src/simpy_demo/behavior/phases/transform.py` lines 25–77).  The phase
sets `telemetry={}` unconditionally ("Simplified: no per-item telemetry
generation"), never consulting `context.telemetry_gen`.  Returns `none`
exactly when the Python code would raise `IndexError` (`actual_inputs[0]`
with no inputs). -/
def TransformPhase_execute (cfg : MachineConfig) (context : PhaseContext)
    (inputs : List Product) (draw : ℚ) (now : ℚ) (uid : String) :
    Option (PhaseContext × PhaseResult) :=
  -- Use collected inputs from context (Python `or` truthiness)
  let actual_inputs :=
    if context.collected_inputs ≠ [] then context.collected_inputs else inputs
  -- 1. Inherit defects / 2. Create new defect? / 3. Create genealogy
  let has_inherited_defect := actual_inputs.any (·.is_defective)
  let new_defect := decide (draw < cfg.quality.defect_rate)
  let is_bad := has_inherited_defect || new_defect
  let genealogy := actual_inputs.map (·.uid)
  -- 4. Pass-through for NONE output type
  if cfg.output_type = MaterialType.NONE then
    match actual_inputs with
    | [] => none
    | first :: _ =>
        some
          ({ context with
              transformed_output := some first
              new_defect_created := false },
           { outputs := [first], new_defect := false })
  else
    -- 5. Create output product (telemetry simplified - no expression engine)
    let output : Product :=
      { uid := uid
        type := cfg.output_type
        created_at := now
        parent_machine := cfg.name
        is_defective := is_bad
        genealogy := genealogy
        telemetry := [] }
    some
      ({ context with
          transformed_output := some output
          new_defect_created := new_defect },
       { outputs := [output], new_defect := new_defect })

end Models

namespace Behavior

open Models

/-- Configuration for a behavior phase (`PhaseConfig` in
`src/src/simpy_demo/behavior/phases/base.py`). -/
structure PhaseConfig where
  name : String
  handler : String
  enabled : String := "always"
  deriving Repr, DecidableEq

/-- Configuration for equipment behavior (`BehaviorConfig` in
`src/src/simpy_demo/behavior/orchestrator.py`). -/
structure BehaviorConfig where
  name : String
  description : String := ""
  phases : List PhaseConfig := []
  deriving Repr, DecidableEq

/-- Per-handler `is_enabled` predicate of the six registered phase classes
(`PHASE_REGISTRY`; `BreakdownPhase.is_enabled` requires `mtbf_min` set,
`MicrostopPhase.is_enabled` requires `jam_prob > 0`, the other four always
return `True`). -/
def phase_is_enabled (handler : String) (cfg : MachineConfig) : Bool :=
  if handler = "BreakdownPhase" then cfg.reliability.mtbf_min.isSome
  else if handler = "MicrostopPhase" then decide (0 < cfg.performance.jam_prob)
  else true

/-- Phase-name → handler map built by `BehaviorOrchestrator.__init__`
(`self._phase_instances`). -/
def phase_instances (behavior : BehaviorConfig) : List (String × String) :=
  behavior.phases.foldl (fun d p => dictSet d p.name p.handler) []

/-- Enablement check (`BehaviorOrchestrator.should_run_phase`,
`src/src/simpy_demo/behavior/orchestrator.py` lines 54–80). -/
def should_run_phase (behavior : BehaviorConfig) (phase_config : PhaseConfig)
    (machine_config : MachineConfig) : Bool :=
  if phase_config.enabled = "always" then true
  else
    match dictGet? (phase_instances behavior) phase_config.name with
    | some handler => phase_is_enabled handler machine_config
    | none => true

/-- One phase execution as a state transformer: from the phase's
configuration, the machine configuration, the shared context and the current
inputs to the updated context and the `PhaseResult`.  `run_cycle` is stated
for every such semantics, so the enablement claims hold regardless of the
phases' own behavior. -/
def PhaseStep : Type :=
  PhaseConfig → MachineConfig → PhaseContext → List Product →
    PhaseContext × PhaseResult

/-- Loop of `BehaviorOrchestrator.run_cycle`
(`src/src/simpy_demo/behavior/orchestrator.py` lines 82–143): skip disabled
phases, thread outputs into the next phase's inputs, accumulate the combined
result, stop early on abort (the aborting phase's duration is not added). -/
def run_cycle_loop (behavior : BehaviorConfig) (step : PhaseStep)
    (machine_config : MachineConfig) :
    List PhaseConfig → PhaseContext → List Product → PhaseResult →
      PhaseContext × PhaseResult
  | [], context, _, combined => (context, combined)
  | pc :: rest, context, inputs, combined =>
      if should_run_phase behavior pc machine_config = false then
        run_cycle_loop behavior step machine_config rest context inputs combined
      else
        match dictGet? (phase_instances behavior) pc.name with
        | none => run_cycle_loop behavior step machine_config rest context inputs combined
        | some _ =>
            let res := step pc machine_config context inputs
            let combined :=
              if res.2.outputs ≠ [] then { combined with outputs := res.2.outputs }
              else combined
            let inputs := if res.2.outputs ≠ [] then res.2.outputs else inputs
            let combined :=
              if res.2.new_defect then { combined with new_defect := true }
              else combined
            if res.2.should_continue = false then
              (res.1, { combined with should_continue := false })
            else
              run_cycle_loop behavior step machine_config rest res.1 inputs
                { combined with
                    duration_sec := combined.duration_sec + res.2.duration_sec }

/-- Complete cycle (`BehaviorOrchestrator.run_cycle`). -/
def run_cycle (behavior : BehaviorConfig) (step : PhaseStep)
    (machine_config : MachineConfig) (context : PhaseContext) :
    PhaseContext × PhaseResult :=
  run_cycle_loop behavior step machine_config behavior.phases context [] {}

/-- The six phase configurations of `create_default_behavior`
(`src/src/simpy_demo/behavior/orchestrator.py` lines 146–186). -/
def collectCfg : PhaseConfig := { name := "collect", handler := "CollectPhase" }

/-- Breakdown phase config, enabled only when MTBF is configured. -/
def breakdownCfg : PhaseConfig :=
  { name := "breakdown", handler := "BreakdownPhase"
    enabled := "config.reliability.mtbf_min is not None" }

/-- Microstop phase config, enabled only when `jam_prob > 0`. -/
def microstopCfg : PhaseConfig :=
  { name := "microstop", handler := "MicrostopPhase"
    enabled := "config.performance.jam_prob > 0" }

/-- Execute phase config. -/
def executeCfg : PhaseConfig := { name := "execute", handler := "ExecutePhase" }

/-- Transform phase config. -/
def transformCfg : PhaseConfig :=
  { name := "transform", handler := "TransformPhase" }

/-- Inspect phase config. -/
def inspectCfg : PhaseConfig := { name := "inspect", handler := "InspectPhase" }

/-- The default 6-phase behavior (`DEFAULT_BEHAVIOR`). -/
def DEFAULT_BEHAVIOR : BehaviorConfig :=
  { name := "default_6phase"
    description := "Standard 6-phase equipment cycle"
    phases :=
      [collectCfg, breakdownCfg, microstopCfg, executeCfg, transformCfg,
        inspectCfg] }

end Behavior

namespace Models

/-- Example non-defective raw item. -/
def goodTube : Product :=
  { uid := "a1", type := MaterialType.TUBE, created_at := 0, parent_machine := "Raw" }

/-- Example defective raw item. -/
def badTube : Product :=
  { uid := "b2", type := MaterialType.TUBE, created_at := 0, parent_machine := "Raw"
    is_defective := true }

/-- Example machine configuration producing tubes. -/
def fillerCfg : MachineConfig :=
  { name := "Filler", uph := 3600, output_type := MaterialType.TUBE }

/-- Example pass-through (inspection) machine configuration. -/
def inspectorCfg : MachineConfig :=
  { name := "Inspector", uph := 3600, output_type := MaterialType.NONE }

/-- Example telemetry generator that has a config for every type and returns
a non-empty map. -/
def exGen : TelemetryGenerator :=
  { has_config_for := fun _ => true
    generate := fun _ _ => [("fill_level", 1)] }

/-- Example phase context carrying collected inputs and the generator. -/
def c6Ctx : PhaseContext :=
  { telemetry_gen := some exGen, collected_inputs := [goodTube] }

/-- Example phase context with a good and a defective input. -/
def c5Ctx : PhaseContext := { collected_inputs := [goodTube, badTube] }

end Models

namespace Models

/-- The item `TransformPhase.execute` creates in the C6 counterexample
scenario: empty telemetry despite the generator having a config. -/
def c6Out : Product :=
  { uid := "u1", type := MaterialType.TUBE, created_at := 0
    parent_machine := "Filler", is_defective := false, genealogy := ["a1"]
    telemetry := [] }

end Models

namespace Topology

/-- A buffer edge between two nodes (`BufferEdge` in
`src/src/simpy_demo/topology/graph.py`). -/
structure BufferEdge where
  source : String
  target : String
  capacity_override : Option ℕ := none
  condition : Option String := none
  deriving Repr, DecidableEq

/-- Buffer name derived from the endpoints (`BufferEdge.buffer_name`). -/
def BufferEdge.buffer_name (e : BufferEdge) : String :=
  "Buf_" ++ e.source ++ "_to_" ++ e.target

/-- The topology graph (`TopologyGraph`): insertion-ordered node names
(`_nodes` dict keys) and the edge list.  The `_outgoing`/`_incoming`
adjacency lists are derived below; appending to the Python lists preserves
per-key insertion order, so filtering the edge list is equivalent. -/
structure TopologyGraph where
  nodes : List String
  edges : List BufferEdge
  deriving Repr, DecidableEq

/-- Outgoing adjacency (`self._outgoing[name]`). -/
def outgoing (g : TopologyGraph) (name : String) : List BufferEdge :=
  g.edges.filter (fun e => e.source = name)

/-- Incoming adjacency (`self._incoming[name]`). -/
def incoming (g : TopologyGraph) (name : String) : List BufferEdge :=
  g.edges.filter (fun e => e.target = name)

/-- Error raised on cycles (`CycleDetectedError`), carrying the counts the
message `"Visited {visited} of {total} nodes."` reports. -/
structure CycleDetectedError where
  visited : ℕ
  total : ℕ
  deriving Repr, DecidableEq

/-- The message of a `CycleDetectedError`. -/
def CycleDetectedError.message (e : CycleDetectedError) : String :=
  "Topology graph contains a cycle. Visited " ++ toString e.visited ++ " of " ++
    toString e.total ++ " nodes."

/-- Processing of one outgoing edge inside the Kahn loop: decrement the
target's in-degree and enqueue it when the degree reaches zero. -/
def kahnEdge (acc : List (String × Int) × List String) (e : BufferEdge) :
    List (String × Int) × List String :=
  let in_degree := dictModify acc.1 e.target (· - 1)
  let queue :=
    if dictGet? in_degree e.target = some 0 then acc.2 ++ [e.target] else acc.2
  (in_degree, queue)

/-- The `while queue:` loop of `topological_order`, with fuel (one unit per
popped node; every pop emits a node, so `nodes.length + 1` fuel always
suffices for well-formed graphs). -/
def kahnLoop (g : TopologyGraph) :
    ℕ → List String → List (String × Int) → List String → List String
  | 0, _, _, emitted => emitted
  | _ + 1, [], _, emitted => emitted
  | fuel + 1, name :: queue, in_degree, emitted =>
      let step := (outgoing g name).foldl kahnEdge (in_degree, queue)
      kahnLoop g fuel step.2 step.1 (emitted ++ [name])

/-- Initial in-degrees (`in_degree` computed over all nodes and edges). -/
def initInDegree (g : TopologyGraph) : List (String × Int) :=
  g.edges.foldl (fun d e => dictModify d e.target (· + 1))
    (g.nodes.map (fun n => (n, (0 : Int))))

/-- The initial queue: the zero-in-degree nodes, in `in_degree.items()`
(node insertion) order. -/
def kahnQueue (g : TopologyGraph) : List String :=
  (initInDegree g).filterMap (fun p => if p.2 = 0 then some p.1 else none)

/-- All nodes emitted by running the Kahn loop to completion. -/
def kahnRun (g : TopologyGraph) : List String :=
  kahnLoop g (g.nodes.length + 1) (kahnQueue g) (initInDegree g) []

/-- Kahn topological iteration (`TopologyGraph.topological_order`,
`src/src/simpy_demo/topology/graph.py` lines 201–236): fully consuming the
generator yields the emitted nodes, or raises `CycleDetectedError` when
fewer nodes were emitted than exist. -/
def topological_order (g : TopologyGraph) :
    Except CycleDetectedError (List String) :=
  if (kahnRun g).length ≠ g.nodes.length then
    .error { visited := (kahnRun g).length, total := g.nodes.length }
  else .ok (kahnRun g)

/-- One directed edge step of the graph, as a relation. -/
def edgeRel (g : TopologyGraph) (a b : String) : Prop :=
  ∃ e ∈ g.edges, e.source = a ∧ e.target = b

/-- Well-formed graph: the state maintained by `add_node`/`add_edge` —
distinct node names, edge endpoints registered, no self-loops
(`BufferEdge.__post_init__` rejects `source == target`). -/
def wellFormed (g : TopologyGraph) : Prop :=
  g.nodes.Nodup ∧
    ∀ e ∈ g.edges, e.source ∈ g.nodes ∧ e.target ∈ g.nodes ∧ e.source ≠ e.target

/-- Truthiness of a routing condition (Python `if e.condition`). -/
def condTruthy : Option String → Bool
  | none => false
  | some s => s ≠ ""

/-- The mixed-edge validation message built for node `name`. -/
def mixedMessage (name : String) : String :=
  "Node " ++ name ++ " has mixed conditional/unconditional outgoing edges. " ++
    "All or none should have conditions."

/-- Step 5 of `validate` for one node: flag mixed
conditional/unconditional outgoing edges. -/
def mixedFlag (g : TopologyGraph) (source_name : String) : List String :=
  let out := outgoing g source_name
  let conditional_edges := out.filter (fun e => condTruthy e.condition)
  if conditional_edges ≠ [] ∧ conditional_edges.length ≠ out.length then
    [mixedMessage source_name]
  else []

/-- Validation (`TopologyGraph.validate`, lines 238–280): returns the list
of error strings; it raises nothing.  Special nodes are the names starting
with an underscore (`StationNode.is_special`). -/
def validate (g : TopologyGraph) : List String :=
  (if outgoing g "_source" = [] then ["No edges from _source - line has no input"]
    else []) ++
  (if incoming g "_sink" = [] then ["No edges to _sink - line has no output"]
    else []) ++
  (g.nodes.flatMap (fun name =>
    if ¬(strStartsWith name "_") ∧ incoming g name = [] ∧ outgoing g name = [] then
      ["Orphan node with no connections: " ++ name]
    else [])) ++
  (match topological_order g with
    | .error e => [e.message]
    | .ok _ => []) ++
  (g.nodes.flatMap (mixedFlag g))

/-- Validity check (`TopologyGraph.is_valid`). -/
def is_valid (g : TopologyGraph) : Bool :=
  validate g = []

end Topology

namespace Topology

/-- Number of edges into `t` whose source is not in the emitted list `em`
(the quantity the Kahn loop's `in_degree[t]` tracks). -/
def cnt (g : TopologyGraph) (em : List String) (t : String) : ℕ :=
  (g.edges.filter (fun e => e.target = t ∧ e.source ∉ em)).length

/-- Number of edges in `es` targeting `t` (pending decrements). -/
def pend (es : List BufferEdge) (t : String) : ℕ :=
  (es.filter (fun e => e.target = t)).length

/-- Example three-node acyclic line `_source → A → _sink`. -/
def c3Dag : TopologyGraph :=
  { nodes := ["_source", "A", "_sink"]
    edges := [{ source := "_source", target := "A" },
              { source := "A", target := "_sink" }] }

/-- Rank function certifying that `c3Dag` is acyclic. -/
def rank3 (s : String) : ℕ :=
  if s = "_source" then 0 else if s = "A" then 1 else 2

/-- Example two-node cyclic graph `A → B → A`. -/
def c3Cyc : TopologyGraph :=
  { nodes := ["A", "B"]
    edges := [{ source := "A", target := "B" },
              { source := "B", target := "A" }] }

/-- Example graph whose node `A` has mixed conditional/unconditional
outgoing edges. -/
def g4 : TopologyGraph :=
  { nodes := ["_source", "A", "_sink", "_reject"]
    edges := [{ source := "_source", target := "A" },
              { source := "A", target := "_sink" },
              { source := "A", target := "_reject"
                condition := some "product.is_defective" }] }

end Topology

namespace Models

/-- Python str-enum value of a material type (`MaterialType(str, Enum)`). -/
def MaterialType.value : MaterialType → String
  | .TUBE => "Tube"
  | .CASE => "Case"
  | .PALLET => "Pallet"
  | .NONE => "None"

end Models

namespace Layout

open Models

/-- Identity of a SimPy store in the layout: one of the three special stores
created in step 1 of `LayoutBuilder.build`, or a named buffer from
`buffers[buffer_name]`. -/
inductive StoreRef where
  | sourceStore
  | sinkStore
  | rejectStore
  | buffer (name : String)
  deriving Repr, DecidableEq

/-- The special-store map `{"_source": ..., "_sink": ..., "_reject": ...}`. -/
def specialStore? : String → Option StoreRef
  | "_source" => some .sourceStore
  | "_sink" => some .sinkStore
  | "_reject" => some .rejectStore
  | _ => none

/-- A Python value reachable by `getattr` from a `Product`, for condition
evaluation in `RoutingRule._get_attr`
(`src/src/virtual_twin/simulation/layout.py`). -/
inductive Value where
  | prod (p : Product)
  | str (s : String)
  | rat (q : ℚ)
  | bool (b : Bool)
  | strList (l : List String)
  | telemetry (t : List (String × ℚ))
  deriving Repr, DecidableEq

/-- `getattr(obj, part, False)`: the pydantic fields of `Product`; any other
access falls back to the default `False`. -/
def getattrV : Value → String → Value
  | .prod p, "uid" => .str p.uid
  | .prod p, "type" => .str p.type.value
  | .prod p, "created_at" => .rat p.created_at
  | .prod p, "parent_machine" => .str p.parent_machine
  | .prod p, "is_defective" => .bool p.is_defective
  | .prod p, "genealogy" => .strList p.genealogy
  | .prod p, "telemetry" => .telemetry p.telemetry
  | _, _ => .bool false

/-- Python `bool(...)` of such a value. -/
def truthy : Value → Bool
  | .prod _ => true
  | .str s => s ≠ ""
  | .rat q => q ≠ 0
  | .bool b => b
  | .strList l => l ≠ []
  | .telemetry t => t ≠ []

/-- `RoutingRule._get_attr` (lines 63–80): split the dotted path, drop a
leading `product` component, then chase attributes with
`getattr(obj, part, False)`. -/
def get_attr (product : Product) (path : String) : Value :=
  let parts := strSplitChar (Char.ofNat 46) path
  let parts := if parts.head? = some "product" then parts.tail else parts
  parts.foldl getattrV (.prod product)

/-- A routing rule for conditional branching (`RoutingRule`). -/
structure RoutingRule where
  target : String
  condition : Option String
  store : StoreRef
  deriving Repr, DecidableEq

/-- `RoutingRule.matches` (lines 41–61): an absent condition matches every
product; a `not ` prefix negates; otherwise the truthiness of the looked-up
attribute decides. -/
def RoutingRule.matches (rule : RoutingRule) (product : Product) : Bool :=
  match rule.condition with
  | none => true
  | some c =>
      let condition := strTrim c
      if strStartsWith condition "not " then
        !truthy (get_attr product (strTrim (strDrop condition 4)))
      else
        truthy (get_attr product condition)

/-- Connection information for a single node (`NodeConnections`). -/
structure NodeConnections where
  upstream_stores : List (String × StoreRef) := []
  downstream_routes : List RoutingRule := []
  default_downstream : Option StoreRef := none
  deriving Repr, DecidableEq

/-- `NodeConnections.get_route` (lines 98–117): the first matching rule's
store; else the default downstream (a store object is always truthy); else
the first route's store; else `ValueError`. -/
def NodeConnections.get_route (conn : NodeConnections) (product : Product) :
    Except String StoreRef :=
  match conn.downstream_routes.find? (fun rule => rule.matches product) with
  | some rule => .ok rule.store
  | none =>
      match conn.default_downstream with
      | some s => .ok s
      | none =>
          match conn.downstream_routes with
          | rule :: _ => .ok rule.store
          | [] => .error "No downstream route found for product"

/-- Buffer capacity chosen in step 2 of `LayoutBuilder.build`
(`none` models `float("inf")`). -/
def edgeCapacity (machine_configs : List (String × MachineConfig))
    (e : Topology.BufferEdge) : Option ℕ :=
  match e.capacity_override with
  | some c => some c
  | none =>
      if (specialStore? e.target).isSome then none
      else
        match dictGet? machine_configs e.target with
        | some cfg => some cfg.buffer_capacity
        | none => none

/-- Store used for an edge on the downstream side of step 3. -/
def edgeStore (e : Topology.BufferEdge) : StoreRef :=
  match specialStore? e.target with
  | some s => s
  | none => .buffer e.buffer_name

/-- Store used for an edge on the upstream side of step 3. -/
def upstreamStore (e : Topology.BufferEdge) : StoreRef :=
  match specialStore? e.source with
  | some s => s
  | none => .buffer e.buffer_name

/-- Step 3 of `build` for one node: upstream stores keyed by source in edge
order, one routing rule per downstream edge, and the first unconditioned
edge's store as the default downstream. -/
def buildNodeConn (g : Topology.TopologyGraph) (name : String) :
    NodeConnections :=
  let ups := (Topology.incoming g name).foldl
    (fun d e => dictSet d e.source (upstreamStore e)) []
  let step := (Topology.outgoing g name).foldl
    (fun (acc : List RoutingRule × Option StoreRef) e =>
      let store := edgeStore e
      let routes := acc.1 ++
        [{ target := e.target, condition := e.condition, store := store }]
      let dflt := if e.condition = none ∧ acc.2 = none then some store else acc.2
      (routes, dflt))
    ([], none)
  { upstream_stores := ups, downstream_routes := step.1,
    default_downstream := step.2 }

/-- Node names excluding the special nodes (`TopologyGraph.get_nodes`). -/
def nonSpecialNodes (g : Topology.TopologyGraph) : List String :=
  g.nodes.filter (fun n => ¬(strStartsWith n "_"))

/-- The constructor arguments step 4 of `build` passes to `Equipment` for
one node (the default, no-factory branch). -/
structure EquipmentSpec where
  name : String
  upstream : StoreRef
  downstream : StoreRef
  reject_store : Option StoreRef
  deriving Repr, DecidableEq

/-- Result of building a layout (`LayoutResult`), modulo the live SimPy
objects. -/
structure LayoutResult where
  machines : List (String × EquipmentSpec)
  buffers : List (String × Option ℕ)
  connections : List (String × NodeConnections)
  deriving Repr, DecidableEq

/-- The exceptions `LayoutBuilder.build` can raise: the propagated
`CycleDetectedError` from `topological_order`, or the `ValueError` for a
missing machine config. -/
inductive BuildError where
  | cycle (e : Topology.CycleDetectedError)
  | missingConfig (name : String)
  deriving Repr, DecidableEq

/-- `LayoutBuilder.build` (lines 180–319): buffer stores from the edges,
per-node connections, and one equipment instance per non-special node in
topological order.  It fails only when fully consuming `topological_order`
raises, or when a machine config is missing; it never calls
`TopologyGraph.validate`. -/
def build (g : Topology.TopologyGraph)
    (machine_configs : List (String × MachineConfig)) :
    Except BuildError LayoutResult :=
  let buffers := g.edges.foldl
    (fun d e => dictSet d e.buffer_name (edgeCapacity machine_configs e)) []
  let connections := (nonSpecialNodes g).foldl
    (fun d name => dictSet d name (buildNodeConn g name)) []
  match Topology.topological_order g with
  | .error e => .error (.cycle e)
  | .ok order =>
      (order.foldlM
        (fun (machines : List (String × EquipmentSpec)) (name : String) =>
          if strStartsWith name "_" then pure machines
          else
            match dictGet? machine_configs name with
            | none => Except.error (BuildError.missingConfig name)
            | some cfg =>
                let conn := (dictGet? connections name).getD {}
                let primary_upstream :=
                  match conn.upstream_stores with
                  | (_, s) :: _ => s
                  | [] => StoreRef.sourceStore
                let primary_downstream :=
                  match conn.downstream_routes with
                  | r :: _ => r.store
                  | [] => StoreRef.sinkStore
                let reject :=
                  if 0 < cfg.quality.detection_prob then
                    some StoreRef.rejectStore
                  else none
                pure (dictSet machines name
                  { name := name, upstream := primary_upstream,
                    downstream := primary_downstream, reject_store := reject }))
        []).map
        (fun machines =>
          { machines := machines, buffers := buffers,
            connections := connections })

/-- Machine configurations for `Topology.g4`. -/
def cfg4 : List (String × MachineConfig) :=
  [("A", { name := "A", uph := 3600 })]

/-- Example connections: a single conditioned route to the reject store and
no default downstream. -/
def c10Conn : NodeConnections :=
  { downstream_routes :=
      [{ target := "_reject", condition := some "product.is_defective",
         store := StoreRef.rejectStore }] }

end Layout

namespace Engine

open Models

structure Item (υ : Type) where
  uid : υ
  type : MaterialType
  created_at : ℚ
  parent_machine : String
  is_defective : Bool
  genealogy : List υ

structure LogEntry where
  timestamp : ℚ
  machine : String
  state : String
  event_type : String
  deriving Repr, DecidableEq

inductive MPhase (υ : Type) where
  | collecting (collected : List (Item υ))
  | repairing (inputs : List (Item υ))
  | jammedP (inputs : List (Item υ))
  | executing (inputs : List (Item υ))
  | putting (item : Item υ)

structure Machine (υ : Type) where
  cfg : MachineConfig
  hasReject : Bool
  items_produced : ℕ := 0
  state : String := "IDLE"
  state_start_time : ℚ := 0
  tubes_produced : ℕ := 0
  cases_produced : ℕ := 0
  pallets_produced : ℕ := 0
  defects_created : ℕ := 0
  defects_detected : ℕ := 0
  defects_escaped : ℕ := 0
  time_in_state : List (String × ℚ) :=
    [("STARVED", 0), ("EXECUTE", 0), ("DOWN", 0), ("JAMMED", 0),
     ("BLOCKED", 0)]
  event_log : List LogEntry := []
  phase : MPhase υ := .collecting []

structure StoreSt (υ : Type) where
  items : List (Item υ)
  capacity : Option ℕ
  getters : List ℕ := []
  putters : List (ℕ × Item υ) := []

inductive Task where
  | start (i : ℕ)
  | collectLoop (i : ℕ)
  | repairDone (i : ℕ)
  | jamDone (i : ℕ)
  | execDone (i : ℕ)
  | putDone (i : ℕ)
  | monitor
  deriving Repr, DecidableEq

structure Snapshot where
  time : ℚ
  tubes_produced : Int
  cases_produced : Int
  pallets_produced : Int
  good_pallets : Int
  defective_pallets : Int
  defects_created : Int
  defects_detected : Int
  buffer_levels : List (ℕ × ℕ)
  machine_states : List (String × String × ℕ)
  deriving Repr, DecidableEq

structure SimState (υ : Type) where
  now : ℚ
  seq : ℕ
  rngIdx : ℕ
  uidIdx : ℕ
  events : List (ℚ × ℕ × ℕ)
  agenda : List Task
  stores : List (StoreSt υ)
  reject : List (Item υ)
  machines : List (Machine υ)
  telemetry : List Snapshot
  prevTubes : ℕ
  prevCases : ℕ
  prevPallets : ℕ
  prevGood : Int
  prevDefective : ℕ
  prevDefectsCreated : ℕ
  prevDefectsDetected : ℕ

structure SimParams where
  rng : ℕ → ℚ
  pFail : ℚ → ℚ → ℚ
  expSample : ℚ → ℚ → ℚ
  interval : ℚ
  duration : ℚ

def logT (now : ℚ) (m : Machine υ) (new_state : String) : Machine υ :=
  if m.state = new_state then m
  else
    { m with
      time_in_state :=
        dictModify m.time_in_state m.state (· + (now - m.state_start_time))
      event_log := m.event_log ++
        [{ timestamp := now, machine := m.cfg.name, state := m.state,
           event_type := "end" },
         { timestamp := now, machine := m.cfg.name, state := new_state,
           event_type := "start" }]
      state := new_state
      state_start_time := now }

def setM (st : SimState υ) (i : ℕ) (m : Machine υ) : SimState υ :=
  { st with machines := st.machines.set i m }

def setS (st : SimState υ) (j : ℕ) (s : StoreSt υ) : SimState υ :=
  { st with stores := st.stores.set j s }

def schedule (st : SimState υ) (delay : ℚ) (pid : ℕ) : SimState υ :=
  { st with
    events := st.events ++ [(st.now + delay, st.seq, pid)]
    seq := st.seq + 1 }

def pushTasks (st : SimState υ) (ts : List Task) : SimState υ :=
  { st with agenda := ts ++ st.agenda }

def bumpRng (st : SimState υ) : SimState υ :=
  { st with rngIdx := st.rngIdx + 1 }

def bumpUid (st : SimState υ) : SimState υ :=
  { st with uidIdx := st.uidIdx + 1 }

def stageExec (st : SimState υ) (i : ℕ) (m : Machine υ)
    (inputs : List (Item υ)) : SimState υ :=
  let m := logT st.now m "EXECUTE"
  schedule (setM st i { m with phase := .executing inputs }) m.cfg.cycle_time_sec i

def stageMicro (P : SimParams) (st : SimState υ) (i : ℕ) (m : Machine υ)
    (inputs : List (Item υ)) : SimState υ :=
  if 0 < m.cfg.performance.jam_prob then
    let u := P.rng st.rngIdx
    let st := bumpRng st
    if u < m.cfg.performance.jam_prob then
      let m := logT st.now m "JAMMED"
      schedule (setM st i { m with phase := .jammedP inputs })
        m.cfg.performance.jam_time_sec i
    else stageExec st i m inputs
  else stageExec st i m inputs

def stageChecks (P : SimParams) (st : SimState υ) (i : ℕ) (m : Machine υ)
    (inputs : List (Item υ)) : SimState υ :=
  match m.cfg.reliability.mtbf_min with
  | some mtbf =>
      let p_fail := P.pFail m.cfg.cycle_time_sec (mtbf * 60)
      let u := P.rng st.rngIdx
      let st := bumpRng st
      if u < p_fail then
        let m := logT st.now m "DOWN"
        let repair := P.expSample (m.cfg.reliability.mttr_min * 60)
          (P.rng st.rngIdx)
        let st := bumpRng st
        schedule (setM st i { m with phase := .repairing inputs }) repair i
      else stageMicro P st i m inputs
  | none => stageMicro P st i m inputs

def stepCollect (P : SimParams) (st : SimState υ) (i : ℕ) : SimState υ :=
  match st.machines[i]?, st.stores[i]? with
  | some m, some s =>
      match m.phase with
      | .collecting collected =>
          if collected.length < m.cfg.batch_in then
            match s.items with
            | [] => setS st i { s with getters := s.getters ++ [i] }
            | it :: restItems =>
                let m := { m with phase := .collecting (collected ++ [it]) }
                match s.putters with
                | (j, pit) :: restPut =>
                    pushTasks (setS (setM st i m) i
                        { s with
                          items := restItems ++ [pit]
                          putters := restPut })
                      [.putDone j, .collectLoop i]
                | [] =>
                    pushTasks (setS (setM st i m) i
                        { s with items := restItems })
                      [.collectLoop i]
          else stageChecks P st i m collected
      | _ => st
  | _, _ => st

def hasSpace (s : StoreSt υ) : Bool :=
  match s.capacity with
  | none => true
  | some c => decide (s.items.length < c)

def putDownstream (st : SimState υ) (i : ℕ) (m : Machine υ)
    (output : Item υ) : SimState υ :=
  match st.stores[i + 1]? with
  | some s =>
      if hasSpace s then
        match s.getters with
        | j :: restG =>
            match s.items ++ [output] with
            | it :: restI =>
                let st := setS st (i + 1)
                  { s with items := restI, getters := restG }
                let st :=
                  match st.machines[j]? with
                  | some mj =>
                      match mj.phase with
                      | .collecting cj =>
                          setM st j { mj with phase := .collecting (cj ++ [it]) }
                      | _ => st
                  | none => st
                pushTasks (setM st i m) [.collectLoop j, .putDone i]
            | [] => setM st i m
        | [] =>
            pushTasks
              (setS (setM st i m) (i + 1) { s with items := s.items ++ [output] })
              [.putDone i]
      else
        setS (setM st i { m with phase := .putting output }) (i + 1)
          { s with putters := s.putters ++ [(i, output)] }
  | none => setM st i m

def transformOut (o : ℕ → υ) (st : SimState υ) (m : Machine υ)
    (first : Item υ) (inputs : List (Item υ)) (nd0 : Bool) :
    Item υ × Bool × SimState υ :=
  if m.cfg.output_type = MaterialType.NONE then (first, false, st)
  else
    ({ uid := o st.uidIdx
       type := m.cfg.output_type
       created_at := st.now
       parent_machine := m.cfg.name
       is_defective := inputs.any (·.is_defective) || nd0
       genealogy := inputs.map (·.uid) }, nd0,
      bumpUid st)

def updateCounters (m : Machine υ) (t : MaterialType) (nd : Bool) :
    Machine υ :=
  let m := { m with items_produced := m.items_produced + 1 }
  let m :=
    if t = MaterialType.TUBE then
      { m with tubes_produced := m.tubes_produced + 1 }
    else if t = MaterialType.CASE then
      { m with cases_produced := m.cases_produced + 1 }
    else if t = MaterialType.PALLET then
      { m with pallets_produced := m.pallets_produced + 1 }
    else m
  if nd then { m with defects_created := m.defects_created + 1 } else m

def inspectStep (P : SimParams) (st : SimState υ) (m : Machine υ)
    (defective : Bool) : Bool × Machine υ × SimState υ :=
  if 0 < m.cfg.quality.detection_prob ∧ defective = true then
    let u2 := P.rng st.rngIdx
    let st := bumpRng st
    if u2 < m.cfg.quality.detection_prob then
      (true, { m with defects_detected := m.defects_detected + 1 }, st)
    else
      (false, { m with defects_escaped := m.defects_escaped + 1 }, st)
  else (false, m, st)

def stepExecDone (P : SimParams) (o : ℕ → υ) (st : SimState υ) (i : ℕ) :
    SimState υ :=
  match st.machines[i]? with
  | some m =>
      match m.phase with
      | .executing inputs =>
          match inputs with
          | [] => st
          | first :: _ =>
              let u1 := P.rng st.rngIdx
              let st := bumpRng st
              let new_defect0 := decide (u1 < m.cfg.quality.defect_rate)
              match transformOut o st m first inputs new_defect0 with
              | (output, new_defect, st) =>
                  let m := updateCounters m output.type new_defect
                  match inspectStep P st m output.is_defective with
                  | (routed, m, st) =>
                      let m := logT st.now m "BLOCKED"
                      if routed && m.hasReject then
                        pushTasks
                          (setM { st with reject := st.reject ++ [output] } i m)
                          [.putDone i]
                      else putDownstream st i m output
      | _ => st
  | none => st

def stepRepairDone (P : SimParams) (st : SimState υ) (i : ℕ) : SimState υ :=
  match st.machines[i]? with
  | some m =>
      match m.phase with
      | .repairing inputs => stageMicro P st i m inputs
      | _ => st
  | none => st

def stepJamDone (st : SimState υ) (i : ℕ) : SimState υ :=
  match st.machines[i]? with
  | some m =>
      match m.phase with
      | .jammedP inputs => stageExec st i m inputs
      | _ => st
  | none => st

def stepStart (st : SimState υ) (i : ℕ) : SimState υ :=
  match st.machines[i]? with
  | some m =>
      let m := logT st.now m "STARVED"
      pushTasks (setM st i { m with phase := .collecting [] }) [.collectLoop i]
  | none => st

def stepMonitor (P : SimParams) (st : SimState υ) : SimState υ :=
  let totTubes : ℕ := (st.machines.map (·.tubes_produced)).sum
  let totCases : ℕ := (st.machines.map (·.cases_produced)).sum
  let totPallets : ℕ := (st.machines.map (·.pallets_produced)).sum
  let totDC : ℕ := (st.machines.map (·.defects_created)).sum
  let totDD : ℕ := (st.machines.map (·.defects_detected)).sum
  let totDefective : ℕ :=
    match st.machines.find? (fun m => m.cfg.output_type = MaterialType.PALLET) with
    | some p => p.defects_escaped
    | none => 0
  let totGood : Int := (totPallets : Int) - Int.ofNat totDefective
  let snap : Snapshot :=
    { time := st.now
      tubes_produced := (totTubes : Int) - (st.prevTubes : Int)
      cases_produced := (totCases : Int) - (st.prevCases : Int)
      pallets_produced := (totPallets : Int) - (st.prevPallets : Int)
      good_pallets := totGood - st.prevGood
      defective_pallets := Int.ofNat totDefective - (st.prevDefective : Int)
      defects_created := (totDC : Int) - (st.prevDefectsCreated : Int)
      defects_detected := (totDD : Int) - (st.prevDefectsDetected : Int)
      buffer_levels := (st.stores.drop 1).filterMap
        (fun s => match s.capacity with
          | some c => some (s.items.length, c)
          | none => none)
      machine_states := st.machines.map
        (fun m => (m.cfg.name, m.state, m.items_produced)) }
  schedule
    { st with
      telemetry := st.telemetry ++ [snap]
      prevTubes := totTubes
      prevCases := totCases
      prevPallets := totPallets
      prevGood := totGood
      prevDefective := totDefective
      prevDefectsCreated := totDC
      prevDefectsDetected := totDD }
    P.interval st.machines.length

def stepTask (P : SimParams) (o : ℕ → υ) (st : SimState υ) :
    Task → SimState υ
  | .start i => stepStart st i
  | .putDone i => stepStart st i
  | .collectLoop i => stepCollect P st i
  | .repairDone i => stepRepairDone P st i
  | .jamDone i => stepJamDone st i
  | .execDone i => stepExecDone P o st i
  | .monitor => stepMonitor P st

def popMin : List (ℚ × ℕ × ℕ) → Option ((ℚ × ℕ × ℕ) × List (ℚ × ℕ × ℕ))
  | [] => none
  | e :: rest =>
      match popMin rest with
      | none => some (e, [])
      | some (e', rest') =>
          if e.1 < e'.1 ∨ (e.1 = e'.1 ∧ e.2.1 < e'.2.1) then some (e, rest)
          else some (e', e :: rest')

def wakeTask (st : SimState υ) (pid : ℕ) : Option Task :=
  if pid = st.machines.length then some .monitor
  else
    match st.machines[pid]? with
    | some m =>
        match m.phase with
        | .repairing _ => some (.repairDone pid)
        | .jammedP _ => some (.jamDone pid)
        | .executing _ => some (.execDone pid)
        | _ => none
    | none => none

def dropAgenda (st : SimState υ) : SimState υ :=
  { st with agenda := st.agenda.tail }

def advanceClock (st : SimState υ) (tm : ℚ) (rest : List (ℚ × ℕ × ℕ)) :
    SimState υ :=
  { st with now := tm, events := rest }

def setAgenda (st : SimState υ) (ts : List Task) : SimState υ :=
  { st with agenda := ts }

def haltEvents (st : SimState υ) : SimState υ :=
  { st with events := [] }

def simStep (P : SimParams) (o : ℕ → υ) (st : SimState υ) : SimState υ :=
  match st.agenda with
  | t :: _ => stepTask P o (dropAgenda st) t
  | [] =>
      match popMin st.events with
      | none => st
      | some ((tm, _, pid), rest) =>
          if tm < P.duration then
            match wakeTask (advanceClock st tm rest) pid with
            | some t => setAgenda (advanceClock st tm rest) [t]
            | none => advanceClock st tm rest
          else haltEvents st

def runSim (P : SimParams) (o : ℕ → υ) : ℕ → SimState υ → SimState υ
  | 0, st => st
  | fuel + 1, st => runSim P o fuel (simStep P o st)

def initState (cfgs : List MachineConfig) (inventory : ℕ)
    (material : MaterialType) (parent : String) (o : ℕ → υ) : SimState υ :=
  { now := 0
    seq := 0
    rngIdx := 0
    uidIdx := inventory
    events := []
    agenda := (List.range cfgs.length).map Task.start ++ [Task.monitor]
    stores :=
      { items := (List.range inventory).map (fun k =>
          { uid := o k, type := material, created_at := 0,
            parent_machine := parent, is_defective := false,
            genealogy := [] })
        capacity := none } ::
      (cfgs.zip (List.range cfgs.length)).map (fun p =>
        ({ items := [], capacity :=
            if p.2 = cfgs.length - 1 then none
            else some p.1.buffer_capacity } : StoreSt υ))
    reject := []
    machines := cfgs.map (fun c =>
      ({ cfg := c, hasReject := decide (0 < c.quality.detection_prob) } :
        Machine υ))
    telemetry := []
    prevTubes := 0
    prevCases := 0
    prevPallets := 0
    prevGood := 0
    prevDefective := 0
    prevDefectsCreated := 0
    prevDefectsDetected := 0 }

def runSimulation (P : SimParams) (cfgs : List MachineConfig)
    (inventory : ℕ) (material : MaterialType) (parent : String)
    (fuel : ℕ) (o : ℕ → υ) : SimState υ :=
  runSim P o fuel (initState cfgs inventory material parent o)

def trace (st : SimState υ) : List LogEntry :=
  st.machines.flatMap (·.event_log)

def summary (st : SimState υ) : List Snapshot :=
  st.telemetry

def mapItem (f : υ → υ') (it : Item υ) : Item υ' :=
  { uid := f it.uid
    type := it.type
    created_at := it.created_at
    parent_machine := it.parent_machine
    is_defective := it.is_defective
    genealogy := it.genealogy.map f }

def mapPhase (f : υ → υ') : MPhase υ → MPhase υ'
  | .collecting c => .collecting (c.map (mapItem f))
  | .repairing c => .repairing (c.map (mapItem f))
  | .jammedP c => .jammedP (c.map (mapItem f))
  | .executing c => .executing (c.map (mapItem f))
  | .putting it => .putting (mapItem f it)

def mapMachine (f : υ → υ') (m : Machine υ) : Machine υ' :=
  { cfg := m.cfg
    hasReject := m.hasReject
    items_produced := m.items_produced
    state := m.state
    state_start_time := m.state_start_time
    tubes_produced := m.tubes_produced
    cases_produced := m.cases_produced
    pallets_produced := m.pallets_produced
    defects_created := m.defects_created
    defects_detected := m.defects_detected
    defects_escaped := m.defects_escaped
    time_in_state := m.time_in_state
    event_log := m.event_log
    phase := mapPhase f m.phase }

def mapStore (f : υ → υ') (s : StoreSt υ) : StoreSt υ' :=
  { items := s.items.map (mapItem f)
    capacity := s.capacity
    getters := s.getters
    putters := s.putters.map (fun p => (p.1, mapItem f p.2)) }

def mapState (f : υ → υ') (st : SimState υ) : SimState υ' :=
  { now := st.now
    seq := st.seq
    rngIdx := st.rngIdx
    uidIdx := st.uidIdx
    events := st.events
    agenda := st.agenda
    stores := st.stores.map (mapStore f)
    reject := st.reject.map (mapItem f)
    machines := st.machines.map (mapMachine f)
    telemetry := st.telemetry
    prevTubes := st.prevTubes
    prevCases := st.prevCases
    prevPallets := st.prevPallets
    prevGood := st.prevGood
    prevDefective := st.prevDefective
    prevDefectsCreated := st.prevDefectsCreated
    prevDefectsDetected := st.prevDefectsDetected }

end Engine

/-! ## Supporting lemmas -/

section DictLemmas

variable {κ ν : Type} [DecidableEq κ]

lemma dictGet?_dictModify_self (l : List (κ × ν)) (k : κ) (f : ν → ν) :
    dictGet? (dictModify l k f) k = (dictGet? l k).map f := by
  induction l with
  | nil => rfl
  | cons hd tl ih =>
      obtain ⟨a, b⟩ := hd
      by_cases h : a = k <;> simp [dictModify, dictGet?, h, ih]

lemma dictGet?_dictModify_ne (l : List (κ × ν)) (k k' : κ) (f : ν → ν)
    (h : k' ≠ k) : dictGet? (dictModify l k f) k' = dictGet? l k' := by
  induction l with
  | nil => rfl
  | cons hd tl ih =>
      obtain ⟨a, b⟩ := hd
      by_cases hak : a = k
      · subst hak
        simp [dictModify, dictGet?, Ne.symm h]
      · by_cases hak' : a = k' <;> simp [dictModify, dictGet?, hak, hak', h, ih]

lemma dictGet?_append (l l' : List (κ × ν)) (k : κ) :
    dictGet? (l ++ l') k =
      match dictGet? l k with
      | some v => some v
      | none => dictGet? l' k := by
  induction l with
  | nil => rfl
  | cons hd tl ih =>
      obtain ⟨a, b⟩ := hd
      by_cases h : a = k <;> simp [dictGet?, h, ih]

lemma dictGet?_singleton_ne (k k' : κ) (v : ν) (h : k' ≠ k) :
    dictGet? [(k, v)] k' = none := by
  simp [dictGet?, Ne.symm h]

end DictLemmas

section FloorLemmas

lemma floor_mul_le (sz t : ℚ) (hsz : 0 < sz) : (⌊t / sz⌋ : ℚ) * sz ≤ t := by
  rw [← le_div_iff₀ hsz]
  exact Int.floor_le _

lemma lt_floor_succ_mul (sz t : ℚ) (hsz : 0 < sz) : t < ((⌊t / sz⌋ : ℚ) + 1) * sz := by
  rw [← div_lt_iff₀ hsz]
  exact Int.lt_floor_add_one _

lemma floor_div_mono (sz s e : ℚ) (hsz : 0 < sz) (h : s ≤ e) :
    ⌊s / sz⌋ ≤ ⌊e / sz⌋ :=
  Int.floor_le_floor (by gcongr)

section IntRangeLemmas

lemma intRange_eq_nil {a b : Int} (h : b < a) : intRange a b = [] := by
  unfold intRange
  have : (b + 1 - a).toNat = 0 := by omega
  simp [this]

lemma intRange_cons {a b : Int} (h : a ≤ b) : intRange a b = a :: intRange (a + 1) b := by
  unfold intRange
  have h1 : (b + 1 - a).toNat = (b + 1 - (a + 1)).toNat + 1 := by omega
  rw [h1, List.range_succ_eq_map]
  rw [List.map_cons, List.map_map]
  congr 1
  · simp
  · refine List.map_congr_left ?_
    intro k _
    simp only [Function.comp_apply]
    push_cast
    ring

end IntRangeLemmas

namespace Aggregation

section BucketLemmas

open BucketStats EventAggregator

lemma state_sec_transition_count (b : BucketStats) (st : String) (n : ℕ) :
    ({ b with transition_count := n } : BucketStats).state_sec st = b.state_sec st := rfl

lemma state_sec_down_count (b : BucketStats) (st : String) (n : ℕ) :
    ({ b with down_count := n } : BucketStats).state_sec st = b.state_sec st := rfl

lemma state_sec_jammed_count (b : BucketStats) (st : String) (n : ℕ) :
    ({ b with jammed_count := n } : BucketStats).state_sec st = b.state_sec st := rfl

lemma tracked_ne_empty {st : String} (h : strUpper st ∈ TRACKED_STATES) : st ≠ "" := by
  intro he
  rw [he] at h
  exact absurd h (by decide)

lemma state_sec_add_duration {st : String} (b : BucketStats) (d : ℚ)
    (h : strUpper st ∈ TRACKED_STATES) :
    (b.add_duration st d).state_sec st = b.state_sec st + d := by
  simp only [TRACKED_STATES, List.mem_cons, List.not_mem_nil, or_false] at h
  rcases h with h | h | h | h | h <;>
    simp [add_duration, state_sec, h]

lemma state_sec_new_bucket (agg : EventAggregator) (i : Int) (m st : String) :
    (agg.new_bucket i m).state_sec st = 0 := by
  unfold new_bucket state_sec
  split_ifs <;> rfl

lemma bucket_stats_state_sec (agg : EventAggregator) (i : Int) (m st : String) :
    (agg.bucket_stats i m).state_sec st = agg.bucket_state_sec i m st := by
  unfold bucket_stats bucket_state_sec
  cases h : dictGet? agg.buckets (i, m) <;> simp [h, state_sec_new_bucket]

lemma get_or_create_bucket_size (agg : EventAggregator) (i : Int) (m : String) :
    (agg.get_or_create_bucket i m).bucket_size_sec = agg.bucket_size_sec := by
  unfold get_or_create_bucket
  cases h : dictGet? agg.buckets (i, m) <;> simp [h]

lemma modify_bucket_size (agg : EventAggregator) (i : Int) (m : String)
    (f : BucketStats → BucketStats) :
    (agg.modify_bucket i m f).bucket_size_sec = agg.bucket_size_sec := by
  unfold modify_bucket
  simp [get_or_create_bucket_size]

lemma dictGet?_get_or_create_self (agg : EventAggregator) (i : Int) (m : String) :
    dictGet? (agg.get_or_create_bucket i m).buckets (i, m) = some (agg.bucket_stats i m) := by
  unfold get_or_create_bucket bucket_stats
  cases h : dictGet? agg.buckets (i, m) with
  | none => simp [h, dictGet?_append, dictGet?]
  | some b => simp [h]

lemma dictGet?_get_or_create_ne (agg : EventAggregator) {i i' : Int} {m m' : String}
    (hne : (i', m') ≠ (i, m)) :
    dictGet? (agg.get_or_create_bucket i m).buckets (i', m') =
      dictGet? agg.buckets (i', m') := by
  unfold get_or_create_bucket
  cases h : dictGet? agg.buckets (i, m) with
  | none =>
      simp only [h]
      rw [dictGet?_append]
      cases h' : dictGet? agg.buckets (i', m') <;>
        simp [h', dictGet?_singleton_ne _ _ _ hne]
  | some b => simp [h]

lemma bucket_state_sec_modify_self (agg : EventAggregator) (i : Int) (m st : String)
    (f : BucketStats → BucketStats) :
    (agg.modify_bucket i m f).bucket_state_sec i m st =
      (f (agg.bucket_stats i m)).state_sec st := by
  unfold modify_bucket bucket_state_sec
  simp only []
  rw [dictGet?_dictModify_self, dictGet?_get_or_create_self]
  rfl

lemma bucket_state_sec_modify_ne (agg : EventAggregator) {i i' : Int} {m m' : String}
    (st : String) (f : BucketStats → BucketStats) (hne : (i', m') ≠ (i, m)) :
    (agg.modify_bucket i m f).bucket_state_sec i' m' st =
      agg.bucket_state_sec i' m' st := by
  unfold modify_bucket bucket_state_sec
  simp only []
  rw [dictGet?_dictModify_ne _ _ _ _ hne, dictGet?_get_or_create_ne _ hne]

lemma bucket_state_sec_modify_add {st : String} (agg : EventAggregator) (i i' : Int)
    (m : String) (d : ℚ) (hst : strUpper st ∈ TRACKED_STATES) :
    (agg.modify_bucket i m (·.add_duration st d)).bucket_state_sec i' m st =
      agg.bucket_state_sec i' m st + (if i' = i then d else 0) := by
  by_cases h : i' = i
  · subst h
    rw [bucket_state_sec_modify_self, state_sec_add_duration _ _ hst,
      bucket_stats_state_sec]
    simp
  · rw [bucket_state_sec_modify_ne _ _ _ (by simp [h])]
    simp [h]

end BucketLemmas

end Aggregation

namespace Aggregation

section AccumulateLemmas

open EventAggregator BucketStats

lemma int_mul_le_int_mul {p q : Int} {sz : ℚ} (hpq : p ≤ q) (hsz : 0 ≤ sz) :
    (p : ℚ) * sz ≤ (q : ℚ) * sz :=
  mul_le_mul_of_nonneg_right (by exact_mod_cast hpq) hsz

lemma overlap_eq_zero_of_lt {sz s e : ℚ} (hsz : 0 < sz) {i : Int}
    (h : i < ⌊s / sz⌋) : overlap sz s e i = 0 := by
  unfold overlap
  apply max_eq_left
  have h1 : ((i : ℚ) + 1) * sz ≤ ((⌊s / sz⌋ : Int) : ℚ) * sz := by
    have := int_mul_le_int_mul (show i + 1 ≤ ⌊s / sz⌋ by omega) hsz.le
    push_cast at this ⊢
    linarith
  have h2 : ((⌊s / sz⌋ : Int) : ℚ) * sz ≤ s := floor_mul_le sz s hsz
  have h3 : min e (((i : ℚ) + 1) * sz) ≤ ((i : ℚ) + 1) * sz := min_le_right _ _
  have h4 : s ≤ max s ((i : ℚ) * sz) := le_max_left _ _
  linarith

lemma overlap_eq_zero_of_gt {sz s e : ℚ} (hsz : 0 < sz) {i : Int}
    (h : ⌊e / sz⌋ < i) (hse : s ≤ e) : overlap sz s e i = 0 := by
  unfold overlap
  apply max_eq_left
  have h1 : ((⌊e / sz⌋ : Int) : ℚ) * sz + sz ≤ (i : ℚ) * sz := by
    have := int_mul_le_int_mul (show ⌊e / sz⌋ + 1 ≤ i by omega) hsz.le
    push_cast at this ⊢
    linarith
  have h2 : e < ((⌊e / sz⌋ : Int) : ℚ) * sz + sz := by
    have := lt_floor_succ_mul sz e hsz
    linarith [this]
  have h3 : min e (((i : ℚ) + 1) * sz) ≤ e := min_le_left _ _
  have h4 : (i : ℚ) * sz ≤ max s ((i : ℚ) * sz) := le_max_right _ _
  linarith

lemma accumulate_step_eq (m st : String) (e : ℚ) (agg : EventAggregator)
    (cur : ℚ) (idx : Int) :
    accumulate_step m st e (agg, cur) idx =
      (if 0 < min ((idx + 1) * agg.bucket_size_sec) e - cur then
        agg.modify_bucket idx m
          (·.add_duration st (min ((idx + 1) * agg.bucket_size_sec) e - cur))
      else agg,
      min ((idx + 1) * agg.bucket_size_sec) e) := rfl

lemma accum_fold_spec {m st : String} {s e sz : ℚ} (hsz : 0 < sz)
    (hst : strUpper st ∈ TRACKED_STATES) (hse : s < e) :
    ∀ (n : ℕ), ∀ (j : Int), ⌊s / sz⌋ ≤ j → j + n = ⌊e / sz⌋ →
      ∀ (agg : EventAggregator) (cur : ℚ), agg.bucket_size_sec = sz →
      cur = max s ((j : ℚ) * sz) →
      ((intRange j ⌊e / sz⌋).foldl (accumulate_step m st e)
          (agg, cur)).1.bucket_size_sec = sz ∧
      ∀ i : Int,
        ((intRange j ⌊e / sz⌋).foldl (accumulate_step m st e)
            (agg, cur)).1.bucket_state_sec i m st =
          agg.bucket_state_sec i m st + (if j ≤ i then overlap sz s e i else 0) := by
  have hsfloor : ((⌊s / sz⌋ : Int) : ℚ) * sz ≤ s := floor_mul_le sz s hsz
  have hslt : s < (((⌊s / sz⌋ : Int) : ℚ) + 1) * sz := lt_floor_succ_mul sz s hsz
  have hefloor : ((⌊e / sz⌋ : Int) : ℚ) * sz ≤ e := floor_mul_le sz e hsz
  have helt : e < (((⌊e / sz⌋ : Int) : ℚ) + 1) * sz := lt_floor_succ_mul sz e hsz
  intro n
  induction n with
  | zero =>
      intro j hsb hj agg cur hagg hcur
      have hje : j = ⌊e / sz⌋ := by omega
      have helt' : e < ((j : ℚ) + 1) * sz := by rw [hje]; linarith
      rw [← hje, intRange_cons (le_refl _), intRange_eq_nil (by omega)]
      simp only [List.foldl_cons, List.foldl_nil]
      rw [accumulate_step_eq]
      simp only [hagg]
      have hmin : min (((j : ℚ) + 1) * sz) e = e := min_eq_right (by linarith)
      rw [hmin]
      by_cases hpos : 0 < e - cur
      · rw [if_pos hpos]
        constructor
        · rw [modify_bucket_size, hagg]
        · intro i
          rw [bucket_state_sec_modify_add _ _ _ _ _ hst]
          congr 1
          by_cases hij : i = j
          · subst hij
            rw [if_pos (le_refl _), if_pos rfl]
            unfold overlap
            rw [min_comm e _, hmin, hcur]
            exact (max_eq_right (by rw [hcur] at hpos; linarith)).symm
          · rw [if_neg hij]
            rcases lt_or_gt_of_ne hij with hlt | hgt
            · rw [if_neg (by omega)]
            · rw [if_pos (by omega), overlap_eq_zero_of_gt hsz (by omega) hse.le]
      · rw [if_neg hpos]
        refine ⟨hagg, ?_⟩
        intro i
        have hz : (if j ≤ i then overlap sz s e i else 0) = 0 := by
          by_cases hij : i = j
          · subst hij
            rw [if_pos (le_refl _)]
            unfold overlap
            rw [min_comm e _, hmin]
            refine max_eq_left ?_
            rw [← hcur]
            linarith [not_lt.mp hpos]
          · by_cases hji : j ≤ i
            · rw [if_pos hji, overlap_eq_zero_of_gt hsz (by omega) hse.le]
            · rw [if_neg hji]
        rw [hz, add_zero]
  | succ n ih =>
      intro j hsb hj agg cur hagg hcur
      have hjeb : j + 1 ≤ ⌊e / sz⌋ := by omega
      rw [intRange_cons (by omega)]
      simp only [List.foldl_cons]
      rw [accumulate_step_eq]
      simp only [hagg]
      have hj1e : ((j : ℚ) + 1) * sz ≤ e := by
        have h1 := int_mul_le_int_mul hjeb hsz.le
        push_cast at h1
        linarith
      have hmin : min (((j : ℚ) + 1) * sz) e = ((j : ℚ) + 1) * sz := min_eq_left hj1e
      rw [hmin]
      have hsj1 : s < ((j : ℚ) + 1) * sz := by
        have h1 := int_mul_le_int_mul (show ⌊s / sz⌋ + 1 ≤ j + 1 by omega) hsz.le
        push_cast at h1
        linarith
      have hseg_pos : 0 < ((j : ℚ) + 1) * sz - cur := by
        have hj2 : (j : ℚ) * sz < ((j : ℚ) + 1) * sz := by nlinarith
        rw [hcur]
        have := max_lt hsj1 hj2
        linarith
      rw [if_pos hseg_pos]
      have hres := ih (j + 1) (by omega) (by omega)
        (agg.modify_bucket j m (·.add_duration st (((j : ℚ) + 1) * sz - cur)))
        (((j : ℚ) + 1) * sz)
        (by rw [modify_bucket_size, hagg])
        (by push_cast; rw [max_eq_right (by linarith)])
      refine ⟨hres.1, ?_⟩
      intro i
      rw [hres.2 i, bucket_state_sec_modify_add _ _ _ _ _ hst]
      have hovj : overlap sz s e j = ((j : ℚ) + 1) * sz - cur := by
        unfold overlap
        rw [min_comm e _, hmin, ← hcur]
        exact max_eq_right (by linarith)
      by_cases hij : i = j
      · subst hij
        rw [if_pos rfl, if_neg (by omega), if_pos (le_refl _), hovj]
        ring
      · rw [if_neg hij]
        by_cases hji : j ≤ i
        · rw [if_pos hji, if_pos (by omega)]
          ring
        · rw [if_neg hji, if_neg (by omega)]
          ring

end AccumulateLemmas

end Aggregation

namespace Aggregation

section AccumulateSpec

open EventAggregator BucketStats

/-- Characterization of `_accumulate_duration`: each bucket receives exactly
the length of the part of `[s, e]` lying between its boundaries. -/
lemma accumulate_duration_bucket_state_sec (agg : EventAggregator) (m st : String)
    (s e : ℚ) (hsz : 0 < agg.bucket_size_sec) (hst : strUpper st ∈ TRACKED_STATES)
    (hse : s < e) :
    ∀ i : Int, (agg.accumulate_duration m st s e).bucket_state_sec i m st =
      agg.bucket_state_sec i m st + overlap agg.bucket_size_sec s e i := by
  intro i
  set sz := agg.bucket_size_sec with hszdef
  have hsfloor : ((⌊s / sz⌋ : Int) : ℚ) * sz ≤ s := floor_mul_le sz s hsz
  have hslt : s < (((⌊s / sz⌋ : Int) : ℚ) + 1) * sz := lt_floor_succ_mul sz s hsz
  have hefloor : ((⌊e / sz⌋ : Int) : ℚ) * sz ≤ e := floor_mul_le sz e hsz
  have helt : e < (((⌊e / sz⌋ : Int) : ℚ) + 1) * sz := lt_floor_succ_mul sz e hsz
  have hmono : ⌊s / sz⌋ ≤ ⌊e / sz⌋ := floor_div_mono sz s e hsz hse.le
  unfold accumulate_duration get_bucket_index
  rw [if_neg (not_le.mpr hse), ← hszdef]
  by_cases hb : ⌊s / sz⌋ = ⌊e / sz⌋
  · rw [if_pos hb, bucket_state_sec_modify_add _ _ _ _ _ hst]
    congr 1
    by_cases hij : i = ⌊s / sz⌋
    · rw [if_pos hij]
      unfold overlap
      have hifl : ((i : ℚ)) * sz ≤ s := by rw [hij]; exact hsfloor
      have hilt : e ≤ ((i : ℚ) + 1) * sz := by
        rw [hij, hb]
        linarith
      rw [min_eq_left hilt, max_eq_left hifl]
      exact (max_eq_right (by linarith)).symm
    · rw [if_neg hij]
      rcases lt_or_gt_of_ne hij with hlt | hgt
      · exact (overlap_eq_zero_of_lt hsz hlt).symm
      · exact (overlap_eq_zero_of_gt hsz (by omega) hse.le).symm
  · rw [if_neg hb]
    have hlt : ⌊s / sz⌋ < ⌊e / sz⌋ := lt_of_le_of_ne hmono hb
    have hres := @accum_fold_spec m st s e sz hsz hst hse (⌊e / sz⌋ - ⌊s / sz⌋).toNat
      ⌊s / sz⌋ (le_refl _) (by omega) agg s rfl (max_eq_left hsfloor).symm
    rw [hres.2 i]
    congr 1
    by_cases hsb : ⌊s / sz⌋ ≤ i
    · rw [if_pos hsb]
    · rw [if_neg hsb, overlap_eq_zero_of_lt hsz (by omega)]

/-- Sum of per-bucket overlaps over the touched bucket range, from bucket `j`
on: the remaining interval length. -/
lemma overlap_sum_from {s e sz : ℚ} (hsz : 0 < sz) (hse : s < e) :
    ∀ (n : ℕ), ∀ (j : Int), ⌊s / sz⌋ ≤ j → j + n = ⌊e / sz⌋ →
      ((intRange j ⌊e / sz⌋).map (overlap sz s e)).sum = e - max s ((j : ℚ) * sz) := by
  have hsfloor : ((⌊s / sz⌋ : Int) : ℚ) * sz ≤ s := floor_mul_le sz s hsz
  have hslt : s < (((⌊s / sz⌋ : Int) : ℚ) + 1) * sz := lt_floor_succ_mul sz s hsz
  have hefloor : ((⌊e / sz⌋ : Int) : ℚ) * sz ≤ e := floor_mul_le sz e hsz
  have helt : e < (((⌊e / sz⌋ : Int) : ℚ) + 1) * sz := lt_floor_succ_mul sz e hsz
  intro n
  induction n with
  | zero =>
      intro j hsb hj
      have hje : j = ⌊e / sz⌋ := by omega
      rw [← hje] at hefloor helt ⊢
      rw [intRange_cons (le_refl _), intRange_eq_nil (by omega)]
      simp only [List.map_cons, List.map_nil, List.sum_cons, List.sum_nil, add_zero]
      unfold overlap
      have h1 : min e (((j : ℚ) + 1) * sz) = e := min_eq_left (by linarith)
      rw [h1]
      refine max_eq_right ?_
      have h2 : max s ((j : ℚ) * sz) ≤ e := max_le hse.le hefloor
      linarith
  | succ n ih =>
      intro j hsb hj
      have hjeb : j + 1 ≤ ⌊e / sz⌋ := by omega
      rw [intRange_cons (by omega)]
      simp only [List.map_cons, List.sum_cons]
      rw [ih (j + 1) (by omega) (by omega)]
      have hj1e : ((j : ℚ) + 1) * sz ≤ e := by
        have h1 := int_mul_le_int_mul hjeb hsz.le
        push_cast at h1
        linarith
      have hsj1 : s < ((j : ℚ) + 1) * sz := by
        have h1 := int_mul_le_int_mul (show ⌊s / sz⌋ + 1 ≤ j + 1 by omega) hsz.le
        push_cast at h1
        linarith
      have hov : overlap sz s e j = ((j : ℚ) + 1) * sz - max s ((j : ℚ) * sz) := by
        unfold overlap
        rw [min_eq_right hj1e]
        refine max_eq_right ?_
        have hj2 : (j : ℚ) * sz ≤ ((j : ℚ) + 1) * sz := by nlinarith
        have := max_le hsj1.le hj2
        linarith
      have hmax1 : max s (((j + 1 : Int) : ℚ) * sz) = ((j : ℚ) + 1) * sz := by
        push_cast
        exact max_eq_right (by linarith)
      rw [hov, hmax1]
      ring

/-- Sum of per-bucket overlaps over the full touched range `[⌊s/sz⌋, ⌊e/sz⌋]`:
exactly the interval length `e - s`. -/
lemma overlap_sum {s e sz : ℚ} (hsz : 0 < sz) (hse : s < e) :
    ((intRange ⌊s / sz⌋ ⌊e / sz⌋).map (overlap sz s e)).sum = e - s := by
  have h := overlap_sum_from hsz hse (⌊e / sz⌋ - ⌊s / sz⌋).toNat ⌊s / sz⌋
    (le_refl _) (by have := floor_div_mono sz s e hsz hse.le; omega)
  rw [h, max_eq_left (floor_mul_le sz s hsz)]

end AccumulateSpec

end Aggregation

namespace Aggregation

section OnStateChangeLemmas

open EventAggregator BucketStats

lemma bucket_state_sec_modify_counts (agg : EventAggregator) (i : Int) (m : String)
    (f : BucketStats → BucketStats)
    (hf : ∀ b st', (f b).state_sec st' = b.state_sec st') :
    ∀ (i' : Int) (m' st : String),
      (agg.modify_bucket i m f).bucket_state_sec i' m' st =
        agg.bucket_state_sec i' m' st := by
  intro i' m' st
  by_cases h : (i', m') = (i, m)
  · obtain ⟨h1, h2⟩ := Prod.mk.injEq .. ▸ h
    subst h1; subst h2
    rw [bucket_state_sec_modify_self, hf, bucket_stats_state_sec]
  · rw [bucket_state_sec_modify_ne _ _ _ h]

lemma osc_buffer_bucket_state_sec (agg : EventAggregator) (mn ns : String)
    (t : ℚ) (ps : Option String) (ds : Option ℚ) (i : Int) (m' st : String) :
    (agg.osc_buffer mn ns t ps ds).bucket_state_sec i m' st =
      agg.bucket_state_sec i m' st := by
  unfold osc_buffer bucket_state_sec
  split <;> split <;> rfl

lemma osc_count_bucket_state_sec (agg : EventAggregator) (mn ns : String)
    (t : ℚ) (i : Int) (m' st : String) :
    (agg.osc_count mn ns t).bucket_state_sec i m' st =
      agg.bucket_state_sec i m' st := by
  unfold osc_count
  split_ifs with h1 h2 <;>
  · repeat
      rw [bucket_state_sec_modify_counts]
      rotate_left
      intro b st'
      first
        | exact state_sec_transition_count b st' _
        | exact state_sec_down_count b st' _
        | exact state_sec_jammed_count b st' _

lemma osc_buffer_bucket_size (agg : EventAggregator) (mn ns : String)
    (t : ℚ) (ps : Option String) (ds : Option ℚ) :
    (agg.osc_buffer mn ns t ps ds).bucket_size_sec = agg.bucket_size_sec := by
  unfold osc_buffer
  split <;> split <;> rfl

lemma foldl_accumulate_step_size (m st : String) (e : ℚ) :
    ∀ (l : List Int) (acc : EventAggregator × ℚ),
      (l.foldl (accumulate_step m st e) acc).1.bucket_size_sec =
        acc.1.bucket_size_sec := by
  intro l
  induction l with
  | nil => intro acc; rfl
  | cons x xs ih =>
      intro acc
      obtain ⟨a, c⟩ := acc
      rw [List.foldl_cons, ih, accumulate_step_eq]
      by_cases h : 0 < min ((x + 1) * a.bucket_size_sec) e - c
      · rw [if_pos h]
        exact modify_bucket_size ..
      · rw [if_neg h]

lemma accumulate_duration_bucket_size (agg : EventAggregator) (m st : String)
    (s e : ℚ) :
    (agg.accumulate_duration m st s e).bucket_size_sec = agg.bucket_size_sec := by
  simp only [accumulate_duration]
  split_ifs with h1 h2
  · rfl
  · exact modify_bucket_size ..
  · exact foldl_accumulate_step_size m st e _ _

lemma on_state_change_bucket_state_sec (agg : EventAggregator)
    (machine_name new_state prev_state : String) (t d : ℚ)
    (hsz : 0 < agg.bucket_size_sec)
    (hst : strUpper prev_state ∈ TRACKED_STATES) (hd : 0 < d) :
    ∀ i : Int,
      (agg.on_state_change machine_name new_state t (some prev_state)
        (some d)).bucket_state_sec i machine_name prev_state =
      agg.bucket_state_sec i machine_name prev_state +
        overlap agg.bucket_size_sec (t - d) t i := by
  intro i
  unfold on_state_change
  show (EventAggregator.osc_count _ _ _ _).bucket_state_sec i machine_name prev_state = _
  rw [osc_count_bucket_state_sec, osc_buffer_bucket_state_sec]
  simp only [osc_accumulate]
  rw [if_pos ⟨tracked_ne_empty hst, hd⟩]
  exact accumulate_duration_bucket_state_sec agg machine_name prev_state (t - d) t
    hsz hst (by linarith) i

end OnStateChangeLemmas

end Aggregation

namespace Aggregation

section FeedLemmas

open EventAggregator

lemma modify_bucket_detail_fields (agg : EventAggregator) (i : Int) (m : String)
    (f : BucketStats → BucketStats) :
    (agg.modify_bucket i m f).event_buffer = agg.event_buffer ∧
    (agg.modify_bucket i m f).interesting_indices = agg.interesting_indices ∧
    (agg.modify_bucket i m f).event_index = agg.event_index := by
  unfold modify_bucket get_or_create_bucket
  cases h : dictGet? agg.buckets (i, m) <;> simp [h]

lemma foldl_accumulate_step_detail (m st : String) (e : ℚ) :
    ∀ (l : List Int) (acc : EventAggregator × ℚ),
      (l.foldl (accumulate_step m st e) acc).1.event_buffer = acc.1.event_buffer ∧
      (l.foldl (accumulate_step m st e) acc).1.interesting_indices =
        acc.1.interesting_indices ∧
      (l.foldl (accumulate_step m st e) acc).1.event_index = acc.1.event_index := by
  intro l
  induction l with
  | nil => intro acc; and_intros <;> trivial
  | cons x xs ih =>
      intro acc
      obtain ⟨a, c⟩ := acc
      rw [List.foldl_cons]
      obtain ⟨h1, h2, h3⟩ := ih (accumulate_step m st e (a, c) x)
      rw [h1, h2, h3, accumulate_step_eq]
      by_cases hc : 0 < min ((x + 1) * a.bucket_size_sec) e - c
      · simp only [if_pos hc]
        exact modify_bucket_detail_fields ..
      · simp only [if_neg hc]
        and_intros <;> trivial

lemma accumulate_duration_detail (agg : EventAggregator) (m st : String) (s e : ℚ) :
    (agg.accumulate_duration m st s e).event_buffer = agg.event_buffer ∧
    (agg.accumulate_duration m st s e).interesting_indices =
      agg.interesting_indices ∧
    (agg.accumulate_duration m st s e).event_index = agg.event_index := by
  simp only [accumulate_duration]
  split_ifs with h1 h2
  · and_intros <;> trivial
  · exact modify_bucket_detail_fields ..
  · exact foldl_accumulate_step_detail ..

lemma osc_accumulate_detail (agg : EventAggregator) (mn : String) (t : ℚ)
    (ps : Option String) (ds : Option ℚ) :
    (agg.osc_accumulate mn t ps ds).event_buffer = agg.event_buffer ∧
    (agg.osc_accumulate mn t ps ds).interesting_indices =
      agg.interesting_indices ∧
    (agg.osc_accumulate mn t ps ds).event_index = agg.event_index := by
  unfold osc_accumulate
  cases ps <;> cases ds <;> simp only []
  · and_intros <;> trivial
  · and_intros <;> trivial
  · and_intros <;> trivial
  · split_ifs with h
    · exact accumulate_duration_detail ..
    · and_intros <;> trivial

lemma osc_count_detail (agg : EventAggregator) (mn ns : String) (t : ℚ) :
    (agg.osc_count mn ns t).event_buffer = agg.event_buffer ∧
    (agg.osc_count mn ns t).interesting_indices = agg.interesting_indices ∧
    (agg.osc_count mn ns t).event_index = agg.event_index := by
  unfold osc_count
  split_ifs with h1 h2 <;>
    simp [modify_bucket_detail_fields, (modify_bucket_detail_fields ..).1,
      (modify_bucket_detail_fields ..).2.1, (modify_bucket_detail_fields ..).2.2]

lemma osc_buffer_detail (agg : EventAggregator) (mn ns : String) (t : ℚ)
    (ps : Option String) (ds : Option ℚ) :
    (agg.osc_buffer mn ns t ps ds).event_buffer =
      (if agg.event_buffer.length = CONTEXT_WINDOW * 20 then agg.event_buffer.tail
        else agg.event_buffer) ++
        [{ index := agg.event_index, sim_time_sec := t, machine_name := mn,
           state := ns, prev_state := ps, duration_sec := ds }] ∧
    (agg.osc_buffer mn ns t ps ds).interesting_indices =
      (if strUpper ns ∈ INTERESTING_STATES then
        agg.interesting_indices ++ [agg.event_index]
      else agg.interesting_indices) ∧
    (agg.osc_buffer mn ns t ps ds).event_index = agg.event_index := by
  unfold osc_buffer
  split_ifs <;> simp [*]

lemma on_state_change_detail (agg : EventAggregator) (mn ns : String) (t : ℚ)
    (ps : Option String) (ds : Option ℚ) :
    (agg.on_state_change mn ns t ps ds).event_buffer =
      (if agg.event_buffer.length = CONTEXT_WINDOW * 20 then agg.event_buffer.tail
        else agg.event_buffer) ++
        [{ index := agg.event_index, sim_time_sec := t, machine_name := mn,
           state := ns, prev_state := ps, duration_sec := ds }] ∧
    (agg.on_state_change mn ns t ps ds).interesting_indices =
      (if strUpper ns ∈ INTERESTING_STATES then
        agg.interesting_indices ++ [agg.event_index]
      else agg.interesting_indices) ∧
    (agg.on_state_change mn ns t ps ds).event_index = agg.event_index + 1 := by
  unfold on_state_change
  simp only []
  obtain ⟨ha1, ha2, ha3⟩ := osc_accumulate_detail agg mn t ps ds
  obtain ⟨hb1, hb2, hb3⟩ :=
    osc_buffer_detail (agg.osc_accumulate mn t ps ds) mn ns t ps ds
  obtain ⟨hc1, hc2, hc3⟩ :=
    osc_count_detail ((agg.osc_accumulate mn t ps ds).osc_buffer mn ns t ps ds) mn ns t
  refine ⟨?_, ?_, ?_⟩
  · rw [hc1, hb1, ha1, ha3]
  · rw [hc2, hb2, ha2, ha3]
  · rw [hc3, hb3, ha3]

end FeedLemmas

end Aggregation

namespace Aggregation

section DetailCountLemmas

open EventAggregator

lemma expectedBuffer_length (calls : List EventCall) :
    ∀ start, (expectedBuffer start calls).length = calls.length := by
  induction calls with
  | nil => intro start; rfl
  | cons c rest ih => intro start; simp [expectedBuffer, ih]

lemma feed_detail_general (calls : List EventCall) :
    ∀ agg : EventAggregator,
      agg.event_buffer.length + calls.length ≤ CONTEXT_WINDOW * 20 →
      (feed agg calls).event_buffer =
        agg.event_buffer ++ expectedBuffer agg.event_index calls ∧
      (feed agg calls).interesting_indices =
        agg.interesting_indices ++ expectedInteresting agg.event_index calls ∧
      (feed agg calls).event_index = agg.event_index + calls.length := by
  induction calls with
  | nil =>
      intro agg _
      simp [feed, expectedBuffer, expectedInteresting]
  | cons c rest ih =>
      intro agg hlen
      have hstep := on_state_change_detail agg c.machine_name c.new_state
        c.sim_time_sec c.prev_state c.duration_sec
      have hnoev : ¬agg.event_buffer.length = CONTEXT_WINDOW * 20 := by
        simp only [List.length_cons] at hlen
        omega
      rw [if_neg hnoev] at hstep
      obtain ⟨h1, h2, h3⟩ := hstep
      have hfeed : feed agg (c :: rest) =
          feed (agg.on_state_change c.machine_name c.new_state c.sim_time_sec
            c.prev_state c.duration_sec) rest := by
        simp [feed]
      rw [hfeed]
      obtain ⟨g1, g2, g3⟩ := ih (agg.on_state_change c.machine_name c.new_state
        c.sim_time_sec c.prev_state c.duration_sec)
        (by
          rw [h1]
          simp only [List.length_append, List.length_cons, List.length_nil] at hlen ⊢
          omega)
      rw [g1, g2, g3, h1, h2, h3]
      refine ⟨?_, ?_, ?_⟩
      · simp [expectedBuffer, mkEvent, List.append_assoc]
      · by_cases hint : strUpper c.new_state ∈ INTERESTING_STATES
        · rw [if_pos hint]
          simp [expectedInteresting, hint, List.append_assoc]
        · rw [if_neg hint]
          simp [expectedInteresting, hint]
      · simp only [List.length_cons]
        omega

lemma mem_intRange {x a b : Int} : x ∈ intRange a b ↔ a ≤ x ∧ x ≤ b := by
  unfold intRange
  simp only [List.mem_map, List.mem_range]
  constructor
  · rintro ⟨k, hk, rfl⟩
    omega
  · rintro ⟨h1, h2⟩
    exact ⟨(x - a).toNat, by omega, by omega⟩

lemma mem_window_positions {pos len j : ℕ} :
    j ∈ EventAggregator.window_positions pos len ↔
      (pos : Int) - 5 ≤ (j : Int) ∧ (j : Int) ≤ (pos : Int) + 5 ∧ j < len := by
  unfold EventAggregator.window_positions CONTEXT_WINDOW
  simp only [List.mem_filterMap, List.mem_map, mem_intRange]
  constructor
  · rintro ⟨p, ⟨off, hoff, rfl⟩, hp⟩
    split_ifs at hp with hcond
    simp only [Option.some.injEq] at hp
    omega
  · rintro ⟨h1, h2, h3⟩
    refine ⟨(j : Int), ⟨(j : Int) - pos, by omega, by ring⟩, ?_⟩
    rw [if_pos ⟨by omega, by omega⟩]
    simp

lemma expectedBuffer_findIdx? (j : ℕ) (calls : List EventCall) :
    ∀ start i0,
      List.findIdx? (fun ev => ev.index = j) (expectedBuffer start calls) i0 =
        if start ≤ j ∧ j < start + calls.length then some (i0 + (j - start))
        else none := by
  induction calls with
  | nil =>
      intro start i0
      rw [if_neg (by simp)]
      rfl
  | cons c rest ih =>
      intro start i0
      unfold expectedBuffer
      rw [List.findIdx?_cons]
      by_cases hj : start = j
      · rw [if_pos (by simp [mkEvent, hj]), if_pos (by simp [hj]; try omega)]
        congr
        omega
      · rw [if_neg (by simp [mkEvent]; try omega), ih (start + 1) (i0 + 1)]
        by_cases hcond : start + 1 ≤ j ∧ j < start + 1 + rest.length
        · rw [if_pos hcond, if_pos (by simp at hcond ⊢; try omega)]
          congr 1
          omega
        · rw [if_neg hcond, if_neg (by simp at hcond ⊢; try omega)]

lemma expectedBuffer_get?_index (calls : List EventCall) :
    ∀ start p, p < calls.length →
      ((expectedBuffer start calls).get? p).map (·.index) = some (start + p) := by
  induction calls with
  | nil => intro start p hp; simp at hp
  | cons c rest ih =>
      intro start p hp
      unfold expectedBuffer
      cases p with
      | zero => simp [mkEvent]
      | succ q =>
          simp only [List.get?_cons_succ]
          rw [ih (start + 1) q (by simpa using Nat.lt_of_succ_lt_succ hp)]
          congr 1
          omega

lemma filterMap_some_self {α : Type} (l : List α) (g : α → Option α)
    (h : ∀ x ∈ l, g x = some x) : l.filterMap g = l := by
  induction l with
  | nil => rfl
  | cons x xs ih =>
      rw [List.filterMap_cons, h x (by simp)]
      rw [ih (fun y hy => h y (by simp [hy]))]

lemma filter_expectedBuffer_length (S : List ℕ) (calls : List EventCall) :
    ∀ start,
      ((expectedBuffer start calls).filter (fun ev => ev.index ∈ S)).length =
        ((List.range' start calls.length).filter (fun j => j ∈ S)).length := by
  induction calls with
  | nil => intro start; rfl
  | cons c rest ih =>
      intro start
      unfold expectedBuffer
      rw [List.length_cons, List.range'_succ]
      by_cases hs : start ∈ S
      · rw [List.filter_cons_of_pos (by simp [mkEvent, hs]),
          List.filter_cons_of_pos (by simp [hs])]
        simp [ih (start + 1)]
      · rw [List.filter_cons_of_neg (by simp [mkEvent, hs]),
          List.filter_cons_of_neg (by simp [hs])]
        exact ih (start + 1)

lemma count_interval (a b : ℕ) :
    ∀ K, ((List.range K).filter (fun j => a ≤ j ∧ j ≤ b)).length =
      min (b + 1) K - min a K := by
  intro K
  induction K with
  | zero => simp
  | succ n ih =>
      rw [List.range_succ, List.filter_append, List.length_append, ih]
      by_cases h : a ≤ n ∧ n ≤ b
      · rw [List.filter_cons_of_pos (by simp [h])]
        simp only [List.filter_nil, List.length_cons, List.length_nil]
        omega
      · rw [List.filter_cons_of_neg (by simpa using h)]
        simp only [List.filter_nil, List.length_nil]
        omega

end DetailCountLemmas

end Aggregation

namespace Aggregation

section GetDetailLemmas

open EventAggregator

lemma expectedInteresting_append (l l' : List EventCall) :
    ∀ start, expectedInteresting start (l ++ l') =
      expectedInteresting start l ++ expectedInteresting (start + l.length) l' := by
  induction l with
  | nil => intro start; simp [expectedInteresting]
  | cons c rest ih =>
      intro start
      simp only [List.cons_append, expectedInteresting]
      by_cases hint : strUpper c.new_state ∈ INTERESTING_STATES <;>
        simp [hint, ih (start + 1), List.length_cons] <;>
        rw [show start + 1 + rest.length = start + (rest.length + 1) by omega]

lemma expectedInteresting_nil_of_not (l : List EventCall)
    (h : ∀ c ∈ l, strUpper c.new_state ∉ INTERESTING_STATES) :
    ∀ start, expectedInteresting start l = [] := by
  induction l with
  | nil => intro start; rfl
  | cons c rest ih =>
      intro start
      unfold expectedInteresting
      rw [if_neg (h c (by simp))]
      exact ih (fun d hd => h d (by simp [hd])) (start + 1)

lemma sorted_get_detail (agg : EventAggregator) :
    List.Sorted (fun a b : DetailRow => a.sim_time_sec ≤ b.sim_time_sec)
      agg.get_detail := by
  haveI : IsTotal DetailRow (fun a b => a.sim_time_sec ≤ b.sim_time_sec) :=
    ⟨fun a b => le_total _ _⟩
  haveI : IsTrans DetailRow (fun a b => a.sim_time_sec ≤ b.sim_time_sec) :=
    ⟨fun _ _ _ hab hbc => le_trans hab hbc⟩
  unfold get_detail
  split_ifs
  · exact List.sorted_nil
  · exact List.sorted_insertionSort _ _

end GetDetailLemmas

end Aggregation

namespace Behavior

section OrchestratorLemmas

open Models

/-- Skipped phases contribute nothing: running the cycle over all configured
phases equals running it over just the enabled ones. -/
lemma run_cycle_loop_filter (behavior : BehaviorConfig) (step : PhaseStep)
    (mc : MachineConfig) :
    ∀ (phases : List PhaseConfig) (context : PhaseContext)
      (inputs : List Product) (combined : PhaseResult),
      run_cycle_loop behavior step mc phases context inputs combined =
        run_cycle_loop behavior step mc
          (phases.filter (fun pc => should_run_phase behavior pc mc))
          context inputs combined := by
  intro phases
  induction phases with
  | nil => intro context inputs combined; rfl
  | cons pc rest ih =>
      intro context inputs combined
      cases hrun : should_run_phase behavior pc mc with
      | false =>
          rw [List.filter_cons_of_neg (by simp [hrun])]
          simp only [run_cycle_loop, hrun]
          exact ih context inputs combined
      | true =>
          rw [List.filter_cons_of_pos (by simp [hrun])]
          simp only [run_cycle_loop, hrun, if_neg (show ¬(true = false) by simp)]
          cases hli : dictGet? (phase_instances behavior) pc.name with
          | none => exact ih context inputs combined
          | some handler =>
              simp only []
              by_cases hc : (step pc mc context inputs).2.should_continue = false
              · simp only [if_pos hc]
              · simp only [if_neg hc]
                exact ih _ _ _

end OrchestratorLemmas

end Behavior


section DictLemmas

variable {κ ν : Type} [DecidableEq κ]

lemma dictGet?_mem_of_nodupKeys (l : List (κ × ν)) (k : κ) (v : ν)
    (hnd : (l.map Prod.fst).Nodup) (hmem : (k, v) ∈ l) :
    dictGet? l k = some v := by
  induction l with
  | nil => exact absurd hmem (List.not_mem_nil _)
  | cons hd tl ih =>
      obtain ⟨a, b⟩ := hd
      rcases List.mem_cons.mp hmem with h | h
      · obtain ⟨rfl, rfl⟩ := Prod.mk.injEq .. ▸ h
        · simp [dictGet?]
      · have ha : a ≠ k := by
          rintro rfl
          exact (List.nodup_cons.mp hnd).1 (List.mem_map.mpr ⟨(a, v), h, rfl⟩)
        simp only [dictGet?, if_neg ha]
        exact ih (List.nodup_cons.mp hnd).2 h

lemma mem_of_dictGet? (l : List (κ × ν)) (k : κ) (v : ν)
    (h : dictGet? l k = some v) : (k, v) ∈ l := by
  induction l with
  | nil => exact absurd h (by simp [dictGet?])
  | cons hd tl ih =>
      obtain ⟨a, b⟩ := hd
      by_cases hak : a = k
      · subst hak
        simp [dictGet?] at h
        subst h
        exact List.mem_cons_self _ _
      · simp only [dictGet?, if_neg hak] at h
        exact List.mem_cons_of_mem _ (ih h)

lemma keys_dictModify (l : List (κ × ν)) (k : κ) (f : ν → ν) :
    (dictModify l k f).map Prod.fst = l.map Prod.fst := by
  induction l with
  | nil => rfl
  | cons hd tl ih =>
      obtain ⟨a, b⟩ := hd
      by_cases h : a = k <;> simp [dictModify, h, ih]

end DictLemmas

namespace Topology

lemma dictGet?_mapZero (nodes : List String) (n : String) :
    dictGet? (nodes.map (fun m => (m, (0 : Int)))) n =
      if n ∈ nodes then some 0 else none := by
  induction nodes with
  | nil => rfl
  | cons a l ih =>
      by_cases h : a = n
      · subst h
        simp [dictGet?]
      · simp only [List.map_cons, dictGet?, if_neg h, ih, List.mem_cons]
        by_cases h2 : n ∈ l
        · simp [h2]
        · have hna : ¬(n = a) := fun e => h e.symm
          simp [h2, hna]

lemma foldl_inc_spec (es : List BufferEdge) :
    ∀ (d : List (String × Int)) (n : String),
    dictGet? (es.foldl (fun d e => dictModify d e.target (· + 1)) d) n =
      (dictGet? d n).map (fun v => v + ((pend es n : ℕ) : Int)) := by
  induction es with
  | nil =>
      intro d n
      cases h : dictGet? d n <;> simp [pend, h]
  | cons e es ih =>
      intro d n
      simp only [List.foldl_cons]
      rw [ih]
      by_cases h : e.target = n
      · subst h
        rw [dictGet?_dictModify_self]
        have hp : pend (e :: es) e.target = pend es e.target + 1 := by
          simp [pend, List.filter_cons]
        rw [hp]
        cases h : dictGet? d e.target <;> simp [h] <;> try omega
      · rw [dictGet?_dictModify_ne _ _ _ _ (fun hh => h hh.symm)]
        have hp : pend (e :: es) n = pend es n := by
          simp [pend, List.filter_cons, h]
        rw [hp]

lemma keys_initInDegree (g : TopologyGraph) :
    (initInDegree g).map Prod.fst = g.nodes := by
  unfold initInDegree
  have : ∀ (es : List BufferEdge) (d : List (String × Int)),
      (es.foldl (fun d e => dictModify d e.target (· + 1)) d).map Prod.fst =
        d.map Prod.fst := by
    intro es
    induction es with
    | nil => intro d; rfl
    | cons e es ih =>
        intro d
        simp only [List.foldl_cons]
        rw [ih, keys_dictModify]
  rw [this]
  have hid : (Prod.fst ∘ fun (n : String) => (n, (0 : Int))) = id := rfl
  rw [List.map_map, hid, List.map_id]

lemma cnt_nil_eq_pend (g : TopologyGraph) (n : String) :
    cnt g [] n = pend g.edges n := by
  unfold cnt pend
  congr 1
  apply List.filter_congr
  intro e _
  simp

lemma initInDegree_spec (g : TopologyGraph) (n : String) :
    dictGet? (initInDegree g) n =
      if n ∈ g.nodes then some ((cnt g [] n : ℕ) : Int) else none := by
  unfold initInDegree
  rw [foldl_inc_spec, dictGet?_mapZero]
  by_cases h : n ∈ g.nodes
  · simp [h, cnt_nil_eq_pend]
  · simp [h]

end Topology

namespace Topology

lemma cnt_mono (g : TopologyGraph) (em em' : List String)
    (hsub : ∀ x ∈ em, x ∈ em') (t : String) :
    cnt g em' t ≤ cnt g em t := by
  unfold cnt
  rw [← List.countP_eq_length_filter, ← List.countP_eq_length_filter]
  apply List.countP_mono_left
  intro e _ h
  simp only [decide_eq_true_eq] at h ⊢
  exact ⟨h.1, fun hs => h.2 (hsub _ hs)⟩

lemma cnt_eq_zero_iff (g : TopologyGraph) (em : List String) (t : String) :
    cnt g em t = 0 ↔ ∀ e ∈ g.edges, e.target = t → e.source ∈ em := by
  unfold cnt
  rw [List.length_eq_zero, List.filter_eq_nil_iff]
  constructor
  · intro h e he ht
    by_contra hs
    exact h e he (by simp [ht, hs])
  · intro h e he
    simp only [decide_eq_true_eq, not_and, Decidable.not_not]
    intro ht
    exact h e he ht

lemma pend_outgoing_le_cnt (g : TopologyGraph) (em : List String) (n : String)
    (hn : n ∉ em) (t : String) :
    pend (outgoing g n) t ≤ cnt g em t := by
  unfold pend outgoing cnt
  rw [List.filter_filter]
  rw [← List.countP_eq_length_filter, ← List.countP_eq_length_filter]
  apply List.countP_mono_left
  intro e _ h
  simp only [Bool.and_eq_true, decide_eq_true_eq] at h
  simp only [decide_eq_true_eq]
  exact ⟨h.1, h.2 ▸ hn⟩

lemma cnt_split (g : TopologyGraph) (em : List String) (n : String)
    (hn : n ∉ em) (t : String) :
    cnt g em t = cnt g (em ++ [n]) t + pend (outgoing g n) t := by
  unfold cnt pend outgoing
  rw [List.filter_filter]
  rw [← List.countP_eq_length_filter, ← List.countP_eq_length_filter,
    ← List.countP_eq_length_filter]
  induction g.edges with
  | nil => rfl
  | cons e es ih =>
      rw [List.countP_cons, List.countP_cons, List.countP_cons]
      by_cases ht : e.target = t
      · by_cases hsn : e.source = n
        · have h1 : e.source ∉ em := hsn ▸ hn
          rw [if_pos (by simp [ht, h1]), if_neg (by simp [hsn]),
            if_pos (by simp [ht, hsn])]
          omega
        · by_cases hsm : e.source ∈ em
          · rw [if_neg (by simp [hsm]), if_neg (by simp [hsm]),
              if_neg (by simp [hsn])]
            omega
          · rw [if_pos (by simp [ht, hsm]), if_pos (by simp [ht, hsm, hsn]),
              if_neg (by simp [hsn])]
            omega
      · rw [if_neg (by simp [ht]), if_neg (by simp [ht]),
          if_neg (by simp [ht])]
        omega

lemma kahnQueue_sublist (g : TopologyGraph) :
    (kahnQueue g).Sublist ((initInDegree g).map Prod.fst) := by
  unfold kahnQueue
  induction initInDegree g with
  | nil => simp
  | cons p tl ih =>
      obtain ⟨a, b⟩ := p
      rw [List.filterMap_cons, List.map_cons]
      by_cases hb : b = 0
      · simp only [hb, if_pos rfl]
        exact List.Sublist.cons₂ _ ih
      · simp only [if_neg hb]
        exact List.Sublist.cons _ ih

lemma kahnQueue_nodup (g : TopologyGraph) (hnodup : g.nodes.Nodup) :
    (kahnQueue g).Nodup :=
  List.Nodup.sublist (kahnQueue_sublist g)
    (by rw [keys_initInDegree]; exact hnodup)

lemma mem_kahnQueue (g : TopologyGraph) (hnodup : g.nodes.Nodup) (q : String) :
    q ∈ kahnQueue g ↔ q ∈ g.nodes ∧ cnt g [] q = 0 := by
  unfold kahnQueue
  rw [List.mem_filterMap]
  constructor
  · rintro ⟨⟨k, v⟩, hmem, hf⟩
    by_cases hv : v = 0
    · subst hv
      simp at hf
      rw [hf] at hmem
      have hqn : q ∈ g.nodes := by
        rw [← keys_initInDegree g]
        exact List.mem_map.mpr ⟨(q, 0), hmem, rfl⟩
      have hget : dictGet? (initInDegree g) q = some 0 :=
        dictGet?_mem_of_nodupKeys _ _ _
          (by rw [keys_initInDegree]; exact hnodup) hmem
      rw [initInDegree_spec g q, if_pos hqn] at hget
      have := Option.some.inj hget
      exact ⟨hqn, by exact_mod_cast this⟩
    · simp only [if_neg hv] at hf
      exact absurd hf (by simp)
  · rintro ⟨hqn, hcnt⟩
    refine ⟨(q, 0), ?_, by simp⟩
    apply mem_of_dictGet?
    rw [initInDegree_spec g q, if_pos hqn, hcnt]
    simp

end Topology

namespace Topology

lemma pend_cons_le (e : BufferEdge) (es : List BufferEdge) (t : String) :
    pend es t ≤ pend (e :: es) t := by
  unfold pend
  rw [List.filter_cons]
  split <;> simp

lemma kahnEdge_fold (g : TopologyGraph)
    (hwf : ∀ e ∈ g.edges,
      e.source ∈ g.nodes ∧ e.target ∈ g.nodes ∧ e.source ≠ e.target)
    (em : List String) (n : String) (hn : n ∉ em)
    (hI5 : ∀ e ∈ g.edges, e.target ∈ em → e.source ∈ em) :
    ∀ (es : List BufferEdge) (indeg : List (String × Int)) (queue : List String),
    (∀ e ∈ es, e ∈ g.edges ∧ e.source = n) →
    (∀ t ∈ g.nodes, dictGet? indeg t =
      some ((cnt g (em ++ [n]) t + pend es t : ℕ) : Int)) →
    (∀ q ∈ queue, q ∈ g.nodes ∧ q ∉ em ∧ q ≠ n ∧
      cnt g (em ++ [n]) q = 0 ∧ pend es q = 0) →
    queue.Nodup →
    (∀ v ∈ g.nodes, v ∉ em ++ [n] → v ∉ queue →
      0 < cnt g (em ++ [n]) v + pend es v) →
    (∀ t ∈ g.nodes, dictGet? (es.foldl kahnEdge (indeg, queue)).1 t =
      some ((cnt g (em ++ [n]) t : ℕ) : Int)) ∧
    (∀ q ∈ (es.foldl kahnEdge (indeg, queue)).2, q ∈ g.nodes ∧ q ∉ em ∧
      q ≠ n ∧ cnt g (em ++ [n]) q = 0) ∧
    (es.foldl kahnEdge (indeg, queue)).2.Nodup ∧
    (∀ v ∈ g.nodes, v ∉ em ++ [n] → v ∉ (es.foldl kahnEdge (indeg, queue)).2 →
      0 < cnt g (em ++ [n]) v) := by
  intro es
  induction es with
  | nil =>
      intro indeg queue hes hA hB hC hE
      simp only [List.foldl_nil]
      refine ⟨?_, ?_, hC, ?_⟩
      · intro t ht
        rw [hA t ht]
        simp [pend]
      · intro q hq
        obtain ⟨h1, h2, h3, h4, _⟩ := hB q hq
        exact ⟨h1, h2, h3, h4⟩
      · intro v hv hv1 hv2
        have := hE v hv hv1 hv2
        simpa [pend] using this
  | cons e es ih =>
      intro indeg queue hes hA hB hC hE
      obtain ⟨heg, hesrc⟩ := hes e (List.mem_cons_self _ _)
      obtain ⟨hsn, htn, hstne⟩ := hwf e heg
      have hu_nodes : e.target ∈ g.nodes := htn
      have hu_ne_n : e.target ≠ n := fun h => hstne (hesrc.trans h.symm)
      have hu_nem : e.target ∉ em := fun hmem => hn (hesrc ▸ hI5 e heg hmem)
      have hu_nem' : e.target ∉ em ++ [n] := by
        simp [hu_nem, hu_ne_n]
      simp only [List.foldl_cons]
      have hpend_cons : pend (e :: es) e.target = pend es e.target + 1 := by
        simp [pend, List.filter_cons]
      have hpend_cons_ne : ∀ t, t ≠ e.target → pend (e :: es) t = pend es t := by
        intro t htne
        have hne2 : e.target ≠ t := fun h => htne h.symm
        unfold pend
        rw [List.filter_cons, if_neg (by simp [hne2])]
      have hA' : ∀ t ∈ g.nodes, dictGet? (dictModify indeg e.target (· - 1)) t =
          some ((cnt g (em ++ [n]) t + pend es t : ℕ) : Int) := by
        intro t ht
        by_cases htu : t = e.target
        · subst htu
          rw [dictGet?_dictModify_self, hA e.target ht, hpend_cons]
          simp
          omega
        · rw [dictGet?_dictModify_ne _ _ _ _ htu, hA t ht, hpend_cons_ne t htu]
      have hval : dictGet? (dictModify indeg e.target (· - 1)) e.target =
          some ((cnt g (em ++ [n]) e.target + pend es e.target : ℕ) : Int) :=
        hA' _ hu_nodes
      by_cases hK : cnt g (em ++ [n]) e.target + pend es e.target = 0
      · have happ : kahnEdge (indeg, queue) e =
            (dictModify indeg e.target (· - 1), queue ++ [e.target]) := by
          simp only [kahnEdge]
          rw [hval, hK]
          simp
        rw [happ]
        apply ih
        · exact fun e' he' => hes e' (List.mem_cons_of_mem _ he')
        · exact hA'
        · intro q hq
          rcases List.mem_append.mp hq with hq | hq
          · obtain ⟨h1, h2, h3, h4, h5⟩ := hB q hq
            have hle := pend_cons_le e es q
            exact ⟨h1, h2, h3, h4, by omega⟩
          · rw [List.mem_singleton.mp hq]
            exact ⟨hu_nodes, hu_nem, hu_ne_n, by omega, by omega⟩
        · have hu_nq : e.target ∉ queue := by
            intro hmem
            obtain ⟨_, _, _, _, h5⟩ := hB _ hmem
            omega
          refine List.Nodup.append hC (List.nodup_singleton _) ?_
          intro a ha hb
          rw [List.mem_singleton.mp hb] at ha
          exact hu_nq ha
        · intro v hv hv1 hv2
          have hvq : v ∉ queue := fun h => hv2 (List.mem_append_left _ h)
          have hvne : v ≠ e.target := fun h =>
            hv2 (by rw [h]; exact List.mem_append_right _ (List.mem_singleton_self _))
          have hgt := hE v hv hv1 hvq
          rw [hpend_cons_ne v hvne] at hgt
          exact hgt
      · have happ : kahnEdge (indeg, queue) e =
            (dictModify indeg e.target (· - 1), queue) := by
          simp only [kahnEdge]
          rw [hval]
          have hne : ¬(((cnt g (em ++ [n]) e.target : ℕ) : Int) +
              ((pend es e.target : ℕ) : Int) = 0) := by
            omega
          simp [hne]
        rw [happ]
        apply ih
        · exact fun e' he' => hes e' (List.mem_cons_of_mem _ he')
        · exact hA'
        · intro q hq
          obtain ⟨h1, h2, h3, h4, h5⟩ := hB q hq
          have hle := pend_cons_le e es q
          exact ⟨h1, h2, h3, h4, by omega⟩
        · exact hC
        · intro v hv hv1 hv2
          have hgt := hE v hv hv1 hv2
          by_cases hvu : v = e.target
          · subst hvu
            omega
          · rw [hpend_cons_ne v hvu] at hgt
            exact hgt

end Topology

namespace Topology

lemma append_singleton_eq_append_cons {α : Type} (a : List α) (n t : α)
    (l₁ l₂ : List α) (h : a ++ [n] = l₁ ++ t :: l₂) :
    (l₁ = a ∧ t = n ∧ l₂ = []) ∨
      (∃ l₂', l₂ = l₂' ++ [n] ∧ a = l₁ ++ t :: l₂') := by
  rcases List.eq_nil_or_concat l₂ with h2 | ⟨l₂', b, h2⟩
  · subst h2
    obtain ⟨h3, h4⟩ := List.append_inj' h (by simp)
    have h5 : n = t := by simpa using h4
    exact Or.inl ⟨h3.symm, h5.symm, rfl⟩
  · rw [List.concat_eq_append] at h2
    subst h2
    rw [show l₁ ++ t :: (l₂' ++ [b]) = (l₁ ++ t :: l₂') ++ [b] by simp] at h
    obtain ⟨h3, h4⟩ := List.append_inj' h (by simp)
    have h5 : n = b := by simpa using h4
    exact Or.inr ⟨l₂', by rw [← h5], h3⟩

lemma mem_outgoing (g : TopologyGraph) (n : String) :
    ∀ e ∈ outgoing g n, e ∈ g.edges ∧ e.source = n := by
  intro e he
  unfold outgoing at he
  rw [List.mem_filter] at he
  exact ⟨he.1, by simpa using he.2⟩

lemma kahnLoop_spec (g : TopologyGraph)
    (hnodup : g.nodes.Nodup)
    (hwf : ∀ e ∈ g.edges,
      e.source ∈ g.nodes ∧ e.target ∈ g.nodes ∧ e.source ≠ e.target) :
    ∀ (fuel : ℕ) (queue : List String) (indeg : List (String × Int))
      (acc : List String),
    (∀ t ∈ g.nodes, dictGet? indeg t = some ((cnt g acc t : ℕ) : Int)) →
    (∀ q ∈ queue, q ∈ g.nodes ∧ q ∉ acc ∧ cnt g acc q = 0) →
    queue.Nodup →
    acc.Nodup →
    (∀ a ∈ acc, a ∈ g.nodes) →
    (∀ v ∈ g.nodes, v ∉ acc → v ∉ queue → 0 < cnt g acc v) →
    (∀ e ∈ g.edges, ∀ l₁ l₂, acc = l₁ ++ e.target :: l₂ → e.source ∈ l₁) →
    g.nodes.length < fuel + acc.length →
    (kahnLoop g fuel queue indeg acc).Nodup ∧
    (∀ a ∈ kahnLoop g fuel queue indeg acc, a ∈ g.nodes) ∧
    (∀ e ∈ g.edges, ∀ l₁ l₂,
      kahnLoop g fuel queue indeg acc = l₁ ++ e.target :: l₂ →
      e.source ∈ l₁) ∧
    (∀ v ∈ g.nodes, v ∉ kahnLoop g fuel queue indeg acc →
      0 < cnt g (kahnLoop g fuel queue indeg acc) v) := by
  intro fuel
  induction fuel with
  | zero =>
      intro queue indeg acc hA hB hC hDn hDs hE hF hfuel
      have hle : acc.length ≤ g.nodes.length :=
        (List.Nodup.subperm hDn (fun a ha => hDs a ha)).length_le
      omega
  | succ fuel ih =>
      intro queue indeg acc hA hB hC hDn hDs hE hF hfuel
      cases queue with
      | nil =>
          simp only [kahnLoop]
          exact ⟨hDn, hDs, hF,
            fun v hv hva => hE v hv hva (List.not_mem_nil _)⟩
      | cons n rest =>
          have hstep : kahnLoop g (fuel + 1) (n :: rest) indeg acc =
              kahnLoop g fuel ((outgoing g n).foldl kahnEdge (indeg, rest)).2
                ((outgoing g n).foldl kahnEdge (indeg, rest)).1 (acc ++ [n]) := by
            simp only [kahnLoop]
          rw [hstep]
          obtain ⟨hn_nodes, hn_nacc, hn_cnt⟩ := hB n (List.mem_cons_self _ _)
          have hI5 : ∀ e ∈ g.edges, e.target ∈ acc → e.source ∈ acc := by
            intro e he ht
            obtain ⟨l₁, l₂, hdec⟩ := List.append_of_mem ht
            have := hF e he l₁ l₂ hdec
            rw [hdec]
            exact List.mem_append_left _ this
          have hAf : ∀ t ∈ g.nodes, dictGet? indeg t =
              some ((cnt g (acc ++ [n]) t + pend (outgoing g n) t : ℕ) : Int) := by
            intro t ht
            rw [hA t ht, ← cnt_split g acc n hn_nacc t]
          have hBf : ∀ q ∈ rest, q ∈ g.nodes ∧ q ∉ acc ∧ q ≠ n ∧
              cnt g (acc ++ [n]) q = 0 ∧ pend (outgoing g n) q = 0 := by
            intro q hq
            obtain ⟨h1, h2, h3⟩ := hB q (List.mem_cons_of_mem _ hq)
            have hqn : q ≠ n := by
              rintro rfl
              exact (List.nodup_cons.mp hC).1 hq
            have hc' : cnt g (acc ++ [n]) q ≤ cnt g acc q :=
              cnt_mono g acc (acc ++ [n])
                (fun x hx => List.mem_append_left _ hx) q
            have hp' : pend (outgoing g n) q ≤ cnt g acc q :=
              pend_outgoing_le_cnt g acc n hn_nacc q
            exact ⟨h1, h2, hqn, by omega, by omega⟩
          have hCf : rest.Nodup := (List.nodup_cons.mp hC).2
          have hEf : ∀ v ∈ g.nodes, v ∉ acc ++ [n] → v ∉ rest →
              0 < cnt g (acc ++ [n]) v + pend (outgoing g n) v := by
            intro v hv hv1 hv2
            have hvacc : v ∉ acc := fun h => hv1 (List.mem_append_left _ h)
            have hvn : v ≠ n := by
              intro h
              apply hv1
              rw [h]
              exact List.mem_append_right _ (List.mem_singleton_self _)
            have hvq : v ∉ n :: rest := by simp [hvn, hv2]
            have hgt := hE v hv hvacc hvq
            rw [cnt_split g acc n hn_nacc v] at hgt
            exact hgt
          obtain ⟨hA2, hB2, hC2, hE2⟩ := kahnEdge_fold g hwf acc n hn_nacc hI5
            (outgoing g n) indeg rest (mem_outgoing g n) hAf hBf hCf hEf
          apply ih
          · exact hA2
          · intro q hq
            obtain ⟨h1, h2, h3, h4⟩ := hB2 q hq
            refine ⟨h1, ?_, h4⟩
            simp [h2, h3]
          · exact hC2
          · refine List.Nodup.append hDn (List.nodup_singleton _) ?_
            intro a ha hb
            rw [List.mem_singleton.mp hb] at ha
            exact hn_nacc ha
          · intro a ha
            rcases List.mem_append.mp ha with h | h
            · exact hDs a h
            · rw [List.mem_singleton.mp h]
              exact hn_nodes
          · exact hE2
          · intro e he l₁ l₂ hdec
            rcases append_singleton_eq_append_cons acc n e.target l₁ l₂ hdec with
              ⟨h1, h2, _⟩ | ⟨l₂', _, h2⟩
            · rw [h1]
              exact (cnt_eq_zero_iff g acc n).mp hn_cnt e he h2
            · exact hF e he l₁ l₂' h2
          · rw [List.length_append]
            simp only [List.length_singleton]
            omega

end Topology

namespace Topology

lemma kahnRun_spec (g : TopologyGraph) (hnodup : g.nodes.Nodup)
    (hwf : ∀ e ∈ g.edges,
      e.source ∈ g.nodes ∧ e.target ∈ g.nodes ∧ e.source ≠ e.target) :
    (kahnRun g).Nodup ∧ (∀ a ∈ kahnRun g, a ∈ g.nodes) ∧
    (∀ e ∈ g.edges, ∀ l₁ l₂, kahnRun g = l₁ ++ e.target :: l₂ →
      e.source ∈ l₁) ∧
    (∀ v ∈ g.nodes, v ∉ kahnRun g → 0 < cnt g (kahnRun g) v) := by
  unfold kahnRun
  apply kahnLoop_spec g hnodup hwf
  · intro t ht
    rw [initInDegree_spec g t, if_pos ht]
  · intro q hq
    obtain ⟨h1, h2⟩ := (mem_kahnQueue g hnodup q).mp hq
    exact ⟨h1, List.not_mem_nil _, h2⟩
  · exact kahnQueue_nodup g hnodup
  · exact List.nodup_nil
  · intro a ha
    exact absurd ha (List.not_mem_nil _)
  · intro v hv _ hvq
    by_contra hpos
    have h0 : cnt g [] v = 0 := by omega
    exact hvq ((mem_kahnQueue g hnodup v).mpr ⟨hv, h0⟩)
  · intro e _ l₁ l₂ hdec
    exact absurd hdec.symm (List.append_ne_nil_of_right_ne_nil _ (by simp))
  · simp

lemma transGen_before (g : TopologyGraph) (res : List String)
    (hF : ∀ e ∈ g.edges, ∀ l₁ l₂, res = l₁ ++ e.target :: l₂ →
      e.source ∈ l₁) :
    ∀ a b, Relation.TransGen (edgeRel g) a b →
      ∀ l₁ l₂, res = l₁ ++ b :: l₂ → a ∈ l₁ := by
  intro a b h
  induction h with
  | single hstep =>
      intro l₁ l₂ hdec
      obtain ⟨e, he, hs, ht⟩ := hstep
      subst hs
      subst ht
      exact hF e he l₁ l₂ hdec
  | tail hab hbc ih =>
      intro l₁ l₂ hdec
      obtain ⟨e, he, hs, ht⟩ := hbc
      subst ht
      have hb' : e.source ∈ l₁ := hF e he l₁ l₂ hdec
      obtain ⟨m₁, m₂, hm⟩ := List.append_of_mem hb'
      have hres2 : res = m₁ ++ e.source :: (m₂ ++ e.target :: l₂) := by
        rw [hdec, hm]
        simp
      rw [hs] at hres2
      have ha : a ∈ m₁ := ih m₁ (m₂ ++ e.target :: l₂) hres2
      rw [hm]
      exact List.mem_append_left _ ha

lemma cycle_of_preds (R : String → String → Prop) (U : List String)
    (v₀ : String) (hv₀ : v₀ ∈ U)
    (h : ∀ v ∈ U, ∃ u ∈ U, R u v) : ∃ w, Relation.TransGen R w w := by
  have hex : ∀ v : {x // x ∈ U}, ∃ u : {x // x ∈ U}, R u.1 v.1 := by
    rintro ⟨v, hv⟩
    obtain ⟨u, hu, hru⟩ := h v hv
    exact ⟨⟨u, hu⟩, hru⟩
  choose f hf using hex
  haveI : Finite {x // x ∈ U} := by
    have hfin : Set.Finite {x : String | x ∈ U} := U.finite_toSet
    exact hfin.to_subtype
  obtain ⟨i, j, hij, hcij⟩ :=
    Finite.exists_ne_map_eq_of_infinite (fun k => f^[k] ⟨v₀, hv₀⟩)
  have key : ∀ a b : ℕ, a < b →
      Relation.TransGen R (f^[b] ⟨v₀, hv₀⟩).1 (f^[a] ⟨v₀, hv₀⟩).1 := by
    intro a b hab
    induction b with
    | zero => omega
    | succ b ihb =>
        have hstep : R (f^[b + 1] ⟨v₀, hv₀⟩).1 (f^[b] ⟨v₀, hv₀⟩).1 := by
          rw [Function.iterate_succ_apply']
          exact hf _
        rcases Nat.lt_succ_iff_lt_or_eq.mp hab with hlt | heq
        · exact Relation.TransGen.head hstep (ihb hlt)
        · rw [heq]
          exact Relation.TransGen.single hstep
  rcases lt_or_gt_of_ne hij with hlt | hgt
  · refine ⟨(f^[j] ⟨v₀, hv₀⟩).1, ?_⟩
    have := key i j hlt
    rw [hcij] at this
    exact this
  · refine ⟨(f^[i] ⟨v₀, hv₀⟩).1, ?_⟩
    have := key j i hgt
    rw [← hcij] at this
    exact this

end Topology

namespace Topology

lemma kahnRun_complete (g : TopologyGraph) (hnodup : g.nodes.Nodup)
    (hwf : ∀ e ∈ g.edges,
      e.source ∈ g.nodes ∧ e.target ∈ g.nodes ∧ e.source ≠ e.target)
    (hacyc : ¬∃ v, Relation.TransGen (edgeRel g) v v) :
    (kahnRun g).length = g.nodes.length := by
  obtain ⟨hnd, hsub, _, hE⟩ := kahnRun_spec g hnodup hwf
  have hnodes_sub : ∀ v ∈ g.nodes, v ∈ kahnRun g := by
    by_contra hcon
    push_neg at hcon
    obtain ⟨v, hv, hvn⟩ := hcon
    have hvU : v ∈ g.nodes.filter (fun x => x ∉ kahnRun g) :=
      List.mem_filter.mpr ⟨hv, by simpa using hvn⟩
    have hpred : ∀ w ∈ g.nodes.filter (fun x => x ∉ kahnRun g),
        ∃ u ∈ g.nodes.filter (fun x => x ∉ kahnRun g), edgeRel g u w := by
      intro w hw
      have hw1 : w ∈ g.nodes := (List.mem_filter.mp hw).1
      have hw2 : w ∉ kahnRun g := by simpa using (List.mem_filter.mp hw).2
      have hpos := hE w hw1 hw2
      unfold cnt at hpos
      obtain ⟨e, hef⟩ := List.exists_mem_of_length_pos hpos
      rw [List.mem_filter] at hef
      obtain ⟨he, hcond⟩ := hef
      simp only [decide_eq_true_eq] at hcond
      refine ⟨e.source, ?_, ⟨e, he, rfl, hcond.1⟩⟩
      exact List.mem_filter.mpr ⟨(hwf e he).1, by simpa using hcond.2⟩
    exact hacyc
      (cycle_of_preds (edgeRel g) (g.nodes.filter (fun x => x ∉ kahnRun g))
        v hvU hpred)
  have hperm : (kahnRun g).Perm g.nodes :=
    (List.perm_ext_iff_of_nodup hnd hnodup).mpr
      (fun a => ⟨fun h => hsub a h, fun h => hnodes_sub a h⟩)
  exact hperm.length_eq

lemma kahnRun_cyclic (g : TopologyGraph) (hnodup : g.nodes.Nodup)
    (hwf : ∀ e ∈ g.edges,
      e.source ∈ g.nodes ∧ e.target ∈ g.nodes ∧ e.source ≠ e.target)
    (v : String) (hcyc : Relation.TransGen (edgeRel g) v v) :
    (kahnRun g).length < g.nodes.length := by
  obtain ⟨hnd, hsub, hF, _⟩ := kahnRun_spec g hnodup hwf
  have hvn : v ∈ g.nodes := by
    obtain ⟨b, hb, _⟩ := Relation.TransGen.head'_iff.mp hcyc
    obtain ⟨e, he, hs, _⟩ := hb
    rw [← hs]
    exact (hwf e he).1
  have hvnr : v ∉ kahnRun g := by
    intro hmem
    obtain ⟨l₁, l₂, hdec⟩ := List.append_of_mem hmem
    have hin := transGen_before g (kahnRun g) hF v v hcyc l₁ l₂ hdec
    have hnd2 := hnd
    rw [hdec] at hnd2
    exact (List.disjoint_of_nodup_append hnd2) hin (List.mem_cons_self _ _)
  have hsubf : ∀ a ∈ kahnRun g, a ∈ g.nodes.filter (fun x => x ≠ v) := by
    intro a ha
    refine List.mem_filter.mpr ⟨hsub a ha, ?_⟩
    simp only [decide_eq_true_eq]
    rintro rfl
    exact hvnr ha
  have hle : (kahnRun g).length ≤ (g.nodes.filter (fun x => x ≠ v)).length :=
    (List.Nodup.subperm hnd (fun a ha => hsubf a ha)).length_le
  have hlt : (g.nodes.filter (fun x => x ≠ v)).length < g.nodes.length :=
    List.length_filter_lt_length_iff_exists.mpr ⟨v, hvn, by simp⟩
  omega

end Topology

namespace Engine

open Models

lemma logT_map (f : υ → υ') (now : ℚ) (m : Machine υ) (s : String) :
    mapMachine f (logT now m s) = logT now (mapMachine f m) s := by
  unfold logT mapMachine
  by_cases h : m.state = s <;> simp [h]

lemma setM_map (f : υ → υ') (st : SimState υ) (i : ℕ) (m : Machine υ) :
    mapState f (setM st i m) = setM (mapState f st) i (mapMachine f m) := by
  simp [setM, mapState, List.map_set]

lemma setS_map (f : υ → υ') (st : SimState υ) (j : ℕ) (s : StoreSt υ) :
    mapState f (setS st j s) = setS (mapState f st) j (mapStore f s) := by
  simp [setS, mapState, List.map_set]

lemma schedule_map (f : υ → υ') (st : SimState υ) (d : ℚ) (pid : ℕ) :
    mapState f (schedule st d pid) = schedule (mapState f st) d pid := by
  simp [schedule, mapState]

lemma pushTasks_map (f : υ → υ') (st : SimState υ) (ts : List Task) :
    mapState f (pushTasks st ts) = pushTasks (mapState f st) ts := by
  simp [pushTasks, mapState]

lemma bumpRng_map (f : υ → υ') (st : SimState υ) :
    mapState f (bumpRng st) = bumpRng (mapState f st) := rfl

lemma bumpUid_map (f : υ → υ') (st : SimState υ) :
    mapState f (bumpUid st) = bumpUid (mapState f st) := rfl

@[simp] lemma bumpRng_now (st : SimState υ) : (bumpRng st).now = st.now := rfl

@[simp] lemma bumpRng_rngIdx (st : SimState υ) :
    (bumpRng st).rngIdx = st.rngIdx + 1 := rfl

@[simp] lemma bumpRng_machines (st : SimState υ) :
    (bumpRng st).machines = st.machines := rfl

@[simp] lemma bumpRng_stores (st : SimState υ) :
    (bumpRng st).stores = st.stores := rfl

@[simp] lemma bumpRng_uidIdx (st : SimState υ) :
    (bumpRng st).uidIdx = st.uidIdx := rfl

@[simp] lemma bumpUid_now (st : SimState υ) : (bumpUid st).now = st.now := rfl

@[simp] lemma mapState_now (f : υ → υ') (st : SimState υ) :
    (mapState f st).now = st.now := rfl

@[simp] lemma mapState_seq (f : υ → υ') (st : SimState υ) :
    (mapState f st).seq = st.seq := rfl

@[simp] lemma mapState_rngIdx (f : υ → υ') (st : SimState υ) :
    (mapState f st).rngIdx = st.rngIdx := rfl

@[simp] lemma mapState_uidIdx (f : υ → υ') (st : SimState υ) :
    (mapState f st).uidIdx = st.uidIdx := rfl

@[simp] lemma mapState_events (f : υ → υ') (st : SimState υ) :
    (mapState f st).events = st.events := rfl

@[simp] lemma mapState_agenda (f : υ → υ') (st : SimState υ) :
    (mapState f st).agenda = st.agenda := rfl

@[simp] lemma mapState_stores (f : υ → υ') (st : SimState υ) :
    (mapState f st).stores = st.stores.map (mapStore f) := rfl

@[simp] lemma mapState_machines (f : υ → υ') (st : SimState υ) :
    (mapState f st).machines = st.machines.map (mapMachine f) := rfl

@[simp] lemma mapState_telemetry (f : υ → υ') (st : SimState υ) :
    (mapState f st).telemetry = st.telemetry := rfl

@[simp] lemma mapMachine_cfg (f : υ → υ') (m : Machine υ) :
    (mapMachine f m).cfg = m.cfg := rfl

@[simp] lemma mapMachine_hasReject (f : υ → υ') (m : Machine υ) :
    (mapMachine f m).hasReject = m.hasReject := rfl

@[simp] lemma mapMachine_phase (f : υ → υ') (m : Machine υ) :
    (mapMachine f m).phase = mapPhase f m.phase := rfl

@[simp] lemma mapStore_items (f : υ → υ') (s : StoreSt υ) :
    (mapStore f s).items = s.items.map (mapItem f) := rfl

@[simp] lemma mapStore_capacity (f : υ → υ') (s : StoreSt υ) :
    (mapStore f s).capacity = s.capacity := rfl

@[simp] lemma mapStore_getters (f : υ → υ') (s : StoreSt υ) :
    (mapStore f s).getters = s.getters := rfl

@[simp] lemma mapStore_putters (f : υ → υ') (s : StoreSt υ) :
    (mapStore f s).putters = s.putters.map (fun p => (p.1, mapItem f p.2)) := rfl

@[simp] lemma hasSpace_mapStore (f : υ → υ') (s : StoreSt υ) :
    hasSpace (mapStore f s) = hasSpace s := by
  unfold hasSpace
  cases h : s.capacity <;> simp [mapStore, h]

@[simp] lemma mapItem_is_defective (f : υ → υ') (it : Item υ) :
    (mapItem f it).is_defective = it.is_defective := rfl

@[simp] lemma mapItem_type (f : υ → υ') (it : Item υ) :
    (mapItem f it).type = it.type := rfl

lemma logT_cfg (now : ℚ) (m : Machine υ) (s : String) :
    (logT now m s).cfg = m.cfg := by
  unfold logT
  split <;> rfl

lemma mapState_withRng (f : υ → υ') (st : SimState υ) (x : ℕ) :
    mapState f { st with rngIdx := x } = { mapState f st with rngIdx := x } := rfl

lemma mapMachine_withPhase (f : υ → υ') (m : Machine υ) (p : MPhase υ) :
    mapMachine f { m with phase := p } =
      { mapMachine f m with phase := mapPhase f p } := rfl

lemma stageExec_map (f : υ → υ') (st : SimState υ) (i : ℕ) (m : Machine υ)
    (inputs : List (Item υ)) :
    mapState f (stageExec st i m inputs) =
      stageExec (mapState f st) i (mapMachine f m) (inputs.map (mapItem f)) := by
  unfold stageExec
  rw [schedule_map, setM_map, mapMachine_withPhase, logT_map]
  simp [mapPhase, logT_cfg]

lemma stageMicro_map (P : SimParams) (f : υ → υ') (st : SimState υ) (i : ℕ)
    (m : Machine υ) (inputs : List (Item υ)) :
    mapState f (stageMicro P st i m inputs) =
      stageMicro P (mapState f st) i (mapMachine f m) (inputs.map (mapItem f)) := by
  unfold stageMicro
  by_cases h1 : 0 < m.cfg.performance.jam_prob
  · simp only [mapMachine_cfg, if_pos h1, mapState_rngIdx, mapState_now]
    by_cases h2 : P.rng st.rngIdx < m.cfg.performance.jam_prob
    · simp only [if_pos h2]
      rw [schedule_map, setM_map, mapMachine_withPhase, logT_map, bumpRng_map]
      simp [mapPhase, logT_cfg]
    · simp only [if_neg h2]
      rw [stageExec_map, bumpRng_map]
  · simp only [mapMachine_cfg, if_neg h1]
    exact stageExec_map f st i m inputs

lemma stageChecks_map (P : SimParams) (f : υ → υ') (st : SimState υ) (i : ℕ)
    (m : Machine υ) (inputs : List (Item υ)) :
    mapState f (stageChecks P st i m inputs) =
      stageChecks P (mapState f st) i (mapMachine f m) (inputs.map (mapItem f)) := by
  unfold stageChecks
  cases hm : m.cfg.reliability.mtbf_min with
  | none =>
      simp only [mapMachine_cfg, hm]
      exact stageMicro_map P f st i m inputs
  | some mtbf =>
      simp only [mapMachine_cfg, hm, mapState_rngIdx, mapState_now]
      by_cases h2 : P.rng st.rngIdx < P.pFail m.cfg.cycle_time_sec (mtbf * 60)
      · simp only [if_pos h2]
        rw [schedule_map, setM_map, mapMachine_withPhase, logT_map,
          bumpRng_map, bumpRng_map]
        simp [mapPhase, logT_cfg]
      · simp only [if_neg h2]
        rw [stageMicro_map, bumpRng_map]

lemma stepCollect_map (P : SimParams) (f : υ → υ') (st : SimState υ) (i : ℕ) :
    mapState f (stepCollect P st i) = stepCollect P (mapState f st) i := by
  unfold stepCollect
  simp only [mapState_machines, mapState_stores, List.getElem?_map]
  cases hm : st.machines[i]? with
  | none => simp
  | some m =>
      cases hs : st.stores[i]? with
      | none => simp
      | some s =>
          simp only [Option.map_some']
          cases hp : m.phase with
          | collecting c =>
              simp only [mapMachine_phase, hp, mapPhase]
              by_cases hlen : c.length < m.cfg.batch_in
              · simp only [List.length_map, mapMachine_cfg, if_pos hlen]
                cases hitems : s.items with
                | nil =>
                    simp only [mapStore_items, hitems, List.map_nil]
                    rw [setS_map]
                    rfl
                | cons it rest =>
                    simp only [mapStore_items, hitems, List.map_cons]
                    cases hput : s.putters with
                    | nil =>
                        simp only [mapStore_putters, hput, List.map_nil]
                        rw [pushTasks_map, setS_map, setM_map, mapMachine_withPhase]
                        simp [mapPhase]
                        rfl
                    | cons p restPut =>
                        simp only [mapStore_putters, hput, List.map_cons]
                        rw [pushTasks_map, setS_map, setM_map, mapMachine_withPhase]
                        simp [mapPhase, mapStore]
              · simp only [List.length_map, mapMachine_cfg, if_neg hlen]
                exact stageChecks_map P f st i m c
          | repairing c => simp [mapMachine_phase, hp, mapPhase]
          | jammedP c => simp [mapMachine_phase, hp, mapPhase]
          | executing c => simp [mapMachine_phase, hp, mapPhase]
          | putting it => simp [mapMachine_phase, hp, mapPhase]

@[simp] lemma setS_machines (st : SimState υ) (j : ℕ) (s : StoreSt υ) :
    (setS st j s).machines = st.machines := rfl

@[simp] lemma setM_stores (st : SimState υ) (i : ℕ) (m : Machine υ) :
    (setM st i m).stores = st.stores := rfl

lemma putDownstream_map (f : υ → υ') (st : SimState υ) (i : ℕ)
    (m : Machine υ) (output : Item υ) :
    mapState f (putDownstream st i m output) =
      putDownstream (mapState f st) i (mapMachine f m) (mapItem f output) := by
  unfold putDownstream
  simp only [mapState_stores, mapState_machines, List.getElem?_map]
  cases hs : st.stores[i + 1]? with
  | none => simp [setM_map]
  | some s =>
      simp only [Option.map_some']
      have hdeliver : ∀ (cap : Option ℕ) (restG : List ℕ) (j : ℕ)
          (it : Item υ) (restI : List (Item υ)),
          mapState f
            (pushTasks
              (setM
                (match (setS st (i + 1)
                    { items := restI, capacity := cap, getters := restG,
                      putters := s.putters }).machines[j]? with
                | some mj =>
                  match mj.phase with
                  | MPhase.collecting cj =>
                    setM (setS st (i + 1)
                      { items := restI, capacity := cap, getters := restG,
                        putters := s.putters }) j
                      { mj with phase := MPhase.collecting (cj ++ [it]) }
                  | _ => setS st (i + 1)
                      { items := restI, capacity := cap, getters := restG,
                        putters := s.putters }
                | none => setS st (i + 1)
                    { items := restI, capacity := cap, getters := restG,
                      putters := s.putters })
                i m)
              [Task.collectLoop j, Task.putDone i]) =
          pushTasks
            (setM
              (match (mapState f st).machines[j]? with
              | some mj =>
                match mj.phase with
                | MPhase.collecting cj =>
                  setM (setS (mapState f st) (i + 1)
                    { items := restI.map (mapItem f), capacity := cap,
                      getters := restG,
                      putters := s.putters.map (fun p => (p.1, mapItem f p.2)) }) j
                    { mj with phase := MPhase.collecting (cj ++ [mapItem f it]) }
                | _ => setS (mapState f st) (i + 1)
                    { items := restI.map (mapItem f), capacity := cap,
                      getters := restG,
                      putters := s.putters.map (fun p => (p.1, mapItem f p.2)) }
              | none => setS (mapState f st) (i + 1)
                  { items := restI.map (mapItem f), capacity := cap,
                    getters := restG,
                    putters := s.putters.map (fun p => (p.1, mapItem f p.2)) })
              i (mapMachine f m))
            [Task.collectLoop j, Task.putDone i] := by
        intro cap restG j it restI
        simp only [setS_machines, mapState_machines, List.getElem?_map]
        cases hmj : st.machines[j]? with
        | none =>
            simp only [Option.map_none']
            rw [pushTasks_map, setM_map, setS_map]
            simp [mapStore]
        | some mj =>
            simp only [Option.map_some']
            cases hpj : mj.phase with
            | collecting cj =>
                simp only [mapMachine_phase, hpj, mapPhase]
                rw [pushTasks_map, setM_map, setM_map, setS_map,
                  mapMachine_withPhase]
                simp [mapPhase, mapStore]
            | repairing cj =>
                simp only [mapMachine_phase, hpj, mapPhase]
                rw [pushTasks_map, setM_map, setS_map]
                simp [mapStore]
            | jammedP cj =>
                simp only [mapMachine_phase, hpj, mapPhase]
                rw [pushTasks_map, setM_map, setS_map]
                simp [mapStore]
            | executing cj =>
                simp only [mapMachine_phase, hpj, mapPhase]
                rw [pushTasks_map, setM_map, setS_map]
                simp [mapStore]
            | putting itj =>
                simp only [mapMachine_phase, hpj, mapPhase]
                rw [pushTasks_map, setM_map, setS_map]
                simp [mapStore]
      by_cases hsp : hasSpace s = true
      · simp only [hasSpace_mapStore, if_pos hsp]
        cases hget : s.getters with
        | nil =>
            simp only [mapStore_getters, hget]
            rw [pushTasks_map, setS_map, setM_map]
            simp [mapStore]
        | cons j restG =>
            simp only [mapStore_getters, hget, mapStore_items,
              mapStore_capacity, mapStore_putters]
            cases hitems : s.items with
            | nil =>
                simp only [List.map_nil, List.nil_append]
                exact hdeliver s.capacity restG j output []
            | cons a l =>
                simp only [List.map_cons, List.cons_append]
                have h2 := hdeliver s.capacity restG j a (l ++ [output])
                simpa using h2
      · simp only [hasSpace_mapStore, if_neg hsp]
        rw [setS_map, setM_map, mapMachine_withPhase]
        simp [mapPhase, mapStore]

lemma transformOut_map (f : υ → υ') (o : ℕ → υ) (o' : ℕ → υ')
    (ho : ∀ k, o' k = f (o k)) (st : SimState υ)
    (m : Machine υ) (first : Item υ) (inputs : List (Item υ))
    (ins' : List (Item υ')) (hins : ins' = inputs.map (mapItem f))
    (nd0 : Bool) :
    transformOut o' (mapState f st) (mapMachine f m)
        (mapItem f first) ins' nd0 =
      ((mapItem f (transformOut o st m first inputs nd0).1),
        (transformOut o st m first inputs nd0).2.1,
        mapState f (transformOut o st m first inputs nd0).2.2) := by
  subst hins
  unfold transformOut
  by_cases hnone : m.cfg.output_type = MaterialType.NONE
  · simp [hnone]
  · simp only [mapMachine_cfg, if_neg hnone]
    refine Prod.ext ?_ (Prod.ext rfl ?_)
    · rw [show (List.map (mapItem f) inputs).any (fun x => x.is_defective) =
          inputs.any (fun x => x.is_defective) by
        induction inputs with
        | nil => rfl
        | cons a l ih => simp only [List.map_cons, List.any_cons, ih,
            mapItem_is_defective]]
      rw [show List.map (fun x => x.uid) (List.map (mapItem f) inputs) =
          List.map f (List.map (fun x => x.uid) inputs) by
        rw [List.map_map, List.map_map]
        apply List.map_congr_left
        intro a _
        rfl]
      rw [ho]
      rfl
    · rfl

lemma updateCounters_map (f : υ → υ') (m : Machine υ) (t : MaterialType)
    (nd : Bool) :
    mapMachine f (updateCounters m t nd) =
      updateCounters (mapMachine f m) t nd := by
  cases t <;> cases nd <;> rfl

lemma inspectStep_map (P : SimParams) (f : υ → υ') (st : SimState υ)
    (m : Machine υ) (d : Bool) :
    inspectStep P (mapState f st) (mapMachine f m) d =
      ((inspectStep P st m d).1,
        mapMachine f (inspectStep P st m d).2.1,
        mapState f (inspectStep P st m d).2.2) := by
  unfold inspectStep
  by_cases h1 : 0 < m.cfg.quality.detection_prob ∧ d = true
  · simp only [mapMachine_cfg, if_pos h1, mapState_rngIdx]
    by_cases h2 : P.rng st.rngIdx < m.cfg.quality.detection_prob
    · simp only [if_pos h2]
      rfl
    · simp only [if_neg h2]
      rfl
  · simp [if_neg h1]

lemma logT_hasReject (now : ℚ) (m : Machine υ) (s : String) :
    (logT now m s).hasReject = m.hasReject := by
  unfold logT
  split <;> rfl

lemma mapState_withReject (f : υ → υ') (st : SimState υ) (out : Item υ) :
    mapState f { st with reject := st.reject ++ [out] } =
      { mapState f st with reject := st.reject.map (mapItem f) ++ [mapItem f out] } := by
  simp [mapState]

lemma stepExecDone_map (P : SimParams) (f : υ → υ') (o : ℕ → υ)
    (st : SimState υ) (i : ℕ) :
    mapState f (stepExecDone P o st i) =
      stepExecDone P (fun k => f (o k)) (mapState f st) i := by
  unfold stepExecDone
  simp only [mapState_machines, List.getElem?_map]
  cases hm : st.machines[i]? with
  | none => simp
  | some m =>
      simp only [Option.map_some']
      cases hp : m.phase with
      | executing inputs =>
          simp only [mapMachine_phase, hp, mapPhase]
          cases hin : inputs with
          | nil => simp
          | cons first rest =>
              simp only [List.map_cons, mapMachine_cfg, mapState_rngIdx]
              rw [← bumpRng_map,
                transformOut_map f o (fun k => f (o k)) (fun k => rfl)
                  (bumpRng st) m first (first :: rest)
                  (mapItem f first :: List.map (mapItem f) rest) (by simp)]
              cases htr : transformOut o (bumpRng st) m
                  first (first :: rest)
                  (decide (P.rng st.rngIdx < m.cfg.quality.defect_rate)) with
              | mk output p2 =>
                  cases p2 with
                  | mk nd st2 =>
                      simp only []
                      rw [show (updateCounters (mapMachine f m)
                          (mapItem f output).type nd : Machine υ') =
                          mapMachine f (updateCounters m output.type nd) by
                        rw [mapItem_type, updateCounters_map]]
                      rw [mapItem_is_defective, inspectStep_map]
                      cases hins : inspectStep P st2
                          (updateCounters m output.type nd)
                          output.is_defective with
                      | mk routed q2 =>
                          cases q2 with
                          | mk m3 st3 =>
                              simp only []
                              rw [← logT_map]
                              simp only [mapState_now, mapMachine_hasReject,
                                logT_hasReject]
                              by_cases hr : (routed && m3.hasReject) = true
                              · simp only [hr, if_true, if_pos]
                                rw [pushTasks_map, setM_map, mapState_withReject]
                                rfl
                              · simp only [if_neg hr]
                                rw [putDownstream_map]
      | collecting c => simp [mapMachine_phase, hp, mapPhase]
      | repairing c => simp [mapMachine_phase, hp, mapPhase]
      | jammedP c => simp [mapMachine_phase, hp, mapPhase]
      | putting it => simp [mapMachine_phase, hp, mapPhase]

lemma stepRepairDone_map (P : SimParams) (f : υ → υ') (st : SimState υ)
    (i : ℕ) :
    mapState f (stepRepairDone P st i) = stepRepairDone P (mapState f st) i := by
  unfold stepRepairDone
  simp only [mapState_machines, List.getElem?_map]
  cases hm : st.machines[i]? with
  | none => simp
  | some m =>
      simp only [Option.map_some']
      cases hp : m.phase with
      | repairing c =>
          simp only [mapMachine_phase, hp, mapPhase]
          exact stageMicro_map P f st i m c
      | collecting c => simp [mapMachine_phase, hp, mapPhase]
      | jammedP c => simp [mapMachine_phase, hp, mapPhase]
      | executing c => simp [mapMachine_phase, hp, mapPhase]
      | putting it => simp [mapMachine_phase, hp, mapPhase]

lemma stepJamDone_map (f : υ → υ') (st : SimState υ) (i : ℕ) :
    mapState f (stepJamDone st i) = stepJamDone (mapState f st) i := by
  unfold stepJamDone
  simp only [mapState_machines, List.getElem?_map]
  cases hm : st.machines[i]? with
  | none => simp
  | some m =>
      simp only [Option.map_some']
      cases hp : m.phase with
      | jammedP c =>
          simp only [mapMachine_phase, hp, mapPhase]
          exact stageExec_map f st i m c
      | collecting c => simp [mapMachine_phase, hp, mapPhase]
      | repairing c => simp [mapMachine_phase, hp, mapPhase]
      | executing c => simp [mapMachine_phase, hp, mapPhase]
      | putting it => simp [mapMachine_phase, hp, mapPhase]

lemma stepStart_map (f : υ → υ') (st : SimState υ) (i : ℕ) :
    mapState f (stepStart st i) = stepStart (mapState f st) i := by
  unfold stepStart
  simp only [mapState_machines, List.getElem?_map]
  cases hm : st.machines[i]? with
  | none => simp
  | some m =>
      simp only [Option.map_some']
      rw [pushTasks_map, setM_map, mapMachine_withPhase, logT_map]
      simp [mapPhase]

lemma filterMap_congr_pointwise {α β : Type} (l : List α) (g h : α → Option β)
    (hg : ∀ a ∈ l, g a = h a) : l.filterMap g = l.filterMap h := by
  induction l with
  | nil => rfl
  | cons a t ih =>
      rw [List.filterMap_cons, List.filterMap_cons,
        hg a (List.mem_cons_self _ _),
        ih (fun x hx => hg x (List.mem_cons_of_mem _ hx))]

lemma stepMonitor_map (P : SimParams) (f : υ → υ') (st : SimState υ) :
    mapState f (stepMonitor P st) = stepMonitor P (mapState f st) := by
  unfold stepMonitor
  rw [schedule_map]
  have hsum : ∀ (g : Machine υ → ℕ) (g' : Machine υ' → ℕ),
      (∀ m, g' (mapMachine f m) = g m) →
      ((st.machines.map (mapMachine f)).map g').sum = (st.machines.map g).sum := by
    intro g g' hg
    rw [List.map_map]
    congr 1
    apply List.map_congr_left
    intro m _
    exact hg m
  simp only [mapState_machines, mapState_stores, mapState_now]
  rw [hsum (·.tubes_produced) (·.tubes_produced) (fun m => rfl),
    hsum (·.cases_produced) (·.cases_produced) (fun m => rfl),
    hsum (·.pallets_produced) (·.pallets_produced) (fun m => rfl),
    hsum (·.defects_created) (·.defects_created) (fun m => rfl),
    hsum (·.defects_detected) (·.defects_detected) (fun m => rfl)]
  have hfind : (st.machines.map (mapMachine f)).find?
      (fun m => m.cfg.output_type = MaterialType.PALLET) =
      (st.machines.find? (fun m => m.cfg.output_type = MaterialType.PALLET)).map
        (mapMachine f) := by
    rw [List.find?_map]
    congr 1
  rw [hfind]
  have hlevels : (((st.stores.map (mapStore f)).drop 1).filterMap
      (fun s => match s.capacity with
        | some c => some (s.items.length, c)
        | none => none)) =
      ((st.stores.drop 1).filterMap
        (fun s => match s.capacity with
          | some c => some (s.items.length, c)
          | none => none)) := by
    rw [← List.map_drop, List.filterMap_map]
    apply filterMap_congr_pointwise
    intro s _
    cases hc : s.capacity <;> simp [Function.comp, mapStore, hc]
  rw [hlevels]
  have hstates : (st.machines.map (mapMachine f)).map
      (fun m => (m.cfg.name, m.state, m.items_produced)) =
      st.machines.map (fun m => (m.cfg.name, m.state, m.items_produced)) := by
    rw [List.map_map]
    apply List.map_congr_left
    intro m _
    rfl
  rw [hstates]
  cases hfp : st.machines.find?
      (fun m => m.cfg.output_type = MaterialType.PALLET) with
  | none =>
      simp only [Option.map_none', List.length_map]
      rfl
  | some p =>
      simp only [Option.map_some', List.length_map]
      rfl

lemma stepTask_map (P : SimParams) (f : υ → υ') (o : ℕ → υ)
    (st : SimState υ) (t : Task) :
    mapState f (stepTask P o st t) =
      stepTask P (fun k => f (o k)) (mapState f st) t := by
  cases t with
  | start i => exact stepStart_map f st i
  | putDone i => exact stepStart_map f st i
  | collectLoop i => exact stepCollect_map P f st i
  | repairDone i => exact stepRepairDone_map P f st i
  | jamDone i => exact stepJamDone_map f st i
  | execDone i => exact stepExecDone_map P f o st i
  | monitor => exact stepMonitor_map P f st

lemma wakeTask_map (f : υ → υ') (st : SimState υ) (pid : ℕ) :
    wakeTask (mapState f st) pid = wakeTask st pid := by
  unfold wakeTask
  simp only [mapState_machines, List.length_map, List.getElem?_map]
  by_cases h : pid = st.machines.length
  · simp [h]
  · simp only [if_neg h]
    cases hm : st.machines[pid]? with
    | none => simp
    | some m =>
        simp only [Option.map_some']
        cases hp : m.phase <;> simp [mapMachine_phase, hp, mapPhase]

lemma dropAgenda_map (f : υ → υ') (st : SimState υ) :
    mapState f (dropAgenda st) = dropAgenda (mapState f st) := rfl

lemma advanceClock_map (f : υ → υ') (st : SimState υ) (tm : ℚ)
    (rest : List (ℚ × ℕ × ℕ)) :
    mapState f (advanceClock st tm rest) =
      advanceClock (mapState f st) tm rest := rfl

lemma setAgenda_map (f : υ → υ') (st : SimState υ) (ts : List Task) :
    mapState f (setAgenda st ts) = setAgenda (mapState f st) ts := rfl

lemma haltEvents_map (f : υ → υ') (st : SimState υ) :
    mapState f (haltEvents st) = haltEvents (mapState f st) := rfl

lemma simStep_map (P : SimParams) (f : υ → υ') (o : ℕ → υ)
    (st : SimState υ) :
    mapState f (simStep P o st) =
      simStep P (fun k => f (o k)) (mapState f st) := by
  unfold simStep
  simp only [mapState_agenda, mapState_events]
  cases ha : st.agenda with
  | cons t rest =>
      rw [stepTask_map, dropAgenda_map]
  | nil =>
      cases hpop : popMin st.events with
      | none => rfl
      | some e =>
          obtain ⟨⟨tm, sq, pid⟩, rest⟩ := e
          simp only []
          by_cases htm : tm < P.duration
          · simp only [if_pos htm]
            rw [← advanceClock_map, wakeTask_map]
            cases hw : wakeTask (advanceClock st tm rest) pid with
            | none => rw [advanceClock_map]
            | some t => rw [setAgenda_map, advanceClock_map]
          · simp only [if_neg htm]
            rw [haltEvents_map]

lemma runSim_map (P : SimParams) (f : υ → υ') (o : ℕ → υ) :
    ∀ (fuel : ℕ) (st : SimState υ),
    mapState f (runSim P o fuel st) =
      runSim P (fun k => f (o k)) fuel (mapState f st) := by
  intro fuel
  induction fuel with
  | zero => intro st; rfl
  | succ n ih =>
      intro st
      show mapState f (runSim P o n (simStep P o st)) =
        runSim P (fun k => f (o k)) n (simStep P (fun k => f (o k)) (mapState f st))
      rw [ih, simStep_map]

lemma initState_map (f : υ → υ') (cfgs : List MachineConfig) (inventory : ℕ)
    (material : MaterialType) (parent : String) (o : ℕ → υ) :
    mapState f (initState cfgs inventory material parent o) =
      initState cfgs inventory material parent (fun k => f (o k)) := by
  simp only [initState, mapState, List.map_cons, List.map_map, List.map_nil]
  congr 1 <;> first
    | rfl
    | (congr 1 <;> first
        | rfl
        | (simp only [mapStore, List.map_map]
           congr 1 <;> first
            | rfl
            | (apply List.map_congr_left
               intro x _
               rfl))
        | (apply List.map_congr_left
           intro x _
           rfl))
    | (apply List.map_congr_left
       intro x _
       rfl)

lemma trace_map (f : υ → υ') (st : SimState υ) :
    trace (mapState f st) = trace st := by
  unfold trace
  simp only [mapState_machines]
  induction st.machines with
  | nil => rfl
  | cons m l ih =>
      simp only [List.map_cons, List.flatMap_cons, ih]
      rfl

lemma summary_map (f : υ → υ') (st : SimState υ) :
    summary (mapState f st) = summary st := rfl

end Engine

/-! ## Claim theorems -/

open Aggregation in
/-- C2 (bucket apportionment): for every `on_state_change(station, new_state,
t, prev_state, d)` with a tracked previous state and `d > 0`, the duration is
accumulated to `prev_state`'s per-state seconds over the interval `[t-d, t]`,
each bucket gaining exactly the length of its overlap with that interval
(split proportionally at every bucket boundary crossed), and the per-bucket
segments added sum exactly to `d`. -/
theorem C2_bucket_apportionment (agg : EventAggregator)
    (machine_name new_state prev_state : String) (t d : ℚ)
    (hsz : 0 < agg.bucket_size_sec)
    (hst : strUpper prev_state ∈ TRACKED_STATES) (hd : 0 < d) :
    (∀ i : Int,
      (agg.on_state_change machine_name new_state t (some prev_state)
          (some d)).bucket_state_sec i machine_name prev_state =
        agg.bucket_state_sec i machine_name prev_state +
          overlap agg.bucket_size_sec (t - d) t i) ∧
    ((intRange (agg.get_bucket_index (t - d)) (agg.get_bucket_index t)).map
        (fun i =>
          (agg.on_state_change machine_name new_state t (some prev_state)
              (some d)).bucket_state_sec i machine_name prev_state -
            agg.bucket_state_sec i machine_name prev_state)).sum = d := by
  have h1 := on_state_change_bucket_state_sec agg machine_name new_state prev_state
    t d hsz hst hd
  refine ⟨h1, ?_⟩
  have h3 : ((intRange (agg.get_bucket_index (t - d)) (agg.get_bucket_index t)).map
      (fun i =>
        (agg.on_state_change machine_name new_state t (some prev_state)
            (some d)).bucket_state_sec i machine_name prev_state -
          agg.bucket_state_sec i machine_name prev_state)) =
      ((intRange (agg.get_bucket_index (t - d)) (agg.get_bucket_index t)).map
        (fun i => overlap agg.bucket_size_sec (t - d) t i)) :=
    List.map_congr_left (fun i _ => by rw [h1 i]; ring)
  rw [h3]
  have h2 := overlap_sum hsz (show t - d < t by linarith)
  rw [show t - (t - d) = d by ring] at h2
  exact h2

/-- Witness for C2 at the spec's concrete example: `bucket_size=100`,
`on_state_change("Filler", "DOWN", sim_time=150, prev_state="EXECUTE",
duration=100)`. -/
theorem C2_bucket_apportionment_witness :
    0 < Aggregation.exampleAgg.bucket_size_sec ∧
    strUpper "EXECUTE" ∈ Aggregation.TRACKED_STATES ∧
    (0 : ℚ) < 100 ∧
    ((∀ i : Int,
      (Aggregation.exampleAgg.on_state_change "Filler" "DOWN" 150 (some "EXECUTE")
          (some 100)).bucket_state_sec i "Filler" "EXECUTE" =
        Aggregation.exampleAgg.bucket_state_sec i "Filler" "EXECUTE" +
          Aggregation.overlap Aggregation.exampleAgg.bucket_size_sec (150 - 100) 150 i) ∧
    ((intRange (Aggregation.exampleAgg.get_bucket_index (150 - 100))
        (Aggregation.exampleAgg.get_bucket_index 150)).map
        (fun i =>
          (Aggregation.exampleAgg.on_state_change "Filler" "DOWN" 150 (some "EXECUTE")
              (some 100)).bucket_state_sec i "Filler" "EXECUTE" -
            Aggregation.exampleAgg.bucket_state_sec i "Filler" "EXECUTE")).sum = 100) :=
  ⟨by norm_num [Aggregation.exampleAgg], by decide, by norm_num,
    C2_bucket_apportionment Aggregation.exampleAgg "Filler" "DOWN" "EXECUTE" 150 100
      (by norm_num [Aggregation.exampleAgg]) (by decide) (by norm_num)⟩

open Aggregation in
/-- C8 (availability formula): every row of the state summary has
`availability_pct = execute_sec / (execute_sec + down_sec + jammed_sec) · 100`,
and availability is `None` exactly when that denominator is zero. -/
theorem C8_availability_formula (agg : EventAggregator) (r : SummaryRow)
    (hr : r ∈ agg.get_summary) :
    (r.availability_pct = none ↔ r.execute_sec + r.down_sec + r.jammed_sec = 0) ∧
    (r.execute_sec + r.down_sec + r.jammed_sec ≠ 0 →
      r.availability_pct =
        some (r.execute_sec / (r.execute_sec + r.down_sec + r.jammed_sec) * 100)) := by
  unfold EventAggregator.get_summary at hr
  have hr' := (List.perm_insertionSort summaryLE _).mem_iff.mp hr
  obtain ⟨kv, hkv, hrow⟩ := List.mem_map.mp hr'
  subst hrow
  unfold BucketStats.to_row BucketStats.availability_pct
  simp only []
  constructor
  · constructor
    · intro h
      by_contra hc
      rw [if_neg (fun hz => hc (by linarith))] at h
      exact Option.some_ne_none _ h
    · intro h
      rw [if_pos (by linarith)]
  · intro h
    rw [if_neg (fun hz => h (by linarith))]
    congr 1
    rw [add_assoc]

/-- Witness for C8 at the spec's concrete example: `execute_sec=80`,
`down_sec=15`, `jammed_sec=5` gives `availability_pct = 80`. -/
theorem C8_availability_formula_witness :
    Aggregation.exampleBucket.to_row ∈ Aggregation.exampleAvailAgg.get_summary ∧
    Aggregation.exampleBucket.availability_pct = some 80 ∧
    ((Aggregation.exampleBucket.to_row.availability_pct = none ↔
        Aggregation.exampleBucket.to_row.execute_sec +
          Aggregation.exampleBucket.to_row.down_sec +
          Aggregation.exampleBucket.to_row.jammed_sec = 0) ∧
      (Aggregation.exampleBucket.to_row.execute_sec +
          Aggregation.exampleBucket.to_row.down_sec +
          Aggregation.exampleBucket.to_row.jammed_sec ≠ 0 →
        Aggregation.exampleBucket.to_row.availability_pct =
          some (Aggregation.exampleBucket.to_row.execute_sec /
            (Aggregation.exampleBucket.to_row.execute_sec +
              Aggregation.exampleBucket.to_row.down_sec +
              Aggregation.exampleBucket.to_row.jammed_sec) * 100))) :=
  ⟨by simp [Aggregation.EventAggregator.get_summary, Aggregation.exampleAvailAgg,
      List.insertionSort, List.orderedInsert],
    by norm_num [Aggregation.exampleBucket, Aggregation.BucketStats.availability_pct],
    C8_availability_formula Aggregation.exampleAvailAgg Aggregation.exampleBucket.to_row
      (by simp [Aggregation.EventAggregator.get_summary, Aggregation.exampleAvailAgg,
        List.insertionSort, List.orderedInsert])⟩

open Aggregation in
/-- C9 (context window): feeding `N` non-interesting events, then one
DOWN/JAMMED event, then `M` non-interesting events (all resident in the
circular buffer), `get_detail` returns exactly `min 5 N + 1 + min 5 M` rows,
sorted by simulation time. -/
theorem C9_context_window (sz : ℚ) (pre post : List EventCall) (mid : EventCall)
    (hlen : pre.length + 1 + post.length ≤ CONTEXT_WINDOW * 20)
    (hpre : ∀ c ∈ pre, strUpper c.new_state ∉ INTERESTING_STATES)
    (hpost : ∀ c ∈ post, strUpper c.new_state ∉ INTERESTING_STATES)
    (hmid : strUpper mid.new_state ∈ INTERESTING_STATES) :
    ((feed { bucket_size_sec := sz } (pre ++ mid :: post)).get_detail).length =
      min CONTEXT_WINDOW pre.length + 1 + min CONTEXT_WINDOW post.length ∧
    List.Sorted (fun a b : DetailRow => a.sim_time_sec ≤ b.sim_time_sec)
      ((feed { bucket_size_sec := sz } (pre ++ mid :: post)).get_detail) := by
  refine ⟨?_, sorted_get_detail _⟩
  set calls := pre ++ mid :: post with hcalls
  have hK : calls.length = pre.length + 1 + post.length := by
    simp [hcalls]
    omega
  obtain ⟨hbuf, hintr, hidx⟩ := feed_detail_general calls { bucket_size_sec := sz }
    (by
      rw [show ({ bucket_size_sec := sz } : EventAggregator).event_buffer = []
        from rfl]
      simpa [hK] using hlen)
  rw [show ({ bucket_size_sec := sz } : EventAggregator).event_buffer = [] from rfl,
    List.nil_append,
    show ({ bucket_size_sec := sz } : EventAggregator).event_index = 0 from rfl]
    at hbuf
  rw [show ({ bucket_size_sec := sz } : EventAggregator).interesting_indices = []
      from rfl,
    List.nil_append,
    show ({ bucket_size_sec := sz } : EventAggregator).event_index = 0 from rfl]
    at hintr
  have hintr' : (feed { bucket_size_sec := sz } calls).interesting_indices =
      [pre.length] := by
    rw [hintr, hcalls, expectedInteresting_append pre (mid :: post) 0,
      expectedInteresting_nil_of_not pre hpre 0, List.nil_append]
    simp only [expectedInteresting]
    rw [if_pos hmid, expectedInteresting_nil_of_not post hpost]
    simp
  have hne : expectedBuffer 0 calls ≠ [] := by
    have hlenpos : 0 < (expectedBuffer 0 calls).length := by
      rw [expectedBuffer_length]
      omega
    intro hnil
    rw [hnil] at hlenpos
    simp at hlenpos
  have hinc : (feed { bucket_size_sec := sz } calls).indices_to_include =
      EventAggregator.window_positions pre.length calls.length := by
    unfold EventAggregator.indices_to_include
    rw [hbuf, hintr']
    simp only [List.flatMap_cons, List.flatMap_nil, List.append_nil]
    rw [expectedBuffer_findIdx? pre.length calls 0 0,
      if_pos ⟨Nat.zero_le _, by omega⟩]
    simp only [Nat.sub_zero, Nat.zero_add, expectedBuffer_length]
    refine filterMap_some_self _ _ ?_
    intro p hp
    have hpK : p < calls.length := (mem_window_positions.mp hp).2.2
    rw [expectedBuffer_get?_index calls 0 p hpK]
    simp
  unfold EventAggregator.get_detail
  rw [if_neg (by
    rw [hintr', hbuf]
    simp [hne])]
  rw [hinc, hbuf, List.length_insertionSort, List.length_map,
    filter_expectedBuffer_length, ← List.range_eq_range']
  rw [List.filter_congr (q := fun j => decide (pre.length - 5 ≤ j ∧ j ≤ pre.length + 5))
    (fun x hx => by
      have hxK : x < calls.length := List.mem_range.mp hx
      simp only [decide_eq_decide, mem_window_positions]
      omega)]
  rw [count_interval]
  simp only [CONTEXT_WINDOW]
  omega

/-- Witness for C9 with `N = 7` and `M = 2`: the detail export has
`min(5,7) + 1 + min(5,2) = 8` rows. -/
theorem C9_context_window_witness :
    Aggregation.c9Pre.length + 1 + Aggregation.c9Post.length ≤
      Aggregation.CONTEXT_WINDOW * 20 ∧
    (∀ c ∈ Aggregation.c9Pre,
      strUpper c.new_state ∉ Aggregation.INTERESTING_STATES) ∧
    (∀ c ∈ Aggregation.c9Post,
      strUpper c.new_state ∉ Aggregation.INTERESTING_STATES) ∧
    strUpper Aggregation.c9Mid.new_state ∈ Aggregation.INTERESTING_STATES ∧
    (((Aggregation.feed { bucket_size_sec := 300 }
        (Aggregation.c9Pre ++ Aggregation.c9Mid :: Aggregation.c9Post)).get_detail).length =
      min Aggregation.CONTEXT_WINDOW Aggregation.c9Pre.length + 1 +
        min Aggregation.CONTEXT_WINDOW Aggregation.c9Post.length ∧
    List.Sorted (fun a b : Aggregation.DetailRow => a.sim_time_sec ≤ b.sim_time_sec)
      ((Aggregation.feed { bucket_size_sec := 300 }
        (Aggregation.c9Pre ++ Aggregation.c9Mid :: Aggregation.c9Post)).get_detail)) :=
  ⟨by decide, by decide, by decide, by decide,
    C9_context_window 300 Aggregation.c9Pre Aggregation.c9Post Aggregation.c9Mid
      (by decide) (by decide) (by decide) (by decide)⟩

open Models in
/-- C5 (transform postcondition): for every cycle with non-empty collected
inputs, if `output_type` is none the Transform step forwards the first
collected input unchanged and creates no new Item; otherwise it creates
exactly one new Item whose lineage is the list of input ids and whose
`is_defective` flag is `(draw < defect_rate) OR (some input defective)`.
Both the phase implementation (`TransformPhase.execute`) and the legacy
`Equipment._transform_material` are covered. -/
theorem C5_transform_postcondition (cfg : MachineConfig)
    (context : PhaseContext) (tg : Option TelemetryGenerator)
    (inputs : List Product) (first : Product) (rest : List Product)
    (draw now : ℚ) (uid : String)
    (hctx : context.collected_inputs = first :: rest) :
    ((cfg.output_type = MaterialType.NONE →
        TransformPhase_execute cfg context inputs draw now uid =
          some ({ context with
                    transformed_output := some first
                    new_defect_created := false },
                { outputs := [first], new_defect := false })) ∧
      (cfg.output_type ≠ MaterialType.NONE →
        ∃ out : Product,
          TransformPhase_execute cfg context inputs draw now uid =
            some ({ context with
                      transformed_output := some out
                      new_defect_created := decide (draw < cfg.quality.defect_rate) },
                  { outputs := [out]
                    new_defect := decide (draw < cfg.quality.defect_rate) }) ∧
          out.genealogy = (first :: rest).map (·.uid) ∧
          out.is_defective =
            (decide (draw < cfg.quality.defect_rate) ||
              (first :: rest).any (·.is_defective)) ∧
          out.uid = uid ∧ out.type = cfg.output_type ∧ out.created_at = now ∧
          out.parent_machine = cfg.name ∧ out.telemetry = [])) ∧
    ((cfg.output_type = MaterialType.NONE →
        transform_material cfg tg (first :: rest) draw now uid =
          some (first, false)) ∧
      (cfg.output_type ≠ MaterialType.NONE →
        ∃ out : Product,
          transform_material cfg tg (first :: rest) draw now uid =
            some (out, decide (draw < cfg.quality.defect_rate)) ∧
          out.genealogy = (first :: rest).map (·.uid) ∧
          out.is_defective =
            (decide (draw < cfg.quality.defect_rate) ||
              (first :: rest).any (·.is_defective)) ∧
          out.uid = uid ∧ out.type = cfg.output_type ∧ out.created_at = now ∧
          out.parent_machine = cfg.name)) := by
  have hne : context.collected_inputs ≠ [] := by rw [hctx]; simp
  refine ⟨⟨?_, ?_⟩, ?_, ?_⟩
  · intro h0
    simp [TransformPhase_execute, hctx, h0, hne]
  · intro h0
    refine ⟨{ uid := uid, type := cfg.output_type, created_at := now
              parent_machine := cfg.name
              is_defective := (first :: rest).any (·.is_defective) ||
                decide (draw < cfg.quality.defect_rate)
              genealogy := (first :: rest).map (·.uid)
              telemetry := [] }, ?_, by simp, by simp [Bool.or_comm], rfl, rfl,
      rfl, rfl, rfl⟩
    simp [TransformPhase_execute, hctx, h0, hne]
  · intro h0
    simp [transform_material, h0]
  · intro h0
    refine ⟨{ uid := uid, type := cfg.output_type, created_at := now
              parent_machine := cfg.name
              is_defective := (first :: rest).any (·.is_defective) ||
                decide (draw < cfg.quality.defect_rate)
              genealogy := (first :: rest).map (·.uid)
              telemetry :=
                match tg with
                | some g =>
                    if g.has_config_for cfg.output_type.enum_name then
                      g.generate cfg.output_type.enum_name (first :: rest)
                    else []
                | none => [] }, ?_, by simp, by simp [Bool.or_comm], rfl, rfl,
      rfl, rfl⟩
    simp [transform_material, h0]

/-- Witness for C5: a tube-producing station with a good and a defective
collected input forwards/creates as the claim states. -/
theorem C5_transform_postcondition_witness :
    Models.c5Ctx.collected_inputs = Models.goodTube :: [Models.badTube] ∧
    (((Models.fillerCfg.output_type = Models.MaterialType.NONE →
        Models.TransformPhase_execute Models.fillerCfg Models.c5Ctx [] 2 0 "u1" =
          some ({ Models.c5Ctx with
                    transformed_output := some Models.goodTube
                    new_defect_created := false },
                { outputs := [Models.goodTube], new_defect := false })) ∧
      (Models.fillerCfg.output_type ≠ Models.MaterialType.NONE →
        ∃ out : Models.Product,
          Models.TransformPhase_execute Models.fillerCfg Models.c5Ctx [] 2 0 "u1" =
            some ({ Models.c5Ctx with
                      transformed_output := some out
                      new_defect_created :=
                        decide ((2 : ℚ) < Models.fillerCfg.quality.defect_rate) },
                  { outputs := [out]
                    new_defect :=
                      decide ((2 : ℚ) < Models.fillerCfg.quality.defect_rate) }) ∧
          out.genealogy =
            (Models.goodTube :: [Models.badTube]).map (·.uid) ∧
          out.is_defective =
            (decide ((2 : ℚ) < Models.fillerCfg.quality.defect_rate) ||
              (Models.goodTube :: [Models.badTube]).any (·.is_defective)) ∧
          out.uid = "u1" ∧ out.type = Models.fillerCfg.output_type ∧
          out.created_at = 0 ∧ out.parent_machine = Models.fillerCfg.name ∧
          out.telemetry = [])) ∧
    ((Models.fillerCfg.output_type = Models.MaterialType.NONE →
        Models.transform_material Models.fillerCfg none
          (Models.goodTube :: [Models.badTube]) 2 0 "u1" =
          some (Models.goodTube, false)) ∧
      (Models.fillerCfg.output_type ≠ Models.MaterialType.NONE →
        ∃ out : Models.Product,
          Models.transform_material Models.fillerCfg none
            (Models.goodTube :: [Models.badTube]) 2 0 "u1" =
            some (out, decide ((2 : ℚ) < Models.fillerCfg.quality.defect_rate)) ∧
          out.genealogy =
            (Models.goodTube :: [Models.badTube]).map (·.uid) ∧
          out.is_defective =
            (decide ((2 : ℚ) < Models.fillerCfg.quality.defect_rate) ||
              (Models.goodTube :: [Models.badTube]).any (·.is_defective)) ∧
          out.uid = "u1" ∧ out.type = Models.fillerCfg.output_type ∧
          out.created_at = 0 ∧ out.parent_machine = Models.fillerCfg.name))) :=
  ⟨rfl,
    C5_transform_postcondition Models.fillerCfg Models.c5Ctx none [] Models.goodTube
      [Models.badTube] 2 0 "u1" rfl⟩

/-- Counterexample for C6 as stated: the phase-based Transform
(`TransformPhase.execute`) creates a new Item with an empty telemetry map
even though a generator config exists for the output material type (the
generator would return a non-empty map). -/
theorem C6_telemetry_counterexample :
    Models.exGen.has_config_for Models.MaterialType.TUBE.enum_name = true ∧
    Models.exGen.generate Models.MaterialType.TUBE.enum_name
      Models.c6Ctx.collected_inputs = [("fill_level", 1)] ∧
    Models.c6Ctx.telemetry_gen = some Models.exGen ∧
    Models.TransformPhase_execute Models.fillerCfg Models.c6Ctx [] 2 0 "u1" =
      some ({ Models.c6Ctx with
                transformed_output := some Models.c6Out
                new_defect_created := false },
            { outputs := [Models.c6Out], new_defect := false }) ∧
    Models.c6Out.telemetry = [] :=
  ⟨rfl, rfl, rfl, rfl, rfl⟩

open Models in
/-- C6 as amended: only the legacy `Equipment._transform_material` consults
the telemetry generator — when it creates a new Item, the telemetry map is
the generator's output exactly when a generator config exists for the output
material type and empty otherwise — while `TransformPhase.execute` always
attaches an empty telemetry map to the Items it creates. -/
theorem C6_telemetry_dispatch (cfg : MachineConfig) (context : PhaseContext)
    (tg : Option TelemetryGenerator) (inputs : List Product) (draw now : ℚ)
    (uid : String) (h0 : cfg.output_type ≠ MaterialType.NONE) :
    (∃ p nd, transform_material cfg tg inputs draw now uid = some (p, nd) ∧
      p.telemetry =
        (match tg with
         | some g =>
             if g.has_config_for cfg.output_type.enum_name then
               g.generate cfg.output_type.enum_name inputs
             else []
         | none => [])) ∧
    (∃ ctx' res out,
      TransformPhase_execute cfg context inputs draw now uid =
        some (ctx', res) ∧ res.outputs = [out] ∧ out.telemetry = []) := by
  constructor
  · refine ⟨{ uid := uid, type := cfg.output_type, created_at := now
              parent_machine := cfg.name
              is_defective := inputs.any (·.is_defective) ||
                decide (draw < cfg.quality.defect_rate)
              genealogy := inputs.map (·.uid)
              telemetry :=
                match tg with
                | some g =>
                    if g.has_config_for cfg.output_type.enum_name then
                      g.generate cfg.output_type.enum_name inputs
                    else []
                | none => [] },
      decide (draw < cfg.quality.defect_rate), ?_, rfl⟩
    simp [transform_material, h0]
  · have hT : TransformPhase_execute cfg context inputs draw now uid =
        some
          ({ context with
              transformed_output := some
                { uid := uid, type := cfg.output_type, created_at := now
                  parent_machine := cfg.name
                  is_defective :=
                    (if context.collected_inputs ≠ [] then
                        context.collected_inputs
                      else inputs).any (·.is_defective) ||
                      decide (draw < cfg.quality.defect_rate)
                  genealogy :=
                    (if context.collected_inputs ≠ [] then
                        context.collected_inputs
                      else inputs).map (·.uid)
                  telemetry := [] }
              new_defect_created := decide (draw < cfg.quality.defect_rate) },
           { outputs :=
              [{ uid := uid, type := cfg.output_type, created_at := now
                 parent_machine := cfg.name
                 is_defective :=
                   (if context.collected_inputs ≠ [] then
                       context.collected_inputs
                     else inputs).any (·.is_defective) ||
                     decide (draw < cfg.quality.defect_rate)
                 genealogy :=
                   (if context.collected_inputs ≠ [] then
                       context.collected_inputs
                     else inputs).map (·.uid)
                 telemetry := [] }]
             new_defect := decide (draw < cfg.quality.defect_rate) }) := by
      simp only [TransformPhase_execute, if_neg h0]
    exact ⟨_, _, _, hT, rfl, rfl⟩

/-- Witness for C6 (amended) at a tube-producing station with a generator
that has a config for TUBE. -/
theorem C6_telemetry_dispatch_witness :
    Models.fillerCfg.output_type ≠ Models.MaterialType.NONE ∧
    ((∃ p nd,
      Models.transform_material Models.fillerCfg (some Models.exGen)
        [Models.goodTube] 2 0 "u1" = some (p, nd) ∧
      p.telemetry =
        (match some Models.exGen with
         | some g =>
             if g.has_config_for Models.fillerCfg.output_type.enum_name then
               g.generate Models.fillerCfg.output_type.enum_name [Models.goodTube]
             else []
         | none => [])) ∧
    (∃ ctx' res out,
      Models.TransformPhase_execute Models.fillerCfg Models.c6Ctx [Models.goodTube]
          2 0 "u1" =
        some (ctx', res) ∧ res.outputs = [out] ∧ out.telemetry = [])) :=
  ⟨by decide,
    C6_telemetry_dispatch Models.fillerCfg Models.c6Ctx (some Models.exGen)
      [Models.goodTube] 2 0 "u1" (by decide)⟩

open Behavior Models in
/-- C7 (phase enablement): under the default behavior, Breakdown runs iff
`mtbf_min` is set, Microstop runs iff `jam_prob > 0`, Collect, Execute,
Transform and Inspect always run (every phase has a registered instance),
and a skipped phase contributes no duration and no state change: the cycle
over all phases equals the cycle over just the enabled ones, for every phase
semantics `step`. -/
theorem C7_phase_enablement (mc : MachineConfig) (step : PhaseStep)
    (context : PhaseContext) (inputs : List Product) (combined : PhaseResult) :
    should_run_phase DEFAULT_BEHAVIOR breakdownCfg mc =
      mc.reliability.mtbf_min.isSome ∧
    should_run_phase DEFAULT_BEHAVIOR microstopCfg mc =
      decide (0 < mc.performance.jam_prob) ∧
    should_run_phase DEFAULT_BEHAVIOR collectCfg mc = true ∧
    should_run_phase DEFAULT_BEHAVIOR executeCfg mc = true ∧
    should_run_phase DEFAULT_BEHAVIOR transformCfg mc = true ∧
    should_run_phase DEFAULT_BEHAVIOR inspectCfg mc = true ∧
    (∀ pc ∈ DEFAULT_BEHAVIOR.phases,
      dictGet? (phase_instances DEFAULT_BEHAVIOR) pc.name = some pc.handler) ∧
    run_cycle_loop DEFAULT_BEHAVIOR step mc DEFAULT_BEHAVIOR.phases context
        inputs combined =
      run_cycle_loop DEFAULT_BEHAVIOR step mc
        (DEFAULT_BEHAVIOR.phases.filter
          (fun pc => should_run_phase DEFAULT_BEHAVIOR pc mc))
        context inputs combined := by
  refine ⟨?_, ?_, rfl, rfl, rfl, rfl, by decide, run_cycle_loop_filter _ _ _ _ _ _ _⟩
  · rfl
  · rfl

/-- C10 (routing fallback): for every connection record and product,
`NodeConnections.get_route` returns a store whenever at least one downstream
route exists; when no rule matches and there is no default downstream it
returns the first route's store; and it returns the `ValueError` message
exactly when the node has no downstream routes and no default at all. -/
theorem C10_routing_fallback (conn : Layout.NodeConnections)
    (p : Models.Product) :
    (conn.downstream_routes ≠ [] →
      ∃ s, Layout.NodeConnections.get_route conn p = Except.ok s) ∧
    (∀ first rest, conn.downstream_routes = first :: rest →
      (∀ r ∈ conn.downstream_routes, Layout.RoutingRule.matches r p = false) →
      conn.default_downstream = none →
      Layout.NodeConnections.get_route conn p =
        Except.ok (Layout.RoutingRule.store first)) ∧
    (∀ msg, Layout.NodeConnections.get_route conn p = Except.error msg →
      conn.downstream_routes = [] ∧ conn.default_downstream = none ∧
        msg = "No downstream route found for product") := by
  refine ⟨?_, ?_, ?_⟩
  · intro hne
    rcases hfind : conn.downstream_routes.find?
        (fun rule => Layout.RoutingRule.matches rule p) with _ | r
    · rcases hdef : conn.default_downstream with _ | s
      · rcases hroutes : conn.downstream_routes with _ | ⟨r0, rest⟩
        · exact absurd hroutes hne
        · rw [hroutes] at hfind
          exact ⟨r0.store,
            by simp [Layout.NodeConnections.get_route, hfind, hdef, hroutes]⟩
      · exact ⟨s, by simp [Layout.NodeConnections.get_route, hfind, hdef]⟩
    · exact ⟨r.store, by simp [Layout.NodeConnections.get_route, hfind]⟩
  · intro first rest hroutes hnomatch hdef
    have hfind : conn.downstream_routes.find?
        (fun rule => Layout.RoutingRule.matches rule p) = none := by
      rw [List.find?_eq_none]
      intro r hr
      simp [hnomatch r hr]
    rw [hroutes] at hfind
    simp [Layout.NodeConnections.get_route, hfind, hdef, hroutes]
  · intro msg herr
    rcases hfind : conn.downstream_routes.find?
        (fun rule => Layout.RoutingRule.matches rule p) with _ | r
    · rcases hdef : conn.default_downstream with _ | s
      · rcases hroutes : conn.downstream_routes with _ | ⟨r0, rest⟩
        · refine ⟨rfl, rfl, ?_⟩
          rw [hroutes] at hfind
          simp [Layout.NodeConnections.get_route, hfind, hdef, hroutes] at herr
          exact herr.symm
        · rw [hroutes] at hfind
          simp [Layout.NodeConnections.get_route, hfind, hdef, hroutes] at herr
      · simp [Layout.NodeConnections.get_route, hfind, hdef] at herr
    · simp [Layout.NodeConnections.get_route, hfind] at herr

/-- Witness for C10: a connection with one conditioned route (to the reject
store) that the non-defective product fails to match and no default
downstream still routes to the first route's store. -/
theorem C10_routing_fallback_witness :
    Layout.c10Conn.downstream_routes ≠ [] ∧
    (∀ r ∈ Layout.c10Conn.downstream_routes,
      Layout.RoutingRule.matches r Models.goodTube = false) ∧
    Layout.c10Conn.default_downstream = none ∧
    Layout.NodeConnections.get_route Layout.c10Conn Models.goodTube =
      Except.ok Layout.StoreRef.rejectStore := by
  refine ⟨by decide, by decide, rfl, ?_⟩
  exact (C10_routing_fallback Layout.c10Conn Models.goodTube).2.1 _ _ rfl
    (by decide) rfl

/-- C4 (counterexample): the graph `g4` has mixed conditional/unconditional
outgoing edges at node `A`, yet `LayoutBuilder.build` succeeds on it — no
error is raised at layout-build time; the mix is only reported by
`TopologyGraph.validate` as an error string. -/
theorem C4_mixed_edge_counterexample :
    ((Topology.outgoing Topology.g4 "A").filter
        (fun e => Topology.condTruthy e.condition) ≠ [] ∧
      ((Topology.outgoing Topology.g4 "A").filter
        (fun e => Topology.condTruthy e.condition)).length ≠
        (Topology.outgoing Topology.g4 "A").length) ∧
    (Layout.build Topology.g4 Layout.cfg4).isOk = true ∧
    Topology.mixedMessage "A" ∈ Topology.validate Topology.g4 ∧
    Topology.is_valid Topology.g4 = false :=
  ⟨by decide, by rfl, by decide, by decide⟩

/-- C4 (amended): whenever some node of a graph has mixed
conditional/unconditional outgoing edges, `TopologyGraph.validate` returns
the mixed-edge error message for that node, making `is_valid` false; the
mix is only reported this way, never raised, and `LayoutBuilder.build` does
not consult `validate` at all. -/
theorem C4_mixed_edge_validation (g : Topology.TopologyGraph) (name : String)
    (hmem : name ∈ g.nodes)
    (hne : (Topology.outgoing g name).filter
        (fun e => Topology.condTruthy e.condition) ≠ [])
    (hlen : ((Topology.outgoing g name).filter
        (fun e => Topology.condTruthy e.condition)).length ≠
      (Topology.outgoing g name).length) :
    Topology.mixedMessage name ∈ Topology.validate g ∧
    Topology.is_valid g = false := by
  have h5 : Topology.mixedMessage name ∈ Topology.mixedFlag g name := by
    unfold Topology.mixedFlag
    simp only [if_pos (And.intro hne hlen)]
    exact List.mem_singleton_self _
  have hv : Topology.mixedMessage name ∈ Topology.validate g := by
    have h5' : Topology.mixedMessage name ∈ g.nodes.flatMap (Topology.mixedFlag g) :=
      List.mem_flatMap.mpr ⟨name, hmem, h5⟩
    unfold Topology.validate
    simp only [List.mem_append]
    tauto
  refine ⟨hv, ?_⟩
  simp only [Topology.is_valid, decide_eq_false_iff_not]
  intro h0
  rw [h0] at hv
  exact (List.not_mem_nil _) hv

/-- Witness for C4: node `A` of `g4` has mixed outgoing edges, the message
appears in the validation errors, and validation fails. -/
theorem C4_mixed_edge_validation_witness :
    "A" ∈ Topology.g4.nodes ∧
    Topology.mixedMessage "A" ∈ Topology.validate Topology.g4 ∧
    Topology.is_valid Topology.g4 = false :=
  ⟨by decide,
    (C4_mixed_edge_validation Topology.g4 "A" (by decide) (by decide)
      (by decide)).1,
    (C4_mixed_edge_validation Topology.g4 "A" (by decide) (by decide)
      (by decide)).2⟩

/-- C3 (topological order): for every well-formed acyclic topology graph,
`topological_order` emits exactly the `N` nodes, each edge's source strictly
before its target; for every graph containing a cycle, fully consuming it
yields a `CycleDetectedError` whose `visited` count is strictly fewer than
`N` and whose message reports both numbers. -/
theorem C3_topological_order (g : Topology.TopologyGraph)
    (hwf : Topology.wellFormed g) :
    ((¬∃ v, Relation.TransGen (Topology.edgeRel g) v v) →
      ∃ l, Topology.topological_order g = Except.ok l ∧
        l.length = g.nodes.length ∧ l.Nodup ∧ (∀ a ∈ l, a ∈ g.nodes) ∧
        ∀ e ∈ g.edges, ∀ l₁ l₂, l = l₁ ++ e.target :: l₂ → e.source ∈ l₁) ∧
    (∀ v, Relation.TransGen (Topology.edgeRel g) v v →
      ∃ err, Topology.topological_order g = Except.error err ∧
        err.total = g.nodes.length ∧ err.visited < g.nodes.length ∧
        Topology.CycleDetectedError.message err =
          "Topology graph contains a cycle. Visited " ++
            toString err.visited ++ " of " ++ toString err.total ++
            " nodes.") := by
  obtain ⟨hnodup, hwf2⟩ := hwf
  constructor
  · intro hacyc
    have hlen := Topology.kahnRun_complete g hnodup hwf2 hacyc
    obtain ⟨hnd, hsub, hF, _⟩ := Topology.kahnRun_spec g hnodup hwf2
    refine ⟨Topology.kahnRun g, ?_, hlen, hnd, hsub, hF⟩
    unfold Topology.topological_order
    rw [if_neg (by omega)]
  · intro v hv
    have hlt := Topology.kahnRun_cyclic g hnodup hwf2 v hv
    refine ⟨⟨(Topology.kahnRun g).length, g.nodes.length⟩, ?_, rfl, hlt, rfl⟩
    unfold Topology.topological_order
    rw [if_pos (by omega)]

/-- Witness for C3: the acyclic line `_source → A → _sink` is emitted in
full in dependency order, and the cyclic graph `A → B → A` produces a
`CycleDetectedError` having visited fewer than its two nodes. -/
theorem C3_topological_order_witness :
    (∃ l, Topology.topological_order Topology.c3Dag = Except.ok l ∧
      l.length = Topology.c3Dag.nodes.length ∧ l.Nodup ∧
      (∀ a ∈ l, a ∈ Topology.c3Dag.nodes) ∧
      ∀ e ∈ Topology.c3Dag.edges, ∀ l₁ l₂, l = l₁ ++ e.target :: l₂ →
        e.source ∈ l₁) ∧
    (∃ err, Topology.topological_order Topology.c3Cyc = Except.error err ∧
      err.total = Topology.c3Cyc.nodes.length ∧
      err.visited < Topology.c3Cyc.nodes.length ∧
      Topology.CycleDetectedError.message err =
        "Topology graph contains a cycle. Visited " ++
          toString err.visited ++ " of " ++ toString err.total ++
          " nodes.") := by
  constructor
  · apply (C3_topological_order Topology.c3Dag ⟨by decide, by decide⟩).1
    rintro ⟨v, hv⟩
    have mono : ∀ a b, Topology.edgeRel Topology.c3Dag a b →
        Topology.rank3 a < Topology.rank3 b := by
      rintro a b ⟨e, he, hs, ht⟩
      subst hs
      subst ht
      fin_cases he <;> decide
    have tmono : ∀ a b, Relation.TransGen (Topology.edgeRel Topology.c3Dag) a b →
        Topology.rank3 a < Topology.rank3 b := by
      intro a b h
      induction h with
      | single h => exact mono _ _ h
      | tail _ h ihr => exact ihr.trans (mono _ _ h)
    exact absurd (tmono v v hv) (lt_irrefl _)
  · apply (C3_topological_order Topology.c3Cyc ⟨by decide, by decide⟩).2 "A"
    exact Relation.TransGen.tail
      (Relation.TransGen.single
        ⟨{ source := "A", target := "B" }, by decide, rfl, rfl⟩)
      ⟨{ source := "B", target := "A" }, by decide, rfl, rfl⟩

theorem C1_two_run_determinism (P : Engine.SimParams)
    (cfgs : List Models.MachineConfig) (inventory : ℕ)
    (material : Models.MaterialType) (parent : String) (fuel : ℕ)
    (o₁ o₂ : ℕ → String) :
    Engine.trace
        (Engine.runSimulation P cfgs inventory material parent fuel o₁) =
      Engine.trace
        (Engine.runSimulation P cfgs inventory material parent fuel o₂) ∧
    Engine.summary
        (Engine.runSimulation P cfgs inventory material parent fuel o₁) =
      Engine.summary
        (Engine.runSimulation P cfgs inventory material parent fuel o₂) := by
  have key : ∀ o : ℕ → String,
      Engine.mapState (fun _ => ())
          (Engine.runSimulation P cfgs inventory material parent fuel o) =
        Engine.runSimulation P cfgs inventory material parent fuel
          (fun _ => ()) := by
    intro o
    unfold Engine.runSimulation
    rw [Engine.runSim_map, Engine.initState_map]
  have htr : ∀ o : ℕ → String,
      Engine.trace
          (Engine.runSimulation P cfgs inventory material parent fuel o) =
        Engine.trace
          (Engine.runSimulation P cfgs inventory material parent fuel
            (fun _ => ())) := by
    intro o
    rw [← key o, Engine.trace_map]
  have hsum : ∀ o : ℕ → String,
      Engine.summary
          (Engine.runSimulation P cfgs inventory material parent fuel o) =
        Engine.summary
          (Engine.runSimulation P cfgs inventory material parent fuel
            (fun _ => ())) := by
    intro o
    rw [← key o, Engine.summary_map]
  exact ⟨(htr o₁).trans (htr o₂).symm, (hsum o₁).trans (hsum o₂).symm⟩
